import Mathlib

/-!
# Cloud-Cost-Optimizer: resource-limit monitoring and auto-shutdown

A shallow embedding of the limit-management routes of `server/server.js`
(`POST /api/instance-limits`, `POST /api/monitor-instance`), of the stop
route (`POST /api/stop-instance`), of the manual alert route
(`POST /api/send-low-utilization-email`) with the client gate in front of it,
of the background low-utilization pass (`monitorLowUtilizationInstances`)
and of the monitoring lambda (`server/lambda/instance-auto-monitor.js`).

Conventions of the embedding.

* MongoDB collections are lists of documents in insertion order; `findOne`
  is the first match, `updateOne` rewrites the first match, and an upsert
  that matches nothing appends a new document.  Driver failures are not
  modelled: the store operations always succeed.
* JavaScript numbers that carry CPU percentages are finite doubles; they are
  embedded as rationals, on which `>`, `<` and `<=` agree with the double
  comparison.  Dates are their millisecond value, an integer.
* Calls to the cloud provider and to the mail service are external: their
  outcome is an input of the model (`Except String _`, the error being the
  message of the thrown value) and every issued call is recorded in a trace
  of `Effect`s, in program order.
* The wall clock is an input `clock : Nat → Int`; `clock k` is the value read
  by the k-th `new Date()` or `Date.now()` of the modelled block, counted in
  source order from 0.
* Console output is not modelled; message texts that interpolate numbers are
  kept as structured values.
-/

namespace CloudCostOptimizer

/-! ## Data model -/

/-- A document of `instanceLimitsCollection`.  Fields that some writers leave
out (`POST /api/instance-auto-monitor` upserts only `autoMonitoring`,
`cpuLimit` and `updatedAt`) are optional; `lastBreach = none` stands for both
`null` and an absent field. -/
structure InstanceLimit where
  userId : String
  instanceId : String
  cpuLimit : ℚ
  autoShutdown : Option Bool
  autoMonitoring : Option Bool
  createdAt : Option Int
  updatedAt : Option Int
  breachCount : Option Nat
  lastBreach : Option Int
  deriving DecidableEq, Repr

/-- Value stored in the in-memory `instanceMonitoring` map. -/
structure MonitorState where
  alertShown : Bool
  deriving DecidableEq, Repr

/-- The `Name` of an EC2 state object (`PreviousState`, `CurrentState`); the
name itself may be missing. -/
structure InstanceState where
  name : Option String
  deriving DecidableEq, Repr

/-- One element of `StoppingInstances` in the response of
`StopInstancesCommand`. -/
structure InstanceStateChange where
  previousState : Option InstanceState
  currentState : Option InstanceState
  deriving DecidableEq, Repr

/-- A document of `historyCollection` written by the automatic shutdown.  The
`reason` text `CPU x% exceeded limit y%` is kept as the pair `(x, y)`; a
`reason` that is a given string is `reasonText`. -/
structure HistoryEntry where
  userId : String
  username : String
  action : String
  instanceId : String
  reason : Option (ℚ × ℚ)
  previousState : Option String
  currentState : Option String
  instanceName : Option String
  cpuUsage : Option ℚ
  emailSent : Option Bool
  timestamp : Int
  reasonText : Option String := none
  deriving DecidableEq, Repr

/-- A document of `activityLogsCollection` (see `logActivity`).  The fields
after `timestamp` are the entries of `metadata` that only some callers
set. -/
structure ActivityLog where
  userId : String
  action : String
  instanceId : String
  cpuLimit : Option ℚ
  autoShutdown : Option Bool
  timestamp : Int
  reason : Option String := none
  region : Option String := none
  previousState : Option String := none
  currentState : Option String := none
  cpuUsage : Option ℚ := none
  deriving DecidableEq, Repr

/-- A document of the `emailAlertHistory` collection. -/
structure EmailAlertRecord where
  userId : String
  instanceId : String
  instanceName : Option String
  cpuUsage : Option ℚ
  type : String
  emailSent : Option Bool
  timestamp : Int
  deriving DecidableEq, Repr

/-- A call to an external service, as issued by the code. -/
inductive Effect where
  | describeInstances (region : String) (instanceIds : List String)
  | getMetricStatistics (region : String) (instanceId : String)
      (startTime endTime : Int) (period : Nat)
  | stopInstances (region : String) (instanceIds : List String)
  | sendEmail (toEmail : String) (instanceId : String)
  | getCallerIdentity
  deriving DecidableEq, Repr

/-- Whether an effect is a `StopInstancesCommand`. -/
def Effect.isStop : Effect → Bool
  | .stopInstances _ _ => true
  | _ => false

/-- Whether an effect is a `GetMetricStatisticsCommand`. -/
def Effect.isMetricFetch : Effect → Bool
  | .getMetricStatistics _ _ _ _ _ => true
  | _ => false

/-- Number of stop commands in a trace. -/
def stopCount (tr : List Effect) : Nat := tr.countP Effect.isStop

/-- The persistent collections and the process memory of the server. -/
structure ServerState where
  instanceLimits : List InstanceLimit
  instanceMonitoring : List (String × MonitorState)
  history : List HistoryEntry
  activityLogs : List ActivityLog
  emailAlertHistory : List EmailAlertRecord
  deriving DecidableEq, Repr

/-! ## Store primitives -/

/-- Filter `{ userId, instanceId }` on `instanceLimitsCollection`. -/
def matchesKey (userId instanceId : String) (d : InstanceLimit) : Bool :=
  d.userId == userId && d.instanceId == instanceId

/-- The query `collection.findOne({ userId, instanceId })`. -/
def findOne (docs : List InstanceLimit) (userId instanceId : String) :
    Option InstanceLimit :=
  docs.find? (matchesKey userId instanceId)

/-- The call `collection.updateOne(filter, update)` without upsert: the first matching
document is rewritten by `f`, every other document is left alone. -/
def updateOne (userId instanceId : String) (f : InstanceLimit → InstanceLimit) :
    List InstanceLimit → List InstanceLimit
  | [] => []
  | d :: ds =>
    if matchesKey userId instanceId d then f d :: ds
    else d :: updateOne userId instanceId f ds

/-- The call `collection.updateOne(filter, update, { upsert: true })`: as `updateOne`,
and when nothing matches the document `fresh` is inserted. -/
def upsertOne (userId instanceId : String) (f : InstanceLimit → InstanceLimit)
    (fresh : InstanceLimit) (docs : List InstanceLimit) : List InstanceLimit :=
  match findOne docs userId instanceId with
  | some _ => updateOne userId instanceId f docs
  | none => docs ++ [fresh]

/-- Key of the `instanceMonitoring` map, the template
`userId:instanceId`. -/
def limitKey (userId instanceId : String) : String :=
  userId ++ ":" ++ instanceId

/-- The method `Map.prototype.get`. -/
def mapGet (m : List (String × MonitorState)) (k : String) : Option MonitorState :=
  (m.find? (fun e => e.1 == k)).map Prod.snd

/-- The method `Map.prototype.has`. -/
def mapHas (m : List (String × MonitorState)) (k : String) : Bool :=
  m.any (fun e => e.1 == k)

/-- The method `Map.prototype.delete`. -/
def mapDelete (m : List (String × MonitorState)) (k : String) :
    List (String × MonitorState) :=
  m.filter (fun e => !(e.1 == k))

/-- The method `Map.prototype.set`: an existing key keeps its position. -/
def mapSet (m : List (String × MonitorState)) (k : String) (v : MonitorState) :
    List (String × MonitorState) :=
  if mapHas m k then m.map (fun e => if e.1 == k then (k, v) else e)
  else m ++ [(k, v)]

/-- JavaScript truthiness of a value that is a string or `undefined`. -/
def truthyStr : Option String → Bool
  | some s => s != ""
  | none => false

/-- JavaScript truthiness of a value that is a boolean or `undefined`. -/
def truthyBool : Option Bool → Bool
  | some b => b
  | none => false

/-! ## `POST /api/instance-limits` -/

/-- Body of `POST /api/instance-limits` together with the authenticated
user.  `cpuLimit` is a number or `undefined`; on a finite number
`parseFloat` is the identity. -/
structure SaveLimitRequest where
  userId : String
  instanceId : Option String
  cpuLimit : Option ℚ
  autoShutdown : Option Bool
  deriving DecidableEq, Repr

/-- Response of `POST /api/instance-limits`. -/
structure SaveLimitResponse where
  status : Nat
  success : Bool
  instanceId : Option String
  cpuLimit : Option ℚ
  autoShutdown : Option Bool
  deriving DecidableEq, Repr

/-- The binding `const limitVal = cpuLimit !== undefined ? parseFloat(cpuLimit) : 80`. -/
def limitVal (cpuLimit : Option ℚ) : ℚ :=
  match cpuLimit with
  | some x => x
  | none => 80

/-- The binding `const shutdownVal = autoShutdown !== undefined ? autoShutdown : true`. -/
def shutdownVal (autoShutdown : Option Bool) : Bool :=
  match autoShutdown with
  | some b => b
  | none => true

/-- The `$set` part of the update of `POST /api/instance-limits`. -/
def applySave (req : SaveLimitRequest) (clock : Nat → Int) (d : InstanceLimit) :
    InstanceLimit :=
  { d with cpuLimit := limitVal req.cpuLimit,
           autoShutdown := some (shutdownVal req.autoShutdown),
           updatedAt := some (clock 0) }

/-- The document inserted by `POST /api/instance-limits` when none matches:
the filter fields, the `$set` part and the `$setOnInsert` part. -/
def freshLimit (req : SaveLimitRequest) (instanceId : String) (clock : Nat → Int) :
    InstanceLimit :=
  { userId := req.userId, instanceId := instanceId, cpuLimit := limitVal req.cpuLimit,
    autoShutdown := some (shutdownVal req.autoShutdown), autoMonitoring := none,
    createdAt := some (clock 1), updatedAt := some (clock 0),
    breachCount := some 0, lastBreach := none }

/-- Handler of `POST /api/instance-limits`. -/
def saveInstanceLimit (st : ServerState) (req : SaveLimitRequest)
    (clock : Nat → Int) : ServerState × SaveLimitResponse :=
  match req.instanceId with
  | none =>
    (st, { status := 400, success := false, instanceId := none,
           cpuLimit := none, autoShutdown := none })
  | some instanceId =>
    if instanceId = "" then
      (st, { status := 400, success := false, instanceId := none,
             cpuLimit := none, autoShutdown := none })
    else
      let lv := limitVal req.cpuLimit
      let sv := shutdownVal req.autoShutdown
      let limits := upsertOne req.userId instanceId (applySave req clock)
        (freshLimit req instanceId clock) st.instanceLimits
      let log : ActivityLog :=
        { userId := req.userId, action := "Update Instance Limit",
          instanceId := instanceId, cpuLimit := some lv,
          autoShutdown := some sv, timestamp := clock 2 }
      ({ st with instanceLimits := limits, activityLogs := st.activityLogs ++ [log] },
       { status := 200, success := true, instanceId := some instanceId,
         cpuLimit := some lv, autoShutdown := some sv })

/-- The handler `handleLimitChange` of `ResourceManagement.jsx`: the new `cpuLimit` kept
in the client state, `parseInt(value) || DEFAULT_CPU_LIMIT`.  The argument is
the result of `parseInt` (`none` for `NaN`). -/
def handleLimitChange (parsed : Option Int) : Int :=
  match parsed with
  | some n => if n = 0 then 80 else n
  | none => 80

/-! ## `POST /api/monitor-instance` -/

/-- Body of `POST /api/monitor-instance` together with the authenticated
user. -/
structure MonitorRequest where
  userId : String
  username : String
  instanceId : String
  currentCPU : ℚ
  awsAccessKey : Option String
  awsSecretKey : Option String
  deriving DecidableEq, Repr

/-- The `message` of a monitor response; the texts that interpolate numbers
carry the numbers. -/
inductive MonitorMessage where
  | noLimit
  | stopped (instanceId : String)
  | stopFailed (errorMessage : String)
  | exceeded (instanceId : String) (currentCPU limit : ℚ)
  | withinLimits
  deriving DecidableEq, Repr

/-- Response of `POST /api/monitor-instance`. -/
structure MonitorResponse where
  status : Nat
  success : Bool
  action : String
  message : MonitorMessage
  instanceId : Option String
  previousState : Option String
  currentState : Option String
  reason : Option (ℚ × ℚ)
  currentCPU : Option ℚ
  limit : Option ℚ
  autoShutdown : Option Bool
  timestamp : Option Int
  deriving DecidableEq, Repr

/-- A monitor response with only the fields every branch sets. -/
def MonitorResponse.basic (status : Nat) (success : Bool) (action : String)
    (message : MonitorMessage) : MonitorResponse :=
  { status := status, success := success, action := action, message := message,
    instanceId := none, previousState := none, currentState := none,
    reason := none, currentCPU := none, limit := none, autoShutdown := none,
    timestamp := none }

/-- The update `{ $inc: { breachCount: 1 }, $set: { lastBreach: new Date() } }`;
`$inc` on a missing field starts from 0. -/
def recordBreach (now : Int) (d : InstanceLimit) : InstanceLimit :=
  { d with breachCount := some (d.breachCount.getD 0 + 1), lastBreach := some now }

/-- The read `stoppingInstance?.PreviousState?.Name`. -/
def previousStateName (s : Option InstanceStateChange) : Option String :=
  (s.bind (fun c => c.previousState)).bind (fun p => p.name)

/-- The read `stoppingInstance?.CurrentState?.Name`. -/
def currentStateName (s : Option InstanceStateChange) : Option String :=
  (s.bind (fun c => c.currentState)).bind (fun p => p.name)

/-- The expression `x || 'unknown'` on a value that is a string or `undefined`. -/
def orUnknown (x : Option String) : String :=
  match x with
  | some s => if s != "" then s else "unknown"
  | none => "unknown"

/-- Handler of `POST /api/monitor-instance`.  `awsRegion` is the constant
`AWS_REGION`; `stopResult` is the outcome of `ec2Client.send(stopCommand)`,
consulted only when the command is issued; `historyOk` tells whether the
`historyCollection.insertOne` of the shutdown succeeds (its failure is
caught and logged). -/
def monitorInstance (awsRegion : String) (st : ServerState) (req : MonitorRequest)
    (clock : Nat → Int) (stopResult : Except String (Option InstanceStateChange))
    (historyOk : Bool) : ServerState × MonitorResponse × List Effect :=
  match findOne st.instanceLimits req.userId req.instanceId with
  | none => (st, MonitorResponse.basic 200 true "none" .noLimit, [])
  | some limit =>
    let key := limitKey req.userId req.instanceId
    if req.currentCPU > limit.cpuLimit then
      let limits := updateOne req.userId req.instanceId (recordBreach (clock 0))
        st.instanceLimits
      let st1 := { st with instanceLimits := limits }
      if truthyBool limit.autoShutdown && truthyStr req.awsAccessKey
          && truthyStr req.awsSecretKey then
        let trace := [Effect.stopInstances awsRegion [req.instanceId]]
        match stopResult with
        | .ok stoppingInstance =>
          let st2 := { st1 with instanceMonitoring := mapDelete st1.instanceMonitoring key }
          let entry : HistoryEntry :=
            { userId := req.userId, username := req.username, action := "auto_shutdown",
              instanceId := req.instanceId,
              reason := some (req.currentCPU, limit.cpuLimit),
              previousState := some (orUnknown (previousStateName stoppingInstance)),
              currentState := some (orUnknown (currentStateName stoppingInstance)),
              instanceName := none, cpuUsage := none, emailSent := none,
              timestamp := clock 1 }
          let st3 := if historyOk then { st2 with history := st2.history ++ [entry] } else st2
          (st3,
           { (MonitorResponse.basic 200 true "stopped" (.stopped req.instanceId)) with
             instanceId := some req.instanceId,
             previousState := previousStateName stoppingInstance,
             currentState := currentStateName stoppingInstance,
             reason := some (req.currentCPU, limit.cpuLimit),
             timestamp := some (clock 2) },
           trace)
        | .error msg =>
          (st1, MonitorResponse.basic 500 false "error" (.stopFailed msg), trace)
      else
        let st2 :=
          match mapGet st1.instanceMonitoring key with
          | some _ => st1
          | none =>
            { st1 with
              instanceMonitoring := mapSet st1.instanceMonitoring key { alertShown := true } }
        (st2,
         { (MonitorResponse.basic 200 true "alert"
             (.exceeded req.instanceId req.currentCPU limit.cpuLimit)) with
           currentCPU := some req.currentCPU, limit := some limit.cpuLimit,
           autoShutdown := limit.autoShutdown },
         [])
    else
      let st1 :=
        if mapHas st.instanceMonitoring key then
          { st with instanceMonitoring := mapDelete st.instanceMonitoring key }
        else st
      (st1,
       { (MonitorResponse.basic 200 true "none" .withinLimits) with
         currentCPU := some req.currentCPU, limit := some limit.cpuLimit },
       [])

/-! ## The monitoring lambda (`lambda/instance-auto-monitor.js`) -/

/-- One element of `event.instanceLimits`. -/
structure LimitConfig where
  instanceId : String
  cpuLimit : ℚ
  autoShutdown : Option Bool
  deriving DecidableEq, Repr

/-- One CloudWatch datapoint: `Timestamp` and `Average`. -/
structure Datapoint where
  timestamp : Int
  average : ℚ
  deriving DecidableEq, Repr

/-- The part of an EC2 instance description the code reads: `InstanceId`,
`State.Name` and the value of the tag `Name`. -/
structure Ec2Instance where
  instanceId : String
  stateName : String
  nameTag : Option String
  deriving DecidableEq, Repr

/-- What the environment answers while one entry is processed: the outcome of
each provider call (consulted only if the call is issued) and the clock. -/
structure InstanceRun where
  describe : Except String (Option Ec2Instance)
  metrics : Except String (Option (List Datapoint))
  stop : Except String (Option InstanceStateChange)
  clock : Nat → Int

/-- One element of the lambda's `results`. -/
structure LambdaResult where
  instanceId : String
  status : String
  action : Option String
  cpuUsage : Option ℚ
  cpuLimit : Option ℚ
  previousState : Option String
  currentState : Option String
  error : Option String
  reason : Option String
  timestamp : Option Int
  deriving DecidableEq, Repr

/-- A result with only `instanceId` and `status` set. -/
def LambdaResult.basic (instanceId status : String) : LambdaResult :=
  { instanceId := instanceId, status := status, action := none, cpuUsage := none,
    cpuLimit := none, previousState := none, currentState := none, error := none,
    reason := none, timestamp := none }

/-- The call `datapoints.sort((a, b) => b.Timestamp - a.Timestamp)`: a stable sort,
latest first. -/
def sortByTimestampDesc (dps : List Datapoint) : List Datapoint :=
  dps.insertionSort (fun a b => b.timestamp ≤ a.timestamp)

/-- The value `sortedDatapoints[0].Average` for the non-empty list `d :: ds`. -/
def mostRecentCPU (d : Datapoint) (ds : List Datapoint) : ℚ :=
  ((sortByTimestampDesc (d :: ds)).headD d).average

/-- The reads `stoppingInstance.PreviousState.Name` and
`stoppingInstance.CurrentState.Name` of the lambda, which have no optional
chaining: a missing object raises a `TypeError`. -/
def stateNames (s : Option InstanceStateChange) :
    Except String (Option String × Option String) :=
  match s with
  | none => .error "Cannot read properties of undefined (reading 'PreviousState')"
  | some c =>
    match c.previousState, c.currentState with
    | some p, some q => .ok (p.name, q.name)
    | _, _ => .error "Cannot read properties of undefined (reading 'Name')"

/-- Body of the `for` loop of `exports.handler` for one entry, the `catch`
included: the pushed result and the provider calls issued. -/
def processInstance (region : String) (config : LimitConfig) (run : InstanceRun) :
    LambdaResult × List Effect :=
  let instanceId := config.instanceId
  let autoShutdown := config.autoShutdown.getD true
  let failed (msg : String) : LambdaResult :=
    { LambdaResult.basic instanceId "error" with error := some msg }
  let t1 := [Effect.describeInstances region [instanceId]]
  match run.describe with
  | .error msg => (failed msg, t1)
  | .ok none =>
    ({ LambdaResult.basic instanceId "not_found" with error := some "Instance not found" }, t1)
  | .ok (some inst) =>
    if inst.stateName != "running" then
      ({ LambdaResult.basic instanceId "skipped" with
         reason := some ("Instance is " ++ inst.stateName) }, t1)
    else
      let endTime := run.clock 0
      let t2 := t1 ++ [Effect.getMetricStatistics region instanceId
        (endTime - 10 * 60 * 1000) endTime 300]
      match run.metrics with
      | .error msg => (failed msg, t2)
      | .ok datapoints =>
        match datapoints.getD [] with
        | [] =>
          ({ LambdaResult.basic instanceId "no_metrics" with
             reason := some "No CloudWatch metrics available" }, t2)
        | d :: ds =>
          let currentCPU := mostRecentCPU d ds
          if currentCPU > config.cpuLimit then
            if autoShutdown then
              let t3 := t2 ++ [Effect.stopInstances region [instanceId]]
              match run.stop with
              | .error msg => (failed msg, t3)
              | .ok stoppingInstance =>
                match stateNames stoppingInstance with
                | .error msg => (failed msg, t3)
                | .ok (prev, cur) =>
                  ({ LambdaResult.basic instanceId "stopped" with
                     action := some "auto_shutdown", cpuUsage := some currentCPU,
                     cpuLimit := some config.cpuLimit, previousState := prev,
                     currentState := cur, timestamp := some (run.clock 1) }, t3)
            else
              ({ LambdaResult.basic instanceId "alert" with
                 action := some "alert_only", cpuUsage := some currentCPU,
                 cpuLimit := some config.cpuLimit }, t2)
          else
            ({ LambdaResult.basic instanceId "ok" with
               cpuUsage := some currentCPU, cpuLimit := some config.cpuLimit }, t2)

/-- The `for` loop of `exports.handler`: entry `i` of the list (counted from
`start`) is processed against `world i`. -/
def processAll (region : String) (world : Nat → InstanceRun) :
    Nat → List LimitConfig → List (LambdaResult × List Effect)
  | _, [] => []
  | start, c :: cs =>
    processInstance region c (world start) :: processAll region world (start + 1) cs

/-- The `event` of the lambda. -/
structure LambdaEvent where
  region : Option String
  instanceLimits : Option (List LimitConfig)
  deriving DecidableEq, Repr

/-- The `summary` object of the lambda's report. -/
structure LambdaSummary where
  totalMonitored : Nat
  stopped : Nat
  alerts : Nat
  ok : Nat
  errors : Nat
  deriving DecidableEq, Repr

/-- The parsed `body` of the lambda's response. -/
inductive LambdaBody where
  | noInstances (monitored : Nat)
  | report (summary : LambdaSummary) (results : List LambdaResult) (timestamp : Int)
  deriving DecidableEq, Repr

/-- The expression `event.region || process.env.AWS_REGION || 'us-east-1'`. -/
def resolveRegion (eventRegion envRegion : Option String) : String :=
  if truthyStr eventRegion then eventRegion.getD ""
  else if truthyStr envRegion then envRegion.getD ""
  else "us-east-1"

/-- Number of results with the given status. -/
def countStatus (results : List LambdaResult) (status : String) : Nat :=
  (results.filter (fun r => r.status == status)).length

/-- The lambda's `exports.handler`: status code, body and provider calls
issued; `finalTime` is the clock reading of the report's timestamp. -/
def handler (event : LambdaEvent) (envRegion : Option String)
    (world : Nat → InstanceRun) (finalTime : Int) : Nat × LambdaBody × List Effect :=
  let region := resolveRegion event.region envRegion
  let instanceLimits := event.instanceLimits.getD []
  if instanceLimits.length = 0 then (200, .noInstances 0, [])
  else
    let runs := processAll region world 0 instanceLimits
    let results := runs.map Prod.fst
    let summary : LambdaSummary :=
      { totalMonitored := instanceLimits.length,
        stopped := countStatus results "stopped",
        alerts := countStatus results "alert",
        ok := countStatus results "ok",
        errors := countStatus results "error" }
    (200, .report summary results finalTime, (runs.map Prod.snd).flatten)

/-! ## The background pass: evaluation of one running instance
(`monitorLowUtilizationInstances`, body of the loop over
`allRunningInstances`) -/

/-- The constant `LOW_UTILIZATION_THRESHOLD`. -/
def LOW_UTILIZATION_THRESHOLD : ℚ := 5

/-- One value of the `instanceSettings` mapping of a production-mode
document. -/
structure InstanceSetting where
  emailEnabled : Option Bool
  deriving DecidableEq, Repr

/-- A document of the `productionModeSettings` collection. -/
structure ProductionModeSettings where
  userId : String
  enabled : Bool
  instanceSettings : Option (List (String × InstanceSetting))
  deriving DecidableEq, Repr

/-- The part of a user document the pass reads. -/
structure UserDoc where
  username : String
  email : String
  deriving DecidableEq, Repr

/-- The read `userSettings.instanceSettings?.[instanceId]?.emailEnabled`. -/
def emailEnabledOf (userSettings : ProductionModeSettings) (instanceId : String) :
    Option Bool :=
  match userSettings.instanceSettings with
  | none => none
  | some m =>
    match m.find? (fun e => e.1 == instanceId) with
    | none => none
    | some e => e.2.emailEnabled

/-- Filter `{ userId, instanceId, type: 'low_utilization' }` on
`emailAlertHistory`. -/
def matchesAlert (userId instanceId : String) (r : EmailAlertRecord) : Bool :=
  r.userId == userId && r.instanceId == instanceId && r.type == "low_utilization"

/-- First document of a list in descending `timestamp` order. -/
def latestOf : List EmailAlertRecord → Option EmailAlertRecord
  | [] => none
  | r :: rs =>
    match latestOf rs with
    | none => some r
    | some m => if r.timestamp < m.timestamp then some m else some r

/-- The query `findOne({ userId, instanceId, type: 'low_utilization' },
{ sort: { timestamp: -1 } })` on `emailAlertHistory`. -/
def findLastEmail (alerts : List EmailAlertRecord) (userId instanceId : String) :
    Option EmailAlertRecord :=
  latestOf (alerts.filter (matchesAlert userId instanceId))

/-- The cooldown test of the pass: `true` when the instance is skipped
because `lastEmailDoc.timestamp > oneHourAgo`, with
`oneHourAgo = Date.now() - 60 * 60 * 1000`. -/
def cooldownDenies (alerts : List EmailAlertRecord) (userId instanceId : String)
    (now : Int) : Bool :=
  match findLastEmail alerts userId instanceId with
  | some lastEmailDoc => decide (lastEmailDoc.timestamp > now - 60 * 60 * 1000)
  | none => false

/-- The exponent `e` with `2 ^ e ≤ |x| < 2 ^ (e + 1)` of a rational `x ≠ 0`. -/
def binaryExponent (x : ℚ) : ℤ :=
  let e0 : ℤ := (Nat.log2 x.num.natAbs : ℤ) - (Nat.log2 x.den : ℤ)
  if (2 : ℚ) ^ e0 ≤ |x| then e0 else e0 - 1

/-- The integer nearest to `t`, the even one of two equally near. -/
def roundHalfEven (t : ℚ) : ℤ :=
  let f := ⌊t⌋
  let r := t - f
  if r < 1 / 2 then f else if 1 / 2 < r then f + 1 else if f % 2 = 0 then f else f + 1

/-- The number a JavaScript arithmetic operation returns when its exact
result is `x`: the IEEE 754 binary64 number nearest to `x`, ties to even.
The binary64 numbers around `x` are the multiples of `2 ^ (e - 52)`, `e` the
exponent of `x` and at least `-1022`.  For `|x| ≥ 2 ^ 1024` the runtime
returns an infinity instead; sums and quotients of CPU percentages stay far
below that bound. -/
def roundDouble (x : ℚ) : ℚ :=
  if x = 0 then 0
  else
    let e := max (binaryExponent x) (-1022)
    let quantum : ℚ := (2 : ℚ) ^ (e - 52)
    (roundHalfEven (x / quantum) : ℚ) * quantum

/-- The average `datapoints.reduce((sum, dp) => sum + dp.Average, 0) / datapoints.length`:
each addition and the division give the binary64 number nearest to the exact
result. -/
def avgCPU (datapoints : List Datapoint) : ℚ :=
  roundDouble
    ((datapoints.foldl (fun sum dp => roundDouble (sum + dp.average)) 0) / datapoints.length)

/-- The expression `nameTag?.Value || instanceId`. -/
def instanceNameOf (inst : Ec2Instance) : String :=
  match inst.nameTag with
  | some v => if v != "" then v else inst.instanceId
  | none => inst.instanceId

/-- Where the evaluation of one instance stands when it reaches
`await fetch(...)`, or why it ended before. -/
inductive BeforeSend where
  | emailDisabled
  | cooldown
  | noMetrics
  | notLow (avg : ℚ)
  | sending (instanceName : String) (avg : ℚ)
  deriving DecidableEq, Repr

/-- The evaluation of one instance up to the point where the mail request is
issued.  Nothing is written to any collection on this stretch, so the result
is the reached point and the calls issued; an exception of the metric call
propagates. -/
def evaluateUntilSend (userSettings : ProductionModeSettings) (userDoc : UserDoc)
    (alerts : List EmailAlertRecord) (inst : Ec2Instance) (region : String)
    (clock : Nat → Int) (metrics : Except String (Option (List Datapoint))) :
    Except String (BeforeSend × List Effect) :=
  let userId := userSettings.userId
  let instanceId := inst.instanceId
  if emailEnabledOf userSettings instanceId = some false then .ok (.emailDisabled, [])
  else if cooldownDenies alerts userId instanceId (clock 0) then .ok (.cooldown, [])
  else
    let endTime := clock 1
    let t1 := [Effect.getMetricStatistics region instanceId
      (endTime - 15 * 60 * 1000) endTime 300]
    match metrics with
    | .error msg => .error msg
    | .ok dps =>
      let datapoints := dps.getD []
      if datapoints.length = 0 then .ok (.noMetrics, t1)
      else
        let avg := avgCPU datapoints
        if avg < LOW_UTILIZATION_THRESHOLD then
          .ok (.sending (instanceNameOf inst) avg,
               t1 ++ [Effect.sendEmail userDoc.email instanceId])
        else .ok (.notLow avg, t1)

/-- The alert record inserted by `completeSend` on an accepted send. -/
def sentRecord (userSettings : ProductionModeSettings) (inst : Ec2Instance)
    (instanceName : String) (avg : ℚ) (clock : Nat → Int) : EmailAlertRecord :=
  { userId := userSettings.userId, instanceId := inst.instanceId,
    instanceName := some instanceName, cpuUsage := some avg,
    type := "low_utilization", emailSent := some true, timestamp := clock 2 }

/-- The history entry inserted by `completeSend` on an accepted send. -/
def sentHistoryEntry (userSettings : ProductionModeSettings) (userDoc : UserDoc)
    (inst : Ec2Instance) (instanceName : String) (avg : ℚ) (clock : Nat → Int) :
    HistoryEntry :=
  { userId := userSettings.userId, username := userDoc.username,
    action := "low_utilization_alert", instanceId := inst.instanceId,
    reason := none, previousState := none, currentState := none,
    instanceName := some instanceName, cpuUsage := some avg,
    emailSent := some true, timestamp := clock 3 }

/-- The evaluation of one instance after the mail request has settled:
`emailResponse` is `.ok b` with `b = emailResponse.ok`, or the exception of
`fetch`.  Only a response with `ok` set inserts the alert record and the
history entry. -/
def completeSend (st : ServerState) (userSettings : ProductionModeSettings)
    (userDoc : UserDoc) (inst : Ec2Instance) (instanceName : String) (avg : ℚ)
    (clock : Nat → Int) (emailResponse : Except String Bool) :
    Except String ServerState :=
  match emailResponse with
  | .error msg => .error msg
  | .ok false => .ok st
  | .ok true =>
    let record := sentRecord userSettings inst instanceName avg clock
    let entry := sentHistoryEntry userSettings userDoc inst instanceName avg clock
    .ok { st with emailAlertHistory := st.emailAlertHistory ++ [record],
                  history := st.history ++ [entry] }

/-- Body of the loop over `allRunningInstances` for one instance: the new
state and the calls issued, or the exception that leaves the loop. -/
def evaluateInstance (st : ServerState) (userSettings : ProductionModeSettings)
    (userDoc : UserDoc) (inst : Ec2Instance) (region : String) (clock : Nat → Int)
    (metrics : Except String (Option (List Datapoint)))
    (emailResponse : Except String Bool) : Except String (ServerState × List Effect) :=
  match evaluateUntilSend userSettings userDoc st.emailAlertHistory inst region clock
      metrics with
  | .error msg => .error msg
  | .ok (.sending instanceName avg, trace) =>
    match completeSend st userSettings userDoc inst instanceName avg clock
        emailResponse with
    | .error msg => .error msg
    | .ok st1 => .ok (st1, trace)
  | .ok (_, trace) => .ok (st, trace)

/-! ## `POST /api/stop-instance` -/

/-- An error thrown by the AWS SDK: its `name` and `message`. -/
structure AwsError where
  name : String
  message : String
  deriving DecidableEq, Repr

/-- A document of `awsCredentialsCollection`. -/
structure AwsCredentials where
  awsAccessKey : Option String
  awsSecretKey : Option String
  deriving DecidableEq, Repr

/-- Body of `POST /api/stop-instance` together with the authenticated user. -/
structure StopRequest where
  userId : String
  username : String
  instanceId : Option String
  reason : Option String
  deriving DecidableEq, Repr

/-- Response of `POST /api/stop-instance`; `data` is the first element of
`StoppingInstances` of the returned `stopResponse`. -/
structure StopResponse where
  status : Nat
  success : Bool
  message : String
  data : Option (Option InstanceStateChange)
  deriving DecidableEq, Repr

/-- The constant `regionsToCheck` of the stop route. -/
def regionsToCheck : List String := ["us-east-1", "us-east-2"]

/-- The variables the region loop of the stop route leaves behind, and the
stop commands it issued. -/
structure StopLoop where
  stopResponse : Option (Option InstanceStateChange)
  successRegion : Option String
  lastError : Option AwsError
  trace : List Effect
  deriving DecidableEq, Repr

/-- The loop `for (const region of regionsToCheck)` of the stop route, entered
with the current value of `lastError`.  `stop region` is the outcome of the
stop command sent to that region.  A success ends the loop; in the `catch`
the error is stored in `lastError` first, and both the `NotFound` branch
(`continue`) and the other branch (a warning) go on with the next region. -/
def tryRegions (instanceId : String)
    (stop : String → Except AwsError (Option InstanceStateChange)) :
    List String → Option AwsError → StopLoop
  | [], lastError =>
    { stopResponse := none, successRegion := none, lastError := lastError, trace := [] }
  | region :: rest, lastError =>
    match stop region with
    | .ok response =>
      { stopResponse := some response, successRegion := some region,
        lastError := lastError, trace := [Effect.stopInstances region [instanceId]] }
    | .error error =>
      let next :=
        if error.name = "InvalidInstanceID.NotFound" then
          tryRegions instanceId stop rest (some error)
        else
          tryRegions instanceId stop rest (some error)
      { next with trace := Effect.stopInstances region [instanceId] :: next.trace }

/-- Whether `pattern` is a prefix of `text`. -/
def startsWithChars : List Char → List Char → Bool
  | [], _ => true
  | _ :: _, [] => false
  | p :: ps, c :: cs => p == c && startsWithChars ps cs

/-- Whether `pattern` occurs in `text`. -/
def includesChars (pattern : List Char) : List Char → Bool
  | [] => pattern.isEmpty
  | c :: cs => startsWithChars pattern (c :: cs) || includesChars pattern cs

/-- The method `String.prototype.includes`. -/
def includes (text pattern : String) : Bool :=
  includesChars pattern.data text.data

/-- The test `reason && reason.includes('Auto-shutdown')`. -/
def isAutoShutdownReason (reason : Option String) : Bool :=
  match reason with
  | some r => r != "" && includes r "Auto-shutdown"
  | none => false

/-- Whether the stop route accepts the credentials document: it exists and
both keys are truthy. -/
def credentialsUsable (credentials : Option AwsCredentials) : Bool :=
  match credentials with
  | some c => truthyStr c.awsAccessKey && truthyStr c.awsSecretKey
  | none => false

/-- The message of the error thrown after the region loop,
`lastError || new Error(...)`. -/
def stopFailureMessage (instanceId : String) (lastError : Option AwsError) : String :=
  match lastError with
  | some e => e.message
  | none => "Instance " ++ instanceId ++ " not found in us-east-1 or us-east-2"

/-- The history document of a stop whose `reason` mentions `Auto-shutdown`. -/
def stopHistoryEntry (req : StopRequest) (instanceId : String)
    (stoppingInstance : Option InstanceStateChange) (timestamp : Int) : HistoryEntry :=
  { userId := req.userId, username := req.username, action := "auto_shutdown",
    instanceId := instanceId, reason := none,
    previousState := some (orUnknown (previousStateName stoppingInstance)),
    currentState := some (orUnknown (currentStateName stoppingInstance)),
    instanceName := none, cpuUsage := none, emailSent := none,
    timestamp := timestamp, reasonText := req.reason }

/-- The audit entry `logActivity(userId, 'Stop Instance', ...)` of the stop
route. -/
def stopAuditEntry (req : StopRequest) (instanceId : String) (successRegion : Option String)
    (stoppingInstance : Option InstanceStateChange) (timestamp : Int) : ActivityLog :=
  { userId := req.userId, action := "Stop Instance", instanceId := instanceId,
    cpuLimit := none, autoShutdown := none, timestamp := timestamp,
    reason := req.reason, region := successRegion,
    previousState := previousStateName stoppingInstance,
    currentState := currentStateName stoppingInstance }

/-- Handler of `POST /api/stop-instance`.  `credentials` is the document
found in `awsCredentialsCollection` for the user, `stop region` the outcome
of the stop command in that region, `historyOk` whether the insertion into
`historyCollection` succeeds (its failure is caught and logged). -/
def stopInstance (st : ServerState) (req : StopRequest)
    (credentials : Option AwsCredentials)
    (stop : String → Except AwsError (Option InstanceStateChange))
    (clock : Nat → Int) (historyOk : Bool) : ServerState × StopResponse × List Effect :=
  match req.instanceId with
  | none => (st, { status := 400, success := false, message := "Instance ID required",
                   data := none }, [])
  | some instanceId =>
    if instanceId = "" then
      (st, { status := 400, success := false, message := "Instance ID required",
             data := none }, [])
    else if !credentialsUsable credentials then
      (st, { status := 400, success := false,
             message := "AWS credentials not found. Please update them in the dashboard.",
             data := none }, [])
    else
      let loop := tryRegions instanceId stop regionsToCheck none
      match loop.stopResponse with
      | none =>
        (st, { status := 500, success := false,
               message := stopFailureMessage instanceId loop.lastError, data := none },
         loop.trace)
      | some stoppingInstance =>
        let history :=
          if isAutoShutdownReason req.reason && historyOk then
            st.history ++ [stopHistoryEntry req instanceId stoppingInstance (clock 0)]
          else st.history
        let log := stopAuditEntry req instanceId loop.successRegion stoppingInstance (clock 1)
        ({ st with history := history, activityLogs := st.activityLogs ++ [log] },
         { status := 200, success := true,
           message := "Instance " ++ instanceId ++ " stopped successfully",
           data := some stoppingInstance },
         loop.trace)

/-! ## `POST /api/send-low-utilization-email` -/

/-- The fields of `templateParams` the route forwards to the mail service. -/
structure TemplateParams where
  user_name : Option String
  aws_account_id : Option String
  resource_name : Option String
  action_url : Option String
  to_email : Option String
  deriving DecidableEq, Repr

/-- Body of `POST /api/send-low-utilization-email` together with the
authenticated user. -/
structure SendEmailRequest where
  userId : String
  username : String
  instanceId : Option String
  instanceName : Option String
  cpuUsage : Option ℚ
  templateParams : Option TemplateParams
  deriving DecidableEq, Repr

/-- Response of `POST /api/send-low-utilization-email`. -/
structure SendEmailResponse where
  status : Nat
  success : Bool
  message : String
  deriving DecidableEq, Repr

/-- Evaluation of the identifier `avgCPU` inside the handler of
`POST /api/send-low-utilization-email` (the argument
`{ instanceId, cpuUsage: avgCPU }` of its `logActivity` call).  The handler
binds `instanceId`, `instanceName`, `cpuUsage` and `templateParams`; the only
declaration of `avgCPU` in `server.js` is the block-scoped `const` inside the
instance loop of `monitorLowUtilizationInstances`.  Reading an identifier
without a binding throws a `ReferenceError`. -/
def avgCPUInSendHandler : Except String ℚ :=
  .error "avgCPU is not defined"

/-- The record inserted by the manual route after an accepted send. -/
def manualSentRecord (userId instanceId : String) (timestamp : Int) : EmailAlertRecord :=
  { userId := userId, instanceId := instanceId, instanceName := none, cpuUsage := none,
    type := "low_utilization", emailSent := none, timestamp := timestamp }

/-- Handler of `POST /api/send-low-utilization-email`.  `emailResponse` is
`.ok b` with `b = emailResponse.ok`, or the exception of `fetch`;
`historyOk` tells whether the insertion into `historyCollection` succeeds.
Every exception raised inside the `try` ends in the outer `catch`, which
answers status 500 with the exception's message. -/
def sendLowUtilizationEmail (st : ServerState) (req : SendEmailRequest)
    (clock : Nat → Int) (emailResponse : Except String Bool) (historyOk : Bool) :
    ServerState × SendEmailResponse × List Effect :=
  match req.instanceId, req.templateParams with
  | some instanceId, some templateParams =>
    if instanceId = "" then
      (st, { status := 400, success := false, message := "Missing required parameters" }, [])
    else
      let trace := [Effect.sendEmail (templateParams.to_email.getD "") instanceId]
      match emailResponse with
      | .error msg => (st, { status := 500, success := false, message := msg }, trace)
      | .ok false =>
        (st, { status := 500, success := false,
               message := "Failed to send email via EmailJS" }, trace)
      | .ok true =>
        let st1 := { st with emailAlertHistory :=
          st.emailAlertHistory ++ [manualSentRecord req.userId instanceId (clock 0)] }
        match avgCPUInSendHandler with
        | .error msg => (st1, { status := 500, success := false, message := msg }, trace)
        | .ok avg =>
          let log : ActivityLog :=
            { userId := req.userId, action := "Email Alert Sent", instanceId := instanceId,
              cpuLimit := none, autoShutdown := none, timestamp := clock 1,
              cpuUsage := some avg }
          let entry : HistoryEntry :=
            { userId := req.userId, username := req.username,
              action := "low_utilization_alert", instanceId := instanceId, reason := none,
              previousState := none, currentState := none,
              instanceName := req.instanceName, cpuUsage := req.cpuUsage,
              emailSent := some true, timestamp := clock 2 }
          let history := if historyOk then st1.history ++ [entry] else st1.history
          ({ st1 with activityLogs := st1.activityLogs ++ [log], history := history },
           { status := 200, success := true,
             message := "Low utilization email sent successfully" }, trace)
  | _, _ =>
    (st, { status := 400, success := false, message := "Missing required parameters" }, [])

/-- The gate of the client's `handleSendLowUtilizationEmail`: production mode
on, `emailSettings[instance.id]?.emailEnabled !== false`, and no
`lastEmailSent[instance.id]` later than `Date.now() - 60 * 60 * 1000`. -/
def clientMaySend (productionModeEnabled : Bool) (emailEnabled : Option Bool)
    (lastSent : Option Int) (now : Int) : Bool :=
  if !productionModeEnabled then false
  else if emailEnabled = some false then false
  else
    match lastSent with
    | some t => if t ≠ 0 ∧ t > now - 60 * 60 * 1000 then false else true
    | none => true

/-- The value of `lastEmailSent[instance.id]` after the route has answered:
it is set to `Date.now()` only when `emailData.success` holds. -/
def lastEmailSentAfter (lastSent : Option Int) (response : SendEmailResponse)
    (now : Int) : Option Int :=
  if response.success then some now else lastSent

/-! ## The background pass: users, regions and the time window
(`monitorLowUtilizationInstances`) -/

/-- What the environment answers while one instance of the loop over
`allRunningInstances` is evaluated. -/
structure InstanceEval where
  clock : Nat → Int
  metrics : Except String (Option (List Datapoint))
  emailResponse : Except String Bool

/-- What the environment answers while one user of the pass is processed:
the user document (`ObjectId` and the lookup may throw; an absent `email`
field is the empty string), the credentials document, the STS call, the
reservations returned by the describe call of each region, and the answers
for the instance at each position of `allRunningInstances`. -/
structure UserRun where
  userDoc : Except String (Option UserDoc)
  credentials : Option AwsCredentials
  sts : Except String String
  describe : String → Except String (List (List Ec2Instance))
  instanceEval : Nat → InstanceEval

/-- How the processing of one user ended. -/
inductive UserOutcome where
  | noEmail
  | noCredentials
  | completed
  | failed (message : String)
  deriving DecidableEq, Repr

/-- One user of a pass: the user id, how the processing ended and the calls
issued for this user, in order. -/
structure UserReport where
  userId : String
  outcome : UserOutcome
  trace : List Effect
  deriving DecidableEq, Repr

/-- The evaluation of one instance as seen by the loop of the pass: the state
it leaves, the calls it issued, and the message of the exception that leaves
the loop, if any.  A metric call or a mail request that throws has been
issued. -/
def evaluateInstanceRun (st : ServerState) (userSettings : ProductionModeSettings)
    (userDoc : UserDoc) (inst : Ec2Instance) (region : String) (run : InstanceEval) :
    ServerState × List Effect × Option String :=
  match evaluateUntilSend userSettings userDoc st.emailAlertHistory inst region run.clock
      run.metrics with
  | .error msg =>
    (st, [Effect.getMetricStatistics region inst.instanceId
            (run.clock 1 - 15 * 60 * 1000) (run.clock 1) 300], some msg)
  | .ok (.sending instanceName avg, trace) =>
    match completeSend st userSettings userDoc inst instanceName avg run.clock
        run.emailResponse with
    | .error msg => (st, trace, some msg)
    | .ok st1 => (st1, trace, none)
  | .ok (_, trace) => (st, trace, none)

/-- The loop `for (const instance of allRunningInstances)`: the instance at
position `k` is evaluated against `evals k`; an exception ends the loop. -/
def evaluateAll (userSettings : ProductionModeSettings) (userDoc : UserDoc)
    (evals : Nat → InstanceEval) :
    Nat → List (Ec2Instance × String) → ServerState →
      ServerState × List Effect × Option String
  | _, [], st => (st, [], none)
  | k, (inst, region) :: rest, st =>
    match evaluateInstanceRun st userSettings userDoc inst region (evals k) with
    | (st1, trace, some msg) => (st1, trace, some msg)
    | (st1, trace, none) =>
      match evaluateAll userSettings userDoc evals (k + 1) rest st1 with
      | (st2, trace2, err) => (st2, trace ++ trace2, err)

/-- The running instances of the reservations of one region, each with its
region attached. -/
def runningIn (region : String) (reservations : List (List Ec2Instance)) :
    List (Ec2Instance × String) :=
  (reservations.flatten.filter (fun i => i.stateName == "running")).map
    (fun i => (i, region))

/-- The loop over `regionsToCheck` of the pass, which fills
`allRunningInstances`; a region whose describe call throws contributes
nothing. -/
def scanRegions (describe : String → Except String (List (List Ec2Instance))) :
    List String → List (Ec2Instance × String)
  | [] => []
  | region :: rest =>
    (match describe region with
      | .ok reservations => runningIn region reservations
      | .error _ => []) ++ scanRegions describe rest

/-- Body of the loop over `productionModeUsers` for one user, the `catch`
included.  The pass scans the same two regions as the stop route. -/
def processUser (st : ServerState) (userSettings : ProductionModeSettings)
    (run : UserRun) : ServerState × UserReport :=
  let report (outcome : UserOutcome) (trace : List Effect) : UserReport :=
    { userId := userSettings.userId, outcome := outcome, trace := trace }
  match run.userDoc with
  | .error msg => (st, report (.failed msg) [])
  | .ok none => (st, report .noEmail [])
  | .ok (some userDoc) =>
    if userDoc.email = "" then (st, report .noEmail [])
    else
      match run.credentials with
      | none => (st, report .noCredentials [])
      | some credentials =>
        let t0 := [Effect.getCallerIdentity]
        let stsFallbackThrows :=
          match run.sts, credentials.awsAccessKey with
          | .error _, none => true
          | _, _ => false
        if stsFallbackThrows then
          (st, report (.failed "Cannot read properties of undefined (reading 'substring')") t0)
        else
          let t1 := t0 ++ regionsToCheck.map (fun r => Effect.describeInstances r [])
          let allRunningInstances := scanRegions run.describe regionsToCheck
          match evaluateAll userSettings userDoc run.instanceEval 0 allRunningInstances st with
          | (st1, t2, none) => (st1, report .completed (t1 ++ t2))
          | (st1, t2, some msg) => (st1, report (.failed msg) (t1 ++ t2))

/-- The loop `for (const userSettings of productionModeUsers)`, each user
paired with what the environment answers for that user. -/
def passUsers : ServerState → List (ProductionModeSettings × UserRun) →
    ServerState × List UserReport
  | st, [] => (st, [])
  | st, (userSettings, run) :: rest =>
    match processUser st userSettings run with
    | (st1, report) =>
      match passUsers st1 rest with
      | (st2, reports) => (st2, report :: reports)

/-- Each user of the list paired with the answers `world k` for its position
`k`, counted from `start`. -/
def withRuns (world : Nat → UserRun) :
    Nat → List ProductionModeSettings → List (ProductionModeSettings × UserRun)
  | _, [] => []
  | start, u :: us => (u, world start) :: withRuns world (start + 1) us

/-- The function `monitorLowUtilizationInstances`.  `currentHour` is
`istTime.getHours()`, the hour of the day in `Asia/Kolkata`;
`productionModeSettings` is the whole collection of that name, of which the
query `find({ enabled: true })` keeps the enabled documents. -/
def monitorLowUtilizationInstances (st : ServerState) (currentHour : Nat)
    (productionModeSettings : List ProductionModeSettings) (world : Nat → UserRun) :
    ServerState × List UserReport :=
  if currentHour < 6 || currentHour ≥ 23 then (st, [])
  else
    let productionModeUsers := productionModeSettings.filter (fun s => s.enabled)
    if productionModeUsers.length = 0 then (st, [])
    else passUsers st (withRuns world 0 productionModeUsers)

/-! ## The other limit routes: list, delete, auto-monitoring -/

/-- One element of `limits` in the response of `GET /api/instance-limits`. -/
structure LimitView where
  instanceId : String
  cpuLimit : ℚ
  autoShutdown : Option Bool
  createdAt : Option Int
  breachCount : Nat
  lastBreach : Option Int
  deriving DecidableEq, Repr

/-- The projection applied by `GET /api/instance-limits` to one document;
`breachCount` is `limit.breachCount || 0`. -/
def limitView (limit : InstanceLimit) : LimitView :=
  { instanceId := limit.instanceId, cpuLimit := limit.cpuLimit,
    autoShutdown := limit.autoShutdown, createdAt := limit.createdAt,
    breachCount := limit.breachCount.getD 0, lastBreach := limit.lastBreach }

/-- The documents `find({ userId })` returns. -/
def limitsOf (docs : List InstanceLimit) (userId : String) : List InstanceLimit :=
  docs.filter (fun d => d.userId == userId)

/-- Handler of `GET /api/instance-limits`: the `limits` array returned to
`userId`. -/
def getInstanceLimits (st : ServerState) (userId : String) : List LimitView :=
  (limitsOf st.instanceLimits userId).map limitView

/-- The call `collection.deleteOne({ userId, instanceId })`: the first
matching document is removed. -/
def deleteOne (userId instanceId : String) : List InstanceLimit → List InstanceLimit
  | [] => []
  | d :: ds =>
    if matchesKey userId instanceId d then ds else d :: deleteOne userId instanceId ds

/-- Handler of `DELETE /api/instance-limits/:instanceId`: the state it
leaves. -/
def deleteInstanceLimit (st : ServerState) (userId instanceId : String) : ServerState :=
  { st with
    instanceLimits := deleteOne userId instanceId st.instanceLimits,
    instanceMonitoring := mapDelete st.instanceMonitoring (limitKey userId instanceId) }

/-- The constant `DEFAULT_CPU_LIMIT`. -/
def DEFAULT_CPU_LIMIT : ℚ := 80

/-- Body of `POST /api/instance-auto-monitor` together with the authenticated
user; `enabled` is the truthiness of the field of that name. -/
structure AutoMonitorRequest where
  userId : String
  instanceId : Option String
  enabled : Bool
  cpuLimit : Option ℚ
  deriving DecidableEq, Repr

/-- Response of `POST /api/instance-auto-monitor`. -/
structure AutoMonitorResponse where
  status : Nat
  success : Bool
  instanceId : Option String
  cpuLimit : Option ℚ
  autoMonitoring : Option Bool
  deriving DecidableEq, Repr

/-- The value `cpuLimit || DEFAULT_CPU_LIMIT`. -/
def autoMonitorLimit (cpuLimit : Option ℚ) : ℚ :=
  match cpuLimit with
  | some x => if x = 0 then DEFAULT_CPU_LIMIT else x
  | none => DEFAULT_CPU_LIMIT

/-- The `$set` of the enabling branch of the auto-monitor route. -/
def applyEnable (limit : ℚ) (now : Int) (d : InstanceLimit) : InstanceLimit :=
  { d with autoMonitoring := some true, cpuLimit := limit, updatedAt := some now }

/-- The `$set` of the disabling branch of the auto-monitor route. -/
def applyDisable (now : Int) (d : InstanceLimit) : InstanceLimit :=
  { d with autoMonitoring := some false, updatedAt := some now }

/-- The document the enabling branch inserts when none matches: the filter
fields and the `$set` fields, nothing else. -/
def freshMonitored (userId instanceId : String) (limit : ℚ) (now : Int) : InstanceLimit :=
  { userId := userId, instanceId := instanceId, cpuLimit := limit, autoShutdown := none,
    autoMonitoring := some true, createdAt := none, updatedAt := some now,
    breachCount := none, lastBreach := none }

/-- Handler of `POST /api/instance-auto-monitor`. -/
def setAutoMonitoring (st : ServerState) (req : AutoMonitorRequest) (clock : Nat → Int) :
    ServerState × AutoMonitorResponse :=
  match req.instanceId with
  | none => (st, { status := 400, success := false, instanceId := none, cpuLimit := none,
                   autoMonitoring := none })
  | some instanceId =>
    if instanceId = "" then
      (st, { status := 400, success := false, instanceId := none, cpuLimit := none,
             autoMonitoring := none })
    else if req.enabled then
      let limit := autoMonitorLimit req.cpuLimit
      let limits := upsertOne req.userId instanceId (applyEnable limit (clock 0))
        (freshMonitored req.userId instanceId limit (clock 0)) st.instanceLimits
      ({ st with instanceLimits := limits },
       { status := 200, success := true, instanceId := some instanceId,
         cpuLimit := some limit, autoMonitoring := some true })
    else
      let limits := updateOne req.userId instanceId (applyDisable (clock 0)) st.instanceLimits
      ({ st with instanceLimits := limits },
       { status := 200, success := true, instanceId := some instanceId,
         cpuLimit := none, autoMonitoring := some false })

/-- One element of `instances` in the response of
`GET /api/monitored-instances`. -/
structure MonitoredView where
  instanceId : String
  cpuLimit : ℚ
  autoShutdown : Bool
  deriving DecidableEq, Repr

/-- Handler of `GET /api/monitored-instances`: the documents of the user with
`autoMonitoring: true`, each reported with
`autoShutdown: inst.autoShutdown !== false`. -/
def getMonitoredInstances (st : ServerState) (userId : String) : List MonitoredView :=
  (st.instanceLimits.filter
    (fun d => d.userId == userId && d.autoMonitoring == some true)).map
    (fun inst => { instanceId := inst.instanceId, cpuLimit := inst.cpuLimit,
                   autoShutdown := inst.autoShutdown != some false })

/-- What one run of `POST /api/monitor-instance` is given. -/
structure TickInput where
  req : MonitorRequest
  clock : Nat → Int
  stopResult : Except String (Option InstanceStateChange)
  historyOk : Bool

/-- Consecutive runs of `POST /api/monitor-instance`, each on the state the
previous one left; the responses and calls of the runs, in order. -/
def runTicks (awsRegion : String) :
    ServerState → List TickInput → ServerState × List (MonitorResponse × List Effect)
  | st, [] => (st, [])
  | st, t :: ts =>
    match monitorInstance awsRegion st t.req t.clock t.stopResult t.historyOk with
    | (st1, response, trace) =>
      match runTicks awsRegion st1 ts with
      | (st2, outs) => (st2, (response, trace) :: outs)

/-- An operation on the limits of one user. -/
inductive LimitOp where
  | save (req : SaveLimitRequest) (clock : Nat → Int)
  | delete (userId instanceId : String)
  | autoMonitor (req : AutoMonitorRequest) (clock : Nat → Int)
  | tick (awsRegion : String) (input : TickInput)

/-- The authenticated user of an operation. -/
def LimitOp.userId : LimitOp → String
  | .save req _ => req.userId
  | .delete userId _ => userId
  | .autoMonitor req _ => req.userId
  | .tick _ input => input.req.userId

/-- The state an operation leaves. -/
def applyOp (st : ServerState) : LimitOp → ServerState
  | .save req clock => (saveInstanceLimit st req clock).1
  | .delete userId instanceId => deleteInstanceLimit st userId instanceId
  | .autoMonitor req clock => (setAutoMonitoring st req clock).1
  | .tick awsRegion input =>
    (monitorInstance awsRegion st input.req input.clock input.stopResult input.historyOk).1

/-- The state a sequence of operations leaves. -/
def applyOps (st : ServerState) (ops : List LimitOp) : ServerState :=
  ops.foldl applyOp st

/-! ## The size suggestion helpers (`suggestInstanceType`,
`suggestRDSInstanceType`) -/

/-- The `sizeMap` of `suggestInstanceType`, in key order. -/
def ec2SizeMap : List (String × Nat) :=
  [("nano", 0), ("micro", 1), ("small", 2), ("medium", 3), ("large", 4), ("xlarge", 5),
   ("2xlarge", 6)]

/-- The `sizeMap` of `suggestRDSInstanceType`, in key order. -/
def rdsSizeMap : List (String × Nat) :=
  [("micro", 0), ("small", 1), ("medium", 2), ("large", 3), ("xlarge", 4), ("2xlarge", 5),
   ("4xlarge", 6)]

/-- The lookup `sizeMap[size]`, `none` for `undefined`. -/
def sizeRank (sizeMap : List (String × Nat)) (size : String) : Option Nat :=
  (sizeMap.find? (fun e => e.1 == size)).map Prod.snd

/-- The expression `value || fallback` on a number or `undefined`: 0 is
falsy. -/
def orDefault (value : Option Nat) (fallback : Nat) : Nat :=
  match value with
  | some n => if n = 0 then fallback else n
  | none => fallback

/-- The text of `Object.keys(sizeMap).find(key => sizeMap[key] === index)` in a
template string: the key, or `undefined`. -/
def sizeOfRank (sizeMap : List (String × Nat)) (index : Nat) : String :=
  match sizeMap.find? (fun e => e.2 == index) with
  | some e => e.1
  | none => "undefined"

/-- The pieces of a character list between occurrences of `sep`; `acc` holds
the current piece, reversed. -/
def splitChars (sep : Char) : List Char → List Char → List String
  | acc, [] => [String.mk acc.reverse]
  | acc, c :: cs =>
    if c = sep then String.mk acc.reverse :: splitChars sep [] cs
    else splitChars sep (c :: acc) cs

/-- The call `text.split('.')`. -/
def splitDots (text : String) : List String :=
  splitChars '.' [] text.data

/-- The body of `suggestInstanceType` after `parts` has been computed;
`Math.max(0, currentIndex - k)` is the truncated subtraction. -/
def suggestFromParts (parts : List String) (currentType : String) (cpuUsage : ℚ) :
    String :=
  match parts with
  | family :: currentSize :: _ =>
    let currentIndex := orDefault (sizeRank ec2SizeMap currentSize) 3
    if cpuUsage < 5 then family ++ "." ++ sizeOfRank ec2SizeMap (currentIndex - 2)
    else if cpuUsage < 10 then family ++ "." ++ sizeOfRank ec2SizeMap (currentIndex - 1)
    else currentType
  | _ => currentType

/-- The function `suggestInstanceType`. -/
def suggestInstanceType (currentType : String) (cpuUsage : ℚ) : String :=
  suggestFromParts (splitDots currentType) currentType cpuUsage

/-- The body of `suggestRDSInstanceType` after `parts` has been computed. -/
def suggestRDSFromParts (parts : List String) (currentType : String) (cpuUsage : ℚ) :
    String :=
  match parts with
  | pre :: family :: currentSize :: _ =>
    let currentIndex := orDefault (sizeRank rdsSizeMap currentSize) 2
    if cpuUsage < 10 then
      pre ++ "." ++ family ++ "." ++ sizeOfRank rdsSizeMap (currentIndex - 2)
    else if cpuUsage < 20 then
      pre ++ "." ++ family ++ "." ++ sizeOfRank rdsSizeMap (currentIndex - 1)
    else currentType
  | _ => currentType

/-- The function `suggestRDSInstanceType`. -/
def suggestRDSInstanceType (currentType : String) (cpuUsage : ℚ) : String :=
  suggestRDSFromParts (splitDots currentType) currentType cpuUsage

/-! ## The metric fetcher `getCloudWatchMetric`, the EC2 recommendations of
`fetchEC2Data` and the instance rows of the resource-management page -/

/-- One element of `response.Datapoints` for the statistics Average, Maximum,
Sum and Minimum; `none` is a statistic the provider left out. -/
structure MetricDatapoint where
  average : Option ℚ
  maximum : Option ℚ
  minimum : Option ℚ
  sum : Option ℚ
  deriving DecidableEq, Repr

/-- A value a rejected provider call carries: `undefined` or `null`, a
primitive such as a string, or an object whose `message` is a string or
absent. -/
inductive Thrown where
  | nullish
  | primitive (text : String)
  | object (message : Option String)
  deriving DecidableEq, Repr

/-- The object `getCloudWatchMetric` returns. -/
structure MetricResult where
  average : ℚ
  maximum : ℚ
  minimum : ℚ
  sum : ℚ
  datapoints : Nat
  deriving DecidableEq, Repr

/-- The literal `{ average: 0, maximum: 0, minimum: 0, sum: 0, datapoints: 0 }`. -/
def zeroSample : MetricResult :=
  { average := 0, maximum := 0, minimum := 0, sum := 0, datapoints := 0 }

/-- The expression `x || 0` on a number or `undefined`. -/
def orZero (x : Option ℚ) : ℚ :=
  x.getD 0

/-- The expression `error.message.includes(pattern)` in the `catch` block: a
`TypeError` when `error` is nullish or `error.message` is not a string. -/
def messageIncludes (error : Thrown) (pattern : String) : Except String Bool :=
  match error with
  | .nullish => .error "TypeError: Cannot read properties of undefined (reading 'message')"
  | .primitive _ => .error "TypeError: Cannot read properties of undefined (reading 'includes')"
  | .object none => .error "TypeError: Cannot read properties of undefined (reading 'includes')"
  | .object (some m) => .ok (includes m pattern)

/-- The statistics `getCloudWatchMetric` computes from a non-empty list of
datapoints.  The three `.filter(v => v !== null)` keep every element, since
`|| 0` has already replaced a missing statistic; the additions and the
division are rounded as in `avgCPU`. -/
def summarize (datapoints : List MetricDatapoint) : MetricResult :=
  let values := (datapoints.map (fun dp => orZero dp.average)).filter (fun _ => true)
  let maxValues := (datapoints.map (fun dp => orZero dp.maximum)).filter (fun _ => true)
  let minValues := (datapoints.map (fun dp => orZero dp.minimum)).filter (fun _ => true)
  { average :=
      if values.length > 0 then
        roundDouble (values.foldl (fun sum val => roundDouble (sum + val)) 0 / values.length)
      else 0
    maximum :=
      match maxValues with
      | v :: vs => vs.foldl max v
      | [] => 0
    minimum :=
      match minValues with
      | v :: vs => vs.foldl min v
      | [] => 0
    sum := datapoints.foldl (fun s dp => roundDouble (s + orZero dp.sum)) 0
    datapoints := datapoints.length }

/-- The function `getCloudWatchMetric`.  `send` is the outcome of
`client.send(command)`: the thrown value, or `response.Datapoints` (`none` for
`undefined`).  The result is `Except.error` when the function itself throws. -/
def getCloudWatchMetric (send : Except Thrown (Option (List MetricDatapoint))) :
    Except String MetricResult :=
  match send with
  | .ok response =>
    let datapoints := response.getD []
    if datapoints.length = 0 then .ok zeroSample
    else .ok (summarize datapoints)
  | .error error =>
    match messageIncludes error "No metrics found" with
    | .error typeError => .error typeError
    | .ok true => .ok zeroSample
    | .ok false =>
      match messageIncludes error "not found" with
      | .error typeError => .error typeError
      | .ok true => .ok zeroSample
      | .ok false => .ok zeroSample

/-- The part of an element of `reservation.Instances` that `fetchEC2Data`
reads for its recommendations: `InstanceId`, `InstanceType`, `State.Name` and
the value of the tag `Name`. -/
structure DescribedInstance where
  instanceId : String
  instanceType : String
  stateName : String
  nameTag : Option String
  deriving DecidableEq, Repr

/-- An element of `instances`: `id`, `type`, `state` and `tags.Name`. -/
structure InstanceData where
  id : String
  type : String
  state : String
  tagName : Option String
  deriving DecidableEq, Repr

/-- Why an entry was pushed to `underutilized`. -/
inductive UnderutilizedReason where
  | lowCpu
  | stopped
  deriving DecidableEq, Repr

/-- An element of `underutilized`.  The fields `cpuAvg`, `cpuMax` and
`networkIn` hold the number their text starts with (what `parseFloat` reads
from it), `none` for the texts `'N/A (Stopped)'` and `'N/A'`. -/
structure Underutilized where
  id : String
  type : String
  name : String
  cpuAvg : Option ℚ
  cpuMax : Option ℚ
  networkIn : Option ℚ
  reason : UnderutilizedReason
  estimatedSavings : Nat
  recommendation : String
  deriving DecidableEq, Repr

/-- A value of `metrics[instanceId]`. -/
structure InstanceMetrics where
  cpu : MetricResult
  network : MetricResult
  deriving DecidableEq, Repr

/-- What `fetchEC2Data` returns. -/
structure Ec2Data where
  instances : List InstanceData
  underutilized : List Underutilized
  metrics : List (String × InstanceMetrics)
  deriving DecidableEq, Repr

/-- The outcome of the two `client.send` calls issued for one running
instance. -/
structure MetricsRun where
  cpu : Except Thrown (Option (List MetricDatapoint))
  network : Except Thrown (Option (List MetricDatapoint))

/-- The number `x.toFixed(2)` names, for `x ≥ 0`. -/
def toFixed2 (x : ℚ) : ℚ :=
  (⌊x * 100 + 1 / 2⌋ : ℤ) / 100

/-- The `pricing` table of `estimateEC2Savings`. -/
def ec2Pricing : List (String × Nat) :=
  [("t2.micro", 8), ("t2.small", 17), ("t2.medium", 34), ("t2.large", 68),
   ("t3.micro", 8), ("t3.small", 15), ("t3.medium", 30), ("t3.large", 60),
   ("m5.large", 70), ("m5.xlarge", 140), ("m5.2xlarge", 280),
   ("c5.large", 62), ("c5.xlarge", 124), ("r5.large", 92), ("r5.xlarge", 184)]

/-- The function `estimateEC2Savings`. -/
def estimateEC2Savings (instanceType : String) : Nat :=
  orDefault ((ec2Pricing.find? (fun e => e.1 == instanceType)).map Prod.snd) 35

/-- The expression `instance.Tags?.find(t => t.Key === 'Name')?.Value || 'Unnamed'`. -/
def orUnnamed (nameTag : Option String) : String :=
  match nameTag with
  | some v => if v != "" then v else "Unnamed"
  | none => "Unnamed"

/-- The assignment `obj[key] = value` on an object keyed by strings. -/
def objSet {α : Type} (obj : List (String × α)) (key : String) (value : α) :
    List (String × α) :=
  if obj.any (fun e => e.1 == key) then obj.map (fun e => if e.1 == key then (key, value) else e)
  else obj ++ [(key, value)]

/-- The read `obj[key]`, `none` for `undefined`. -/
def objGet {α : Type} (obj : List (String × α)) (key : String) : Option α :=
  (obj.find? (fun e => e.1 == key)).map Prod.snd

/-- The body of the inner loop of `fetchEC2Data` for one instance.  A throw of
either `getCloudWatchMetric` rejects the `Promise.all` and is caught by the
inner `catch`, which only logs. -/
def fetchInstance (acc : Ec2Data) (inst : DescribedInstance) (run : MetricsRun) : Ec2Data :=
  let instanceData : InstanceData :=
    { id := inst.instanceId, type := inst.instanceType, state := inst.stateName,
      tagName := inst.nameTag }
  let acc1 := { acc with instances := acc.instances ++ [instanceData] }
  let instanceName := orUnnamed inst.nameTag
  if inst.stateName = "running" then
    match getCloudWatchMetric run.cpu, getCloudWatchMetric run.network with
    | .ok cpuMetrics, .ok networkMetrics =>
      let acc2 :=
        { acc1 with
          metrics := objSet acc1.metrics inst.instanceId
            { cpu := cpuMetrics, network := networkMetrics } }
      if cpuMetrics.datapoints > 0 then
        if cpuMetrics.average < 10 ∧ cpuMetrics.maximum < 30 then
          { acc2 with
            underutilized := acc2.underutilized ++
              [{ id := inst.instanceId
                 type := inst.instanceType
                 name := instanceName
                 cpuAvg := some (toFixed2 cpuMetrics.average)
                 cpuMax := some (toFixed2 cpuMetrics.maximum)
                 networkIn := some (toFixed2 (networkMetrics.average / 1024 / 1024))
                 reason := .lowCpu
                 estimatedSavings := estimateEC2Savings inst.instanceType
                 recommendation :=
                   "Downsize to " ++ suggestInstanceType inst.instanceType cpuMetrics.average }] }
        else acc2
      else acc2
    | _, _ => acc1
  else if inst.stateName = "stopped" then
    { acc1 with
      underutilized := acc1.underutilized ++
        [{ id := inst.instanceId
           type := inst.instanceType
           name := instanceName
           cpuAvg := none
           cpuMax := none
           networkIn := none
           reason := .stopped
           estimatedSavings := 15
           recommendation :=
             "Terminate if no longer needed, or start instance if still required" }] }
  else acc1

/-- The two nested loops of `fetchEC2Data` over the instances in listing
order; `world k` holds the provider's answers for the instance at position
`k`. -/
def fetchAll (world : Nat → MetricsRun) : Ec2Data → Nat → List DescribedInstance → Ec2Data
  | acc, _, [] => acc
  | acc, k, inst :: rest => fetchAll world (fetchInstance acc inst (world k)) (k + 1) rest

/-- The instances of `ec2Response.Reservations || []`, each reservation
contributing `reservation.Instances || []`. -/
def listedInstances (reservations : Option (List (Option (List DescribedInstance)))) :
    List DescribedInstance :=
  ((reservations.getD []).map (fun r => r.getD [])).flatten

/-- The literal `{ instances: [], underutilized: [], metrics: {} }`. -/
def emptyEc2Data : Ec2Data :=
  { instances := [], underutilized := [], metrics := [] }

/-- The function `fetchEC2Data`.  `describe` is the outcome of
`ec2Client.send(ec2Command)`; a rejection is caught by the outer `catch`. -/
def fetchEC2Data (describe : Except Thrown (Option (List (Option (List DescribedInstance)))))
    (world : Nat → MetricsRun) : Ec2Data :=
  match describe with
  | .ok reservations => fetchAll world emptyEc2Data 0 (listedInstances reservations)
  | .error _ => emptyEc2Data

/-- An element of the client's `instances` state; `cpuAvg` is `none` for
`NaN`. -/
structure InstanceRow where
  id : String
  name : String
  type : String
  state : String
  cpuAvg : Option ℚ
  cpuMax : ℚ
  isUnderutilized : Bool
  deriving DecidableEq, Repr

/-- The expression `inst.tags?.Name || inst.id || 'Unnamed Instance'`. -/
def rowName (inst : InstanceData) : String :=
  if truthyStr inst.tagName then inst.tagName.getD ""
  else if inst.id != "" then inst.id
  else "Unnamed Instance"

/-- The expression `x || 'unknown'` on a string. -/
def strOrUnknown (x : String) : String :=
  if x != "" then x else "unknown"

/-- The callback of `allInstances.forEach` in `loadInstancesAndLimits`: the
row pushed for one instance.  An entry of `underutilizedEC2` always carries a
`cpuAvg` text, which `parseFloat` turns into its number or `NaN`. -/
def instanceRow (underutilizedEC2 : List Underutilized)
    (ec2Metrics : List (String × InstanceMetrics)) (inst : InstanceData) : InstanceRow :=
  let isUnderutilized := underutilizedEC2.any (fun u => u.id == inst.id)
  let underutilizedData := underutilizedEC2.find? (fun u => u.id == inst.id)
  let instanceMetrics := objGet ec2Metrics inst.id
  let cpuAvg : Option ℚ :=
    match instanceMetrics with
    | some m => some (orZero (some m.cpu.average))
    | none =>
      match underutilizedData with
      | some u => u.cpuAvg
      | none => some 0
  { id := strOrUnknown inst.id
    name := rowName inst
    type := strOrUnknown inst.type
    state := strOrUnknown inst.state
    cpuAvg := cpuAvg
    cpuMax :=
      match instanceMetrics with
      | some m => orZero (some m.cpu.maximum)
      | none => 0
    isUnderutilized := isUnderutilized }

/-- The list `instancesList` that `loadInstancesAndLimits` builds from the
`awsData` fields `ec2Details`, `underutilizedEC2` and `ec2Metrics`. -/
def loadInstances (awsData : Ec2Data) : List InstanceRow :=
  awsData.instances.map (instanceRow awsData.underutilized awsData.metrics)

/-- The filter `inst.cpuAvg < LOW_UTILIZATION_THRESHOLD && inst.state ===
'running'` of the production-mode table; a comparison with `NaN` is false. -/
def isLowUtilization (row : InstanceRow) : Bool :=
  (match row.cpuAvg with
   | some c => decide (c < LOW_UTILIZATION_THRESHOLD)
   | none => false) && row.state == "running"

/-- The rows of the production-mode low-utilization table. -/
def lowUtilizationRows (instances : List InstanceRow) : List InstanceRow :=
  instances.filter isLowUtilization

/-- The number shown in the CPU cell of the low-utilization table,
`instance.cpuAvg.toFixed(2)`; `none` for the text `NaN`. -/
def shownCpu (row : InstanceRow) : Option ℚ :=
  row.cpuAvg.map toFixed2

/-! ## Text generation with model fallback (`generateWithGemini`) -/

/-- The constant `MAX_ATTEMPTS_PER_MODEL`. -/
def MAX_ATTEMPTS_PER_MODEL : Nat := 3

/-- The constant `BASE_RETRY_DELAY_MS`. -/
def BASE_RETRY_DELAY_MS : Nat := 1500

/-- The constant `MODEL_CACHE_TTL`, in milliseconds. -/
def MODEL_CACHE_TTL : Int := 5 * 60 * 1000

/-- An error object thrown by the generation SDK: its `status` and `message`,
each possibly absent. -/
structure GeminiError where
  status : Option Nat
  message : Option String
  deriving DecidableEq, Repr

/-- The method `String.prototype.toLowerCase`, on ASCII letters. -/
def toLowerCase (text : String) : String :=
  String.mk (text.data.map Char.toLower)

/-- The expression `error?.message?.toLowerCase().includes(pattern)` as a
condition (`undefined` is falsy). -/
def lowerIncludes (error : GeminiError) (pattern : String) : Bool :=
  match error.message with
  | some m => includes (toLowerCase m) pattern
  | none => false

/-- The function `isModelMissingError`. -/
def isModelMissingError (error : GeminiError) : Bool :=
  error.status == some 404 || lowerIncludes error "not found" ||
    lowerIncludes error "not have access"

/-- The function `isRateLimitError`. -/
def isRateLimitError (error : GeminiError) : Bool :=
  error.status == some 429 || lowerIncludes error "quota" ||
    lowerIncludes error "too many requests" || lowerIncludes error "rate limit"

/-- The function `isOverloadedError`. -/
def isOverloadedError (error : GeminiError) : Bool :=
  error.status == some 503 || lowerIncludes error "overloaded" ||
    lowerIncludes error "service unavailable"

/-- The array `MODEL_PRIORITY`; its first entry is `process.env.GEMINI_MODEL`,
`none` when the variable is unset. -/
def MODEL_PRIORITY (envModel : Option String) : List (Option String) :=
  [envModel, some "gemini-1.5-flash", some "gemini-1.5-pro", some "gemini-1.0-pro"]

/-- The error `new Error('Gemini AI not initialized')`. -/
def notInitializedError : GeminiError :=
  { status := none, message := some "Gemini AI not initialized" }

/-- The error `new Error('No working Gemini models available')`. -/
def noWorkingModelsError : GeminiError :=
  { status := none, message := some "No working Gemini models available" }

/-- What the environment answers during one call of `generateWithGemini`:
the value of `process.env.GEMINI_MODEL`; `Date.now()` and the list
`fetchAvailableModels()` resolves to at the `k`-th call of
`getAvailableModels`; whether `genAI.getGenerativeModel` throws for a model
name; and the outcome of the `k`-th content request of the call (the three
steps `generateContent`, `result.response`, `response.text()` together) when
issued for a model name. -/
structure GeminiWorld where
  envModel : Option String
  now : Nat → Int
  fetchAvailableModels : Nat → List String
  getGenerativeModel : Option String → Option GeminiError
  generateContent : Nat → Option String → Except GeminiError String

/-- The module variables `genAI` (whether it is set), `workingModel`,
`cachedAvailableModels` and `cachedModelsFetchedAt`, the locals `triedModels`
and `finalError` of one call of `generateWithGemini`, and a record of the
call: the number of `getAvailableModels` calls and the list each of them
resolved to, the model name of each content request in order, and the delays
slept. -/
structure GeminiRun where
  genAI : Bool
  workingModel : Option String
  cachedAvailableModels : List String
  cachedModelsFetchedAt : Int
  triedModels : List (Option String)
  finalError : Option GeminiError
  listCalls : Nat
  listings : List (List String)
  requests : List (Option String)
  sleeps : List Nat
  deriving DecidableEq, Repr

/-- The function `getAvailableModels` with `forceRefresh = false`: the list it
resolves to and the state it leaves. -/
def getAvailableModels (world : GeminiWorld) (st : GeminiRun) : List String × GeminiRun :=
  let now := world.now st.listCalls
  let st1 := { st with listCalls := st.listCalls + 1 }
  if st.cachedAvailableModels.length ≠ 0 ∧ now - st.cachedModelsFetchedAt < MODEL_CACHE_TTL then
    (st.cachedAvailableModels,
      { st1 with listings := st.listings ++ [st.cachedAvailableModels] })
  else
    let models := world.fetchAvailableModels st.listCalls
    if models.length ≠ 0 then
      (models, { st1 with cachedAvailableModels := models, cachedModelsFetchedAt := now,
                          listings := st.listings ++ [models] })
    else (models, { st1 with listings := st.listings ++ [models] })

/-- The list `candidates` of `getModelCandidates` before the final filter. -/
def candidatesOf (envModel : Option String) (availableModels : List String) :
    List (Option String) :=
  if availableModels.length ≠ 0 then
    let prioritized :=
      (MODEL_PRIORITY envModel).filter (fun model => decide (model ∈ availableModels.map some))
    let remaining := availableModels.filter (fun model => decide (some model ∉ prioritized))
    prioritized ++ remaining.map some
  else MODEL_PRIORITY envModel

/-- The function `getModelCandidates`: the list it resolves to and the state
it leaves. -/
def getModelCandidates (world : GeminiWorld) (exclude : List (Option String))
    (st : GeminiRun) : List (Option String) × GeminiRun :=
  let available := getAvailableModels world st
  ((candidatesOf world.envModel available.1).filter (fun model => decide (model ∉ exclude)),
    available.2)

/-- The inner `while (attempt < MAX_ATTEMPTS_PER_MODEL)` loop for the model
`modelName`; `remaining` is `MAX_ATTEMPTS_PER_MODEL - attempt`.  The first
component is the text when the loop returns from the function, `none` when
the loop is left. -/
def attemptLoop (world : GeminiWorld) (modelName : Option String) :
    Nat → Nat → GeminiRun → Option String × GeminiRun
  | 0, _, st => (none, st)
  | remaining + 1, attempt, st =>
    let attempt1 := attempt + 1
    let outcome := world.generateContent st.requests.length modelName
    let st1 := { st with requests := st.requests ++ [modelName] }
    match outcome with
    | .ok text => (some text, { st1 with workingModel := modelName })
    | .error error =>
      let st2 := { st1 with finalError := some error }
      if isRateLimitError error || isOverloadedError error then
        attemptLoop world modelName remaining attempt1
          { st2 with sleeps := st2.sleeps ++ [attempt1 * BASE_RETRY_DELAY_MS] }
      else if isModelMissingError error then
        (none, if st2.workingModel = modelName then { st2 with workingModel := none } else st2)
      else (none, st2)

/-- The model name one pass of the outer loop selects (`none` when the loop
breaks because no candidate is left) and the state after the selection. -/
def selectModel (world : GeminiWorld) (st : GeminiRun) : Option (Option String) × GeminiRun :=
  if truthyStr st.workingModel ∧ st.workingModel ∉ st.triedModels then
    (some st.workingModel, st)
  else
    let candidates := getModelCandidates world st.triedModels st
    match candidates.1 with
    | [] => (none, candidates.2)
    | modelName :: _ => (some modelName, candidates.2)

/-- One pass of the outer `while (true)` loop.  The first component is the
outcome of the call when the pass ends it (a returned text, or a thrown
error), `none` when the loop goes on. -/
def generateStep (world : GeminiWorld) (st : GeminiRun) :
    Option (Except GeminiError String) × GeminiRun :=
  let selected := selectModel world st
  match selected.1 with
  | none => (some (.error (selected.2.finalError.getD noWorkingModelsError)), selected.2)
  | some modelName =>
    let st1 := { selected.2 with triedModels := selected.2.triedModels ++ [modelName] }
    match world.getGenerativeModel modelName with
    | some thrown => (some (.error thrown), st1)
    | none =>
      let attempts := attemptLoop world modelName MAX_ATTEMPTS_PER_MODEL 0 st1
      match attempts.1 with
      | some text => (some (.ok text), attempts.2)
      | none => (none, attempts.2)

/-- The outer loop run for at most `fuel` passes; `none` when the passes
are used up before the call ends. -/
def generateLoop (world : GeminiWorld) : Nat → GeminiRun →
    Option (Except GeminiError String × GeminiRun)
  | 0, _ => none
  | fuel + 1, st =>
    match generateStep world st with
    | (some outcome, st1) => some (outcome, st1)
    | (none, st1) => generateLoop world fuel st1

/-- The function `generateWithGemini`, its outer loop bounded by `fuel`
passes: the returned text or the thrown error, and the state left. -/
def generateWithGemini (world : GeminiWorld) (fuel : Nat) (st : GeminiRun) :
    Option (Except GeminiError String × GeminiRun) :=
  if st.genAI = false then some (.error notInitializedError, st)
  else
    generateLoop world fuel
      { st with triedModels := [], finalError := none, listCalls := 0, listings := [],
                requests := [], sleeps := [] }

/-- Every content request of the record failed. -/
def AllFailed (world : GeminiWorld) (requests : List (Option String)) : Prop :=
  ∀ k modelName, requests[k]? = some modelName →
    ∃ error, world.generateContent k modelName = .error error

/-- The local `finalError` is unset when no request was issued, and is the
error of the last request otherwise. -/
def FinalErrorIsLast (world : GeminiWorld) (st : GeminiRun) : Prop :=
  (st.requests = [] ∧ st.finalError = none) ∨
    ∃ earlier modelName error, st.requests = earlier ++ [modelName] ∧
      world.generateContent earlier.length modelName = .error error ∧
      st.finalError = some error

/-- The invariant of the outer loop of `generateWithGemini`, for a list
`names` of model names: the models tried so far are pairwise distinct and
among `names`, so are a truthy `workingModel` and the cached model list;
requests were issued only for tried models, at most
`MAX_ATTEMPTS_PER_MODEL` per model, all of them failed, and `finalError` is
the error of the last one. -/
def GeminiInv (world : GeminiWorld) (names : List (Option String)) (st : GeminiRun) : Prop :=
  st.triedModels.Nodup ∧
  (∀ m ∈ st.triedModels, m ∈ names) ∧
  (truthyStr st.workingModel = true → st.workingModel ∈ names) ∧
  (∀ m ∈ st.cachedAvailableModels, some m ∈ names) ∧
  (∀ m ∈ st.requests, m ∈ st.triedModels) ∧
  (∀ m, st.requests.count m ≤ MAX_ATTEMPTS_PER_MODEL) ∧
  AllFailed world st.requests ∧
  FinalErrorIsLast world st

/-- What holds when a call of `generateWithGemini` that passed the `genAI`
guard ends with `outcome` in state `st`. -/
def GeminiPost (world : GeminiWorld) (names : List (Option String))
    (outcome : Except GeminiError String) (st : GeminiRun) : Prop :=
  st.triedModels.Nodup ∧
  (∀ m ∈ st.triedModels, m ∈ names) ∧
  (∀ m ∈ st.requests, m ∈ st.triedModels) ∧
  (∀ m, st.requests.count m ≤ MAX_ATTEMPTS_PER_MODEL) ∧
  match outcome with
  | .ok text =>
    ∃ earlier modelName, st.requests = earlier ++ [modelName] ∧ AllFailed world earlier ∧
      world.generateContent earlier.length modelName = .ok text ∧
      st.workingModel = modelName
  | .error error =>
    AllFailed world st.requests ∧ FinalErrorIsLast world st ∧
    error = st.finalError.getD noWorkingModelsError ∧
    ¬ (truthyStr st.workingModel = true ∧ st.workingModel ∉ st.triedModels) ∧
    ∃ availableModels, st.listings.getLast? = some availableModels ∧
      (availableModels = world.fetchAvailableModels (st.listCalls - 1) ∨
        availableModels = st.cachedAvailableModels) ∧
      ∀ c ∈ candidatesOf world.envModel availableModels, c ∈ st.triedModels

/-- The assumptions on the environment: every model name it can supply is
among `names`, and `genAI.getGenerativeModel` does not throw. -/
def GeminiNames (world : GeminiWorld) (names : List (Option String)) : Prop :=
  (∀ k, ∀ m ∈ world.fetchAvailableModels k, some m ∈ names) ∧
  (∀ m ∈ MODEL_PRIORITY world.envModel, m ∈ names) ∧
  (∀ m, world.getGenerativeModel m = none)

/-- The instance a metric call or a mail request is about. -/
def Effect.aboutInstance : Effect → Option String
  | .getMetricStatistics _ instanceId _ _ _ => some instanceId
  | .sendEmail _ instanceId => some instanceId
  | _ => none

/-! ## Concrete inputs used by the evaluations below -/

/-- The threshold of the scenario `i-001`: limit 80, auto-shutdown on, no
breach counted yet. -/
def limitI001 : InstanceLimit :=
  { userId := "u1", instanceId := "i-001", cpuLimit := 80, autoShutdown := some true,
    autoMonitoring := none, createdAt := some 1000, updatedAt := some 1000,
    breachCount := some 0, lastBreach := none }

/-- A server state whose only document is `limitI001`. -/
def stateI001 : ServerState :=
  { instanceLimits := [limitI001], instanceMonitoring := [], history := [],
    activityLogs := [], emailAlertHistory := [] }

/-- A tick for `i-001` at 95% CPU that carries credentials. -/
def tickI001 : MonitorRequest :=
  { userId := "u1", username := "alice", instanceId := "i-001", currentCPU := 95,
    awsAccessKey := some "AKIA", awsSecretKey := some "secret" }

/-- The same tick without credentials in the body. -/
def tickI001NoKeys : MonitorRequest :=
  { tickI001 with awsAccessKey := none, awsSecretKey := none }

/-- A clock that reads `5000 + k` at the k-th reading. -/
def clockFrom5000 (k : Nat) : Int := 5000 + k

/-- A stop response `running -> stopping`. -/
def stopRunningToStopping : Option InstanceStateChange :=
  some { previousState := some { name := some "running" },
         currentState := some { name := some "stopping" } }

/-- The `results` array of a lambda response body (empty for the early
return, which has none). -/
def LambdaBody.results : LambdaBody → List LambdaResult
  | .noInstances _ => []
  | .report _ results _ => results

/-- A lambda entry for `i-002` with limit 5 and auto-shutdown off. -/
def configI002 : LimitConfig :=
  { instanceId := "i-002", cpuLimit := 5, autoShutdown := some false }

/-- A run in which `i-002` is running and its latest datapoint averages 40. -/
def runI002Busy : InstanceRun :=
  { describe := .ok (some { instanceId := "i-002", stateName := "running", nameTag := none }),
    metrics := .ok (some [{ timestamp := 100, average := 2 }, { timestamp := 400, average := 40 }]),
    stop := .ok stopRunningToStopping,
    clock := clockFrom5000 }

/-- A run in which `i-002` is stopped. -/
def runI002Stopped : InstanceRun :=
  { runI002Busy with
    describe := .ok (some { instanceId := "i-002", stateName := "stopped", nameTag := none }) }

/-- A run in which `i-002` is running and CloudWatch has no datapoint. -/
def runI002NoData : InstanceRun :=
  { runI002Busy with metrics := .ok (some []) }

/-- The threshold of `i-001` with auto-shutdown switched off. -/
def limitI001Off : InstanceLimit := { limitI001 with autoShutdown := some false }

/-- A server state whose only document is `limitI001Off`. -/
def stateI001Off : ServerState := { stateI001 with instanceLimits := [limitI001Off] }

/-- A tick for `i-001` at exactly its limit, 80% CPU. -/
def tickI001AtLimit : MonitorRequest := { tickI001 with currentCPU := 80 }

/-- The state `stateI001` with an alert being tracked for `i-001`. -/
def stateI001Tracked : ServerState :=
  { stateI001 with instanceMonitoring := [(limitKey "u1" "i-001", { alertShown := true })] }

/-- A save request for `i-001` with `cpuLimit = 500`. -/
def save500 : SaveLimitRequest :=
  { userId := "u1", instanceId := some "i-001", cpuLimit := some 500,
    autoShutdown := some true }

/-- A save request for `i-001` with `cpuLimit = 1`. -/
def save1 : SaveLimitRequest := { save500 with cpuLimit := some 1 }

/-- A server state with no document at all. -/
def emptyState : ServerState :=
  { instanceLimits := [], instanceMonitoring := [], history := [], activityLogs := [],
    emailAlertHistory := [] }

/-- The threshold of `i-001` after three counted breaches. -/
def limitI001Breached : InstanceLimit :=
  { limitI001 with breachCount := some 3, lastBreach := some 4000 }

/-- A server state whose only document is `limitI001Breached`. -/
def stateI001Breached : ServerState :=
  { stateI001 with instanceLimits := [limitI001Breached] }

/-- Production-mode settings of `u1`: enabled, no per-instance entry. -/
def settingsU1 : ProductionModeSettings :=
  { userId := "u1", enabled := true, instanceSettings := none }

/-- The user document of `u1`. -/
def userU1 : UserDoc := { username := "alice", email := "alice@example.com" }

/-- The running instance `i-001`, without a `Name` tag. -/
def instanceI001 : Ec2Instance :=
  { instanceId := "i-001", stateName := "running", nameTag := none }

/-- A metric response with one datapoint averaging 2% CPU. -/
def metricsIdle : Except String (Option (List Datapoint)) :=
  .ok (some [{ timestamp := 900, average := 2 }])

/-- An alert record for (`u1`, `i-001`) with the given timestamp. -/
def alertAt (t : Int) : EmailAlertRecord :=
  { userId := "u1", instanceId := "i-001", instanceName := none, cpuUsage := none,
    type := "low_utilization", emailSent := some true, timestamp := t }

/-- A clock that reads `10000000 + k` at the k-th reading. -/
def clockFrom10M (k : Nat) : Int := 10000000 + k

/-- A manual stop request for `i-001`. -/
def stopReqI001 : StopRequest :=
  { userId := "u1", username := "alice", instanceId := some "i-001",
    reason := some "Manual stop by user" }

/-- Stored credentials with both keys. -/
def credsU1 : Option AwsCredentials :=
  some { awsAccessKey := some "AKIA", awsSecretKey := some "secret" }

/-- A permission error of the provider. -/
def errUnauthorized : AwsError :=
  { name := "UnauthorizedOperation",
    message := "You are not authorized to perform this operation." }

/-- The provider's error for an instance id unknown in a region. -/
def errNotFound : AwsError :=
  { name := "InvalidInstanceID.NotFound",
    message := "The instance ID 'i-001' does not exist" }

/-- The stop command is refused in `us-east-1` for lack of permission and
answers "not found" in every other region. -/
def stopDeniedThenNotFound (region : String) :
    Except AwsError (Option InstanceStateChange) :=
  if region = "us-east-1" then .error errUnauthorized else .error errNotFound

/-- The stop command answers "not found" in `us-east-1` and succeeds in every
other region. -/
def stopFoundInSecond (region : String) : Except AwsError (Option InstanceStateChange) :=
  if region = "us-east-1" then .error errNotFound else .ok stopRunningToStopping

/-- The stop command succeeds in every region. -/
def stopSucceeds (_region : String) : Except AwsError (Option InstanceStateChange) :=
  .ok stopRunningToStopping

/-- Template parameters addressed to `alice@example.com`. -/
def templateAlice : TemplateParams :=
  { user_name := some "alice", aws_account_id := some "AKIA...",
    resource_name := some "web (i-001)", action_url := some "/dashboard",
    to_email := some "alice@example.com" }

/-- A manual send request for (`u1`, `i-001`). -/
def sendReqI001 : SendEmailRequest :=
  { userId := "u1", username := "alice", instanceId := some "i-001",
    instanceName := some "web", cpuUsage := some 2, templateParams := some templateAlice }

/-- Settings of `u1` with production mode on and an entry for `i-001` whose
`emailEnabled` is the given value. -/
def settingsU1With (emailEnabled : Option Bool) : ProductionModeSettings :=
  { userId := "u1", enabled := true,
    instanceSettings := some [("i-001", { emailEnabled := emailEnabled })] }

/-- Settings of `u2` with production mode off and email enabled for `i-002`. -/
def settingsU2Off : ProductionModeSettings :=
  { userId := "u2", enabled := false,
    instanceSettings := some [("i-002", { emailEnabled := some true })] }

/-- The answers of one evaluation: the given clock, idle metrics, an accepted
mail request. -/
def evalIdleAccepted (clock : Nat → Int) : InstanceEval :=
  { clock := clock, metrics := metricsIdle, emailResponse := .ok true }

/-- A user run for `u1`: document with an email, credentials, STS answering,
the running instance `i-001` in `us-east-1` and nothing in any other region,
every evaluation answered by `eval`. -/
def runU1 (eval : InstanceEval) : UserRun :=
  { userDoc := .ok (some userU1), credentials := credsU1, sts := .ok "123456789012",
    describe := fun region => if region = "us-east-1" then .ok [[instanceI001]] else .ok [],
    instanceEval := fun _ => eval }

/-- The calls every processed user starts with: the STS call and the describe
call of each region. -/
def passPrelude : List Effect :=
  [Effect.getCallerIdentity, Effect.describeInstances "us-east-1" [],
   Effect.describeInstances "us-east-2" []]

/-- The environment of a user whose document has an email, who has stored
credentials, whose STS call answers, and whose only instance is `inst`,
running in `us-east-1`. -/
def ServesOneInstance (run : UserRun) (userDoc : UserDoc) (inst : Ec2Instance) : Prop :=
  run.userDoc = .ok (some userDoc) ∧ userDoc.email ≠ "" ∧
  (∃ c, run.credentials = some c) ∧ (∃ a, run.sts = .ok a) ∧
  run.describe "us-east-1" = .ok [[inst]] ∧ run.describe "us-east-2" = .ok [] ∧
  inst.stateName = "running"

/-- The metric call of the pass for one instance. -/
def passMetricCall (region : String) (inst : Ec2Instance) (clock : Nat → Int) : Effect :=
  Effect.getMetricStatistics region inst.instanceId (clock 1 - 15 * 60 * 1000) (clock 1) 300

/-- A metric response with one datapoint averaging 95% CPU. -/
def metricsBusy : Except String (Option (List Datapoint)) :=
  .ok (some [{ timestamp := 900, average := 95 }])

/-- The answers of one evaluation: the given clock, busy metrics, an accepted
mail request. -/
def evalBusyAccepted (clock : Nat → Int) : InstanceEval :=
  { clock := clock, metrics := metricsBusy, emailResponse := .ok true }

/-- Two collections of alert records give the same cooldown answers for the
user `userId`, for every instance and every time. -/
def CoolEq (userId : String) (a b : List EmailAlertRecord) : Prop :=
  ∀ (instanceId : String) (now : Int),
    cooldownDenies a userId instanceId now = cooldownDenies b userId instanceId now

/-- Settings of `u2` with production mode on. -/
def settingsU2On : ProductionModeSettings :=
  { userId := "u2", enabled := true, instanceSettings := none }

/-- A user run whose metric call throws for every instance: the user has a
document with an email, credentials, and one running instance. -/
def runMetricsThrow : UserRun :=
  runU1 { clock := clockFrom10M, metrics := .error "Throttling", emailResponse := .ok true }

/-- A user run for a user who has no user document. -/
def runNoDocument : UserRun :=
  { runMetricsThrow with userDoc := .ok none }

/-- The `error` result of the lambda for an entry and a message. -/
def lambdaError (instanceId msg : String) : LambdaResult :=
  { LambdaResult.basic instanceId "error" with error := some msg }

/-- A world in which the entry at position 0 meets a describe call that
throws and every other entry meets `runI002Busy`. -/
def worldFirstThrows (k : Nat) : InstanceRun :=
  if k = 0 then { runI002Busy with describe := .error "RequestLimitExceeded" }
  else runI002Busy

/-- A breaching tick for `i-001` without credentials, read at the given
clock. -/
def tickInputNoKeys (clock : Nat → Int) : TickInput :=
  { req := tickI001NoKeys, clock := clock, stopResult := .ok stopRunningToStopping,
    historyOk := true }

/-- Every document found under a key before is still found under that key
after, with a `breachCount` (an absent one counting as 0) that is not
smaller. -/
def CountsKept (before after : List InstanceLimit) : Prop :=
  ∀ (userId instanceId : String) (d : InstanceLimit),
    findOne before userId instanceId = some d →
    ∃ d2, findOne after userId instanceId = some d2 ∧
      d.breachCount.getD 0 ≤ d2.breachCount.getD 0

/-- Whether an operation is a deletion. -/
def LimitOp.isDelete : LimitOp → Bool
  | .delete _ _ => true
  | _ => false

/-- A request of `u1` that enables auto-monitoring of `i-001` without a
limit. -/
def enableI001 : AutoMonitorRequest :=
  { userId := "u1", instanceId := some "i-001", enabled := true, cpuLimit := none }

/-- A threshold of user `u2` for `i-002` with two counted breaches. -/
def limitU2 : InstanceLimit :=
  { userId := "u2", instanceId := "i-002", cpuLimit := 70, autoShutdown := some true,
    autoMonitoring := some true, createdAt := some 10, updatedAt := some 10,
    breachCount := some 2, lastBreach := some 900 }

/-- A store with the thresholds of `u1` and of `u2`. -/
def stateTwoUsers : ServerState :=
  { stateI001 with instanceLimits := [limitI001, limitU2] }

/-- A lambda entry for `i-001` with limit 80 and no `autoShutdown` field. -/
def configI001NoFlag : LimitConfig :=
  { instanceId := "i-001", cpuLimit := 80, autoShutdown := none }

/-- A run in which `i-001` is running, its latest datapoint averages 95 and the
stop command succeeds. -/
def runI001Hot : InstanceRun :=
  { describe := .ok (some instanceI001),
    metrics := .ok (some [{ timestamp := 400, average := 95 }]),
    stop := .ok stopRunningToStopping, clock := clockFrom5000 }

/-- A running instance `i-001` of type `t3.medium`, as described by the
provider. -/
def describedI001 : DescribedInstance :=
  { instanceId := "i-001", instanceType := "t3.medium", stateName := "running",
    nameTag := some "web" }

/-- A listing of one reservation holding `describedI001`. -/
def listingI001 : Except Thrown (Option (List (Option (List DescribedInstance)))) :=
  .ok (some [some [describedI001]])

/-- Both metric calls answer with no datapoints. -/
def runNoDatapoints : MetricsRun :=
  { cpu := .ok (some []), network := .ok (some []) }

/-- The CPU metric call rejects with a value that carries no message. -/
def runCpuRejectsBare : MetricsRun :=
  { cpu := .error .nullish, network := .ok (some []) }

/-- The row the client builds for `i-001` when it reads a CPU average of 0. -/
def rowI001Zero : InstanceRow :=
  { id := "i-001", name := "web", type := "t3.medium", state := "running",
    cpuAvg := some 0, cpuMax := 0, isUnderutilized := false }

/-- A throttling error as the provider raises it. -/
def thrownThrottling : Thrown :=
  .object (some "Rate exceeded")

/-- The `awsData` of a response that lists `i-001` as running and carries no
`ec2Metrics` entry for it. -/
def awsDataNoMetrics : Ec2Data :=
  { instances := [{ id := "i-001", type := "t3.medium", state := "running",
                    tagName := some "web" }]
    underutilized := []
    metrics := [] }

/-- An environment without `GEMINI_MODEL` whose model listing fails: a
request for the `undefined` entry is answered 404, `gemini-1.5-flash` is
overloaded (503) at every attempt and `gemini-1.5-pro` answers. -/
def worldFlashOverloaded : GeminiWorld :=
  { envModel := none
    now := fun _ => 0
    fetchAvailableModels := fun _ => []
    getGenerativeModel := fun _ => none
    generateContent := fun _ modelName =>
      if modelName = some "gemini-1.5-pro" then .ok "Stop the idle instances."
      else if modelName = some "gemini-1.5-flash" then
        .error { status := some 503, message := some "The model is overloaded" }
      else .error { status := some 404, message := none } }

/-- The module state after start-up with an API key and before any model
was found. -/
def runInitialized : GeminiRun :=
  { genAI := true, workingModel := none, cachedAvailableModels := [],
    cachedModelsFetchedAt := 0, triedModels := [], finalError := none, listCalls := 0,
    listings := [], requests := [], sleeps := [] }

/-- The module state after start-up without an API key. -/
def runUninitialized : GeminiRun := { runInitialized with genAI := false }

/-- The running instance `i-000`, without a `Name` tag. -/
def instanceI000 : Ec2Instance :=
  { instanceId := "i-000", stateName := "running", nameTag := none }

/-- A user run for `u1` with two running instances in `us-east-1`, `i-000`
busy at 95% CPU and `i-001` idle at 2%, read on the given clock, the mail
service accepting. -/
def runU1TwoInstances (clock : Nat → Int) : UserRun :=
  { userDoc := .ok (some userU1), credentials := credsU1, sts := .ok "123456789012",
    describe := fun region =>
      if region = "us-east-1" then .ok [[instanceI000, instanceI001]] else .ok [],
    instanceEval := fun k =>
      if k = 0 then evalBusyAccepted clock else evalIdleAccepted clock }

/-- A pass over two users: `u2`, whose metric call throws, then `u1` with the
instances `i-000` and `i-001`. -/
def worldTwoUsers (clock : Nat → Int) (j : Nat) : UserRun :=
  if j = 0 then runMetricsThrow else runU1TwoInstances clock

/-- A metric window of three datapoints whose averages are the binary64
numbers nearest to 0.1, 0.2 and 14.7. -/
def windowRoundsToFive : List Datapoint :=
  [{ timestamp := 300, average := 3602879701896397 / 36028797018963968 },
   { timestamp := 600, average := 3602879701896397 / 18014398509481984 },
   { timestamp := 900, average := 4137682157646643 / 281474976710656 }]

/-! ## Lemmas on the store primitives -/

theorem matchesKey_recordBreach (userId instanceId : String) (now : Int)
    (d : InstanceLimit) :
    matchesKey userId instanceId (recordBreach now d) = matchesKey userId instanceId d :=
  rfl

theorem findOne_matches {docs : List InstanceLimit} {userId instanceId : String}
    {d : InstanceLimit} (h : findOne docs userId instanceId = some d) :
    matchesKey userId instanceId d = true := by
  unfold findOne at h
  exact List.find?_some h

theorem findOne_updateOne (userId instanceId : String) (f : InstanceLimit → InstanceLimit)
    (hf : ∀ d, matchesKey userId instanceId (f d) = matchesKey userId instanceId d) :
    ∀ (docs : List InstanceLimit) (d : InstanceLimit),
      findOne docs userId instanceId = some d →
      findOne (updateOne userId instanceId f docs) userId instanceId = some (f d) := by
  intro docs
  induction docs with
  | nil => intro d h; simp [findOne] at h
  | cons x xs ih =>
    intro d h
    by_cases hx : matchesKey userId instanceId x = true
    · have hd : x = d := by simpa [findOne, List.find?, hx] using h
      subst hd
      simp [updateOne, hx, findOne, List.find?, hf]
    · have hx' : matchesKey userId instanceId x = false := by simpa using hx
      have h' : findOne xs userId instanceId = some d := by
        simpa [findOne, List.find?, hx'] using h
      have := ih d h'
      simpa [updateOne, hx', findOne, List.find?] using this

theorem updateOne_split (userId instanceId : String) (f : InstanceLimit → InstanceLimit) :
    ∀ (docs : List InstanceLimit) (d : InstanceLimit),
      findOne docs userId instanceId = some d →
      ∃ pre post, docs = pre ++ d :: post ∧
        (∀ x ∈ pre, matchesKey userId instanceId x = false) ∧
        updateOne userId instanceId f docs = pre ++ f d :: post := by
  intro docs
  induction docs with
  | nil => intro d h; simp [findOne] at h
  | cons x xs ih =>
    intro d h
    by_cases hx : matchesKey userId instanceId x = true
    · have hd : x = d := by simpa [findOne, List.find?, hx] using h
      subst hd
      exact ⟨[], xs, rfl, by simp, by simp [updateOne, hx]⟩
    · have hx' : matchesKey userId instanceId x = false := by simpa using hx
      have h' : findOne xs userId instanceId = some d := by
        simpa [findOne, List.find?, hx'] using h
      obtain ⟨pre, post, h1, h2, h3⟩ := ih d h'
      refine ⟨x :: pre, post, by simp [h1], ?_, by simp [updateOne, hx', h3]⟩
      intro y hy
      rcases List.mem_cons.mp hy with rfl | hy
      · exact hx'
      · exact h2 y hy

theorem mapHas_mapDelete (m : List (String × MonitorState)) (k : String) :
    mapHas (mapDelete m k) k = false := by
  simp [mapHas, mapDelete, List.any_eq_false, List.mem_filter]

theorem mapGet_mapDelete_of_ne (m : List (String × MonitorState)) (k k' : String)
    (h : k' ≠ k) : mapGet (mapDelete m k) k' = mapGet m k' := by
  induction m with
  | nil => rfl
  | cons e es ih =>
    simp only [mapGet, mapDelete] at ih ⊢
    by_cases he : e.1 = k
    · have hk : (e.1 == k) = true := by simp [he]
      have hk' : (e.1 == k') = false := by
        simp only [beq_eq_false_iff_ne, ne_eq, he]
        exact fun h' => h h'.symm
      rw [List.filter_cons, List.find?_cons]
      simp only [hk, hk', Bool.not_true]
      exact ih
    · have hk : (e.1 == k) = false := by simp [he]
      rw [List.filter_cons, List.find?_cons]
      simp only [hk, Bool.not_false, if_true]
      rw [List.find?_cons]
      cases hk' : (e.1 == k')
      · exact ih
      · rfl

/-! ## `POST /api/monitor-instance`: the breaching tick -/

theorem monitorInstance_breach_limits (awsRegion : String) (st : ServerState)
    (req : MonitorRequest) (clock : Nat → Int)
    (stopResult : Except String (Option InstanceStateChange)) (historyOk : Bool)
    (limit : InstanceLimit)
    (hfind : findOne st.instanceLimits req.userId req.instanceId = some limit)
    (hcpu : req.currentCPU > limit.cpuLimit) :
    (monitorInstance awsRegion st req clock stopResult historyOk).1.instanceLimits =
      updateOne req.userId req.instanceId (recordBreach (clock 0)) st.instanceLimits := by
  unfold monitorInstance
  rw [hfind]
  simp only [hcpu, if_true]
  split
  · cases stopResult with
    | error msg => rfl
    | ok r => cases historyOk <;> rfl
  · cases hget : mapGet st.instanceMonitoring (limitKey req.userId req.instanceId) <;>
      simp [hget]

theorem monitorInstance_breach_stop_trace (awsRegion : String) (st : ServerState)
    (req : MonitorRequest) (clock : Nat → Int)
    (stopResult : Except String (Option InstanceStateChange)) (historyOk : Bool)
    (limit : InstanceLimit)
    (hfind : findOne st.instanceLimits req.userId req.instanceId = some limit)
    (hcpu : req.currentCPU > limit.cpuLimit)
    (hgo : (truthyBool limit.autoShutdown && truthyStr req.awsAccessKey
      && truthyStr req.awsSecretKey) = true) :
    (monitorInstance awsRegion st req clock stopResult historyOk).2.2 =
      [Effect.stopInstances awsRegion [req.instanceId]] := by
  unfold monitorInstance
  rw [hfind]
  simp only [hcpu, if_true, hgo]
  cases stopResult <;> rfl

/-- C1, as stated, fails: the threshold of `i-001` has auto-shutdown on and the
reported CPU 95 exceeds its limit 80, yet the tick, whose body carries no
credentials, issues no stop command and answers `alert`. -/
theorem monitor_autoShutdown_without_credentials_issues_no_stop :
    findOne stateI001.instanceLimits tickI001NoKeys.userId tickI001NoKeys.instanceId
      = some limitI001 ∧
    limitI001.autoShutdown = some true ∧
    tickI001NoKeys.currentCPU > limitI001.cpuLimit ∧
    stopCount (monitorInstance "us-east-1" stateI001 tickI001NoKeys clockFrom5000
      (.ok stopRunningToStopping) true).2.2 = 0 ∧
    (monitorInstance "us-east-1" stateI001 tickI001NoKeys clockFrom5000
      (.ok stopRunningToStopping) true).2.1.action = "alert" := by
  refine ⟨by decide, rfl, by decide, by decide, by decide⟩

/-- C1, amended: for a stored threshold with `autoShutdown = true`, a reported
CPU above `cpuLimit` and a request that carries a non-empty access key and
secret key, the tick issues exactly one stop command (for this instance, in
`AWS_REGION`) and the stored document becomes the old one with `breachCount`
raised by one, whatever the stop command answers. -/
theorem monitor_breach_autoShutdown_stops_once (awsRegion : String) (st : ServerState)
    (req : MonitorRequest) (clock : Nat → Int)
    (stopResult : Except String (Option InstanceStateChange)) (historyOk : Bool)
    (limit : InstanceLimit)
    (hfind : findOne st.instanceLimits req.userId req.instanceId = some limit)
    (hauto : limit.autoShutdown = some true)
    (hcpu : req.currentCPU > limit.cpuLimit)
    (hkey : truthyStr req.awsAccessKey = true)
    (hsecret : truthyStr req.awsSecretKey = true) :
    (monitorInstance awsRegion st req clock stopResult historyOk).2.2
      = [Effect.stopInstances awsRegion [req.instanceId]] ∧
    stopCount (monitorInstance awsRegion st req clock stopResult historyOk).2.2 = 1 ∧
    findOne (monitorInstance awsRegion st req clock stopResult historyOk).1.instanceLimits
      req.userId req.instanceId = some (recordBreach (clock 0) limit) ∧
    (recordBreach (clock 0) limit).breachCount = some (limit.breachCount.getD 0 + 1) := by
  have hgo : (truthyBool limit.autoShutdown && truthyStr req.awsAccessKey
      && truthyStr req.awsSecretKey) = true := by
    simp [hauto, hkey, hsecret, truthyBool]
  have htrace := monitorInstance_breach_stop_trace awsRegion st req clock stopResult
    historyOk limit hfind hcpu hgo
  refine ⟨htrace, ?_, ?_, rfl⟩
  · rw [htrace]; rfl
  · rw [monitorInstance_breach_limits awsRegion st req clock stopResult historyOk limit
      hfind hcpu]
    exact findOne_updateOne _ _ _ (matchesKey_recordBreach _ _ _) _ _ hfind

/-- Witness of the amended C1 on the scenario `i-001`: one stop command and
`breachCount` from 0 to 1. -/
theorem monitor_breach_autoShutdown_stops_once_witness :
    stopCount (monitorInstance "us-east-1" stateI001 tickI001 clockFrom5000
      (.ok stopRunningToStopping) true).2.2 = 1 ∧
    findOne (monitorInstance "us-east-1" stateI001 tickI001 clockFrom5000
      (.ok stopRunningToStopping) true).1.instanceLimits tickI001.userId
        tickI001.instanceId = some (recordBreach (clockFrom5000 0) limitI001) ∧
    limitI001.breachCount = some 0 ∧
    (recordBreach (clockFrom5000 0) limitI001).breachCount = some 1 :=
  have h := monitor_breach_autoShutdown_stops_once "us-east-1" stateI001 tickI001
    clockFrom5000 (.ok stopRunningToStopping) true limitI001 (by decide) rfl (by decide)
    (by decide) (by decide)
  ⟨h.2.1, h.2.2.1, rfl, rfl⟩

/-! ## The lambda: one entry of the loop -/

theorem processAll_getElem? (region : String) (world : Nat → InstanceRun) :
    ∀ (cs : List LimitConfig) (start i : Nat),
      (processAll region world start cs)[i]? =
        cs[i]?.map (fun c => processInstance region c (world (start + i))) := by
  intro cs
  induction cs with
  | nil => intro start i; simp [processAll]
  | cons c cs ih =>
    intro start i
    cases i with
    | zero => simp [processAll]
    | succ j =>
      simp only [processAll, List.getElem?_cons_succ]
      rw [ih (start + 1) j]
      have : start + 1 + j = start + (j + 1) := by omega
      rw [this]

theorem handler_results_getElem? (event : LambdaEvent) (envRegion : Option String)
    (world : Nat → InstanceRun) (finalTime : Int) (i : Nat) :
    (handler event envRegion world finalTime).2.1.results[i]? =
      (event.instanceLimits.getD [])[i]?.map (fun c =>
        (processInstance (resolveRegion event.region envRegion) c (world i)).1) := by
  unfold handler
  by_cases h : (event.instanceLimits.getD []).length = 0
  · have h' : event.instanceLimits.getD [] = [] := List.length_eq_zero.mp h
    simp [h', LambdaBody.results]
  · simp only [h, if_false, LambdaBody.results, List.getElem?_map, processAll_getElem?,
      Option.map_map, Nat.zero_add]
    rfl

/-- C2: a breach with auto-shutdown off produces `alert` and no stop command,
in `POST /api/monitor-instance` (first part: the stored threshold has
`autoShutdown = false` and the reported CPU is above its limit) and in the
lambda (second part: the entry has `autoShutdown = false`, the instance is
running and its most recent datapoint is above the limit). -/
theorem breach_without_autoShutdown_alerts_and_never_stops :
    (∀ (awsRegion : String) (st : ServerState) (req : MonitorRequest) (clock : Nat → Int)
        (stopResult : Except String (Option InstanceStateChange)) (historyOk : Bool)
        (limit : InstanceLimit),
        findOne st.instanceLimits req.userId req.instanceId = some limit →
        limit.autoShutdown = some false →
        req.currentCPU > limit.cpuLimit →
        (monitorInstance awsRegion st req clock stopResult historyOk).2.1.action = "alert" ∧
        (monitorInstance awsRegion st req clock stopResult historyOk).2.2 = []) ∧
    (∀ (region : String) (config : LimitConfig) (run : InstanceRun) (inst : Ec2Instance)
        (d : Datapoint) (ds : List Datapoint),
        config.autoShutdown = some false →
        run.describe = .ok (some inst) →
        inst.stateName = "running" →
        run.metrics = .ok (some (d :: ds)) →
        mostRecentCPU d ds > config.cpuLimit →
        (processInstance region config run).1.status = "alert" ∧
        stopCount (processInstance region config run).2 = 0) := by
  constructor
  · intro awsRegion st req clock stopResult historyOk limit hfind hoff hcpu
    unfold monitorInstance
    rw [hfind]
    simp only [hcpu, if_true, hoff, truthyBool, Bool.false_and]
    cases hget : mapGet st.instanceMonitoring (limitKey req.userId req.instanceId) <;>
      simp [MonitorResponse.basic]
  · intro region config run inst d ds hoff hdesc hrun hmet hcpu
    unfold processInstance
    simp [hdesc, hrun, hmet, hcpu, hoff, LambdaResult.basic, stopCount, Effect.isStop]

/-- Witness of C2: the threshold of `i-001` with auto-shutdown off at 95% CPU
on the server, and the entry `i-002` (limit 5, latest datapoint 40) in the
lambda. -/
theorem breach_without_autoShutdown_alerts_and_never_stops_witness :
    ((monitorInstance "us-east-1" stateI001Off tickI001 clockFrom5000
        (.ok stopRunningToStopping) true).2.1.action = "alert" ∧
      (monitorInstance "us-east-1" stateI001Off tickI001 clockFrom5000
        (.ok stopRunningToStopping) true).2.2 = []) ∧
    ((processInstance "us-east-1" configI002 runI002Busy).1.status = "alert" ∧
      stopCount (processInstance "us-east-1" configI002 runI002Busy).2 = 0) :=
  ⟨breach_without_autoShutdown_alerts_and_never_stops.1 "us-east-1" stateI001Off tickI001
      clockFrom5000 (.ok stopRunningToStopping) true limitI001Off (by decide) rfl
      (by decide),
   breach_without_autoShutdown_alerts_and_never_stops.2 "us-east-1" configI002 runI002Busy
      { instanceId := "i-002", stateName := "running", nameTag := none }
      { timestamp := 100, average := 2 } [{ timestamp := 400, average := 40 }]
      rfl rfl rfl rfl (by decide)⟩

/-- C3: in the lambda, an entry whose instance is described in a state other
than `running` yields the result `skipped`; the only provider call is the
describe call (no metric fetch, no stop command); the outcome is the same
for every `cpuLimit`, `autoShutdown` flag, metric response and stop response;
and the handler reports this result at the entry's position. -/
theorem lambda_not_running_is_skipped (region : String) (config : LimitConfig)
    (run : InstanceRun) (inst : Ec2Instance)
    (hdesc : run.describe = .ok (some inst)) (hstate : inst.stateName ≠ "running") :
    (processInstance region config run).1.status = "skipped" ∧
    (processInstance region config run).2
      = [Effect.describeInstances region [config.instanceId]] ∧
    (processInstance region config run).2.any Effect.isMetricFetch = false ∧
    stopCount (processInstance region config run).2 = 0 ∧
    (∀ (cpuLimit : ℚ) (autoShutdown : Option Bool)
        (metrics : Except String (Option (List Datapoint)))
        (stop : Except String (Option InstanceStateChange)),
        processInstance region
          { instanceId := config.instanceId, cpuLimit := cpuLimit,
            autoShutdown := autoShutdown }
          { run with metrics := metrics, stop := stop }
          = processInstance region config run) ∧
    (∀ (event : LambdaEvent) (envRegion : Option String) (world : Nat → InstanceRun)
        (finalTime : Int) (i : Nat),
        (event.instanceLimits.getD [])[i]? = some config → world i = run →
        ((handler event envRegion world finalTime).2.1.results[i]?).map
          (fun r => r.status) = some "skipped") := by
  have hne : (inst.stateName != "running") = true := by simpa using hstate
  have key : ∀ (rg : String) (c : LimitConfig) (r : InstanceRun),
      r.describe = .ok (some inst) →
      processInstance rg c r =
        ({ LambdaResult.basic c.instanceId "skipped" with
           reason := some ("Instance is " ++ inst.stateName) },
         [Effect.describeInstances rg [c.instanceId]]) := by
    intro rg c r hr
    unfold processInstance
    simp [hr, hne]
  refine ⟨?_, ?_, ?_, ?_, ?_, ?_⟩
  · rw [key region config run hdesc]; rfl
  · rw [key region config run hdesc]
  · rw [key region config run hdesc]; rfl
  · rw [key region config run hdesc]; rfl
  · intro cpuLimit autoShutdown metrics stop
    rw [key region config run hdesc]
    exact key region _ _ hdesc
  · intro event envRegion world finalTime i hcfg hworld
    rw [handler_results_getElem?, hcfg, hworld]
    simp only [Option.map_some', key _ config run hdesc]
    rfl

/-- Witness of C3: the entry `i-002` while the instance is stopped. -/
theorem lambda_not_running_is_skipped_witness :
    (processInstance "us-east-1" configI002 runI002Stopped).1.status = "skipped" ∧
    stopCount (processInstance "us-east-1" configI002 runI002Stopped).2 = 0 :=
  have h := lambda_not_running_is_skipped "us-east-1" configI002 runI002Stopped
    { instanceId := "i-002", stateName := "stopped", nameTag := none } rfl (by decide)
  ⟨h.1, h.2.2.2.1⟩

/-- C4: in the lambda, an entry whose instance is running and whose metric
query returns no datapoint yields the result `no_metrics` (neither `alert`
nor `stopped`); the provider calls are the describe call and the metric
query, and no stop command; the outcome is the same for every `cpuLimit`,
`autoShutdown` flag and stop response; the handler reports this result at
the entry's position.  The lambda holds no breach counter: its only outputs
are the results and these calls. -/
theorem lambda_no_datapoints_is_no_metrics (region : String) (config : LimitConfig)
    (run : InstanceRun) (inst : Ec2Instance) (dps : Option (List Datapoint))
    (hdesc : run.describe = .ok (some inst)) (hrun : inst.stateName = "running")
    (hmet : run.metrics = .ok dps) (hempty : dps.getD [] = []) :
    (processInstance region config run).1.status = "no_metrics" ∧
    (processInstance region config run).2
      = [Effect.describeInstances region [config.instanceId],
         Effect.getMetricStatistics region config.instanceId
           (run.clock 0 - 10 * 60 * 1000) (run.clock 0) 300] ∧
    stopCount (processInstance region config run).2 = 0 ∧
    (∀ (cpuLimit : ℚ) (autoShutdown : Option Bool)
        (stop : Except String (Option InstanceStateChange)),
        processInstance region
          { instanceId := config.instanceId, cpuLimit := cpuLimit,
            autoShutdown := autoShutdown }
          { run with stop := stop }
          = processInstance region config run) ∧
    (∀ (event : LambdaEvent) (envRegion : Option String) (world : Nat → InstanceRun)
        (finalTime : Int) (i : Nat),
        (event.instanceLimits.getD [])[i]? = some config → world i = run →
        ((handler event envRegion world finalTime).2.1.results[i]?).map
          (fun r => r.status) = some "no_metrics") := by
  have key : ∀ (rg : String) (c : LimitConfig) (r : InstanceRun),
      r.describe = .ok (some inst) → r.metrics = .ok dps →
      processInstance rg c r =
        ({ LambdaResult.basic c.instanceId "no_metrics" with
           reason := some "No CloudWatch metrics available" },
         [Effect.describeInstances rg [c.instanceId],
          Effect.getMetricStatistics rg c.instanceId
            (r.clock 0 - 10 * 60 * 1000) (r.clock 0) 300]) := by
    intro rg c r hr hm
    unfold processInstance
    simp [hr, hrun, hm, hempty]
  refine ⟨?_, ?_, ?_, ?_, ?_⟩
  · rw [key region config run hdesc hmet]; rfl
  · rw [key region config run hdesc hmet]
  · rw [key region config run hdesc hmet]; rfl
  · intro cpuLimit autoShutdown stop
    rw [key region config run hdesc hmet]
    exact key region _ _ hdesc hmet
  · intro event envRegion world finalTime i hcfg hworld
    rw [handler_results_getElem?, hcfg, hworld]
    simp only [Option.map_some', key _ config run hdesc hmet]
    rfl

/-- Witness of C4: the entry `i-002` while CloudWatch has no datapoint. -/
theorem lambda_no_datapoints_is_no_metrics_witness :
    (processInstance "us-east-1" configI002 runI002NoData).1.status = "no_metrics" ∧
    stopCount (processInstance "us-east-1" configI002 runI002NoData).2 = 0 :=
  have h := lambda_no_datapoints_is_no_metrics "us-east-1" configI002 runI002NoData
    { instanceId := "i-002", stateName := "running", nameTag := none } (some []) rfl rfl
    rfl rfl
  ⟨h.1, h.2.2.1⟩

/-! ## `POST /api/monitor-instance`: the healthy tick and the failed stop -/

/-- C5: for a stored threshold and a reported CPU at or below `cpuLimit`, the
tick answers `none`, issues no call, leaves every threshold document (so
`breachCount` and `lastBreach`), the history, the activity log and the alert
records as they were, and leaves no entry for this (user, instance) in the
in-memory map while every other key keeps its value. -/
theorem monitor_within_limit_is_noop (awsRegion : String) (st : ServerState)
    (req : MonitorRequest) (clock : Nat → Int)
    (stopResult : Except String (Option InstanceStateChange)) (historyOk : Bool)
    (limit : InstanceLimit)
    (hfind : findOne st.instanceLimits req.userId req.instanceId = some limit)
    (hcpu : req.currentCPU ≤ limit.cpuLimit) :
    (monitorInstance awsRegion st req clock stopResult historyOk).2.1.action = "none" ∧
    (monitorInstance awsRegion st req clock stopResult historyOk).2.2 = [] ∧
    (monitorInstance awsRegion st req clock stopResult historyOk).1.instanceLimits
      = st.instanceLimits ∧
    (monitorInstance awsRegion st req clock stopResult historyOk).1.history = st.history ∧
    (monitorInstance awsRegion st req clock stopResult historyOk).1.activityLogs
      = st.activityLogs ∧
    (monitorInstance awsRegion st req clock stopResult historyOk).1.emailAlertHistory
      = st.emailAlertHistory ∧
    mapHas (monitorInstance awsRegion st req clock stopResult historyOk).1.instanceMonitoring
      (limitKey req.userId req.instanceId) = false ∧
    (∀ k : String, k ≠ limitKey req.userId req.instanceId →
      mapGet (monitorInstance awsRegion st req clock stopResult historyOk).1.instanceMonitoring k
        = mapGet st.instanceMonitoring k) := by
  have hnot : ¬ req.currentCPU > limit.cpuLimit := not_lt.mpr hcpu
  unfold monitorInstance
  rw [hfind]
  simp only [hnot, if_false]
  cases hhas : mapHas st.instanceMonitoring (limitKey req.userId req.instanceId)
  · simp [MonitorResponse.basic, hhas]
  · simp only [if_true, MonitorResponse.basic, mapHas_mapDelete, true_and]
    intro k hk
    exact mapGet_mapDelete_of_ne _ _ _ hk

/-- Witness of C5: `i-001` reported at exactly its limit 80 while an alert is
being tracked. -/
theorem monitor_within_limit_is_noop_witness :
    (monitorInstance "us-east-1" stateI001Tracked tickI001AtLimit clockFrom5000
      (.ok stopRunningToStopping) true).2.1.action = "none" ∧
    (monitorInstance "us-east-1" stateI001Tracked tickI001AtLimit clockFrom5000
      (.ok stopRunningToStopping) true).1.instanceLimits = [limitI001] ∧
    mapHas (monitorInstance "us-east-1" stateI001Tracked tickI001AtLimit clockFrom5000
      (.ok stopRunningToStopping) true).1.instanceMonitoring
      (limitKey tickI001AtLimit.userId tickI001AtLimit.instanceId) = false :=
  have h := monitor_within_limit_is_noop "us-east-1" stateI001Tracked tickI001AtLimit
    clockFrom5000 (.ok stopRunningToStopping) true limitI001 (by decide) (by decide)
  ⟨h.1, h.2.2.1, h.2.2.2.2.2.2.1⟩

/-- C6: on a breaching tick the counter update is in the state whatever
happens afterwards: the stored document is the old one with `breachCount`
raised by one and `lastBreach` stamped, for every outcome of the dispatch;
and when the stop command is issued and fails with message `msg`, the
handler answers with an error result: its `status` is 500, its `success` is
`false`, its `action` is `error` and its `message` carries `msg`. -/
theorem monitor_breach_counted_before_dispatch (awsRegion : String) (st : ServerState)
    (req : MonitorRequest) (clock : Nat → Int) (historyOk : Bool) (limit : InstanceLimit)
    (hfind : findOne st.instanceLimits req.userId req.instanceId = some limit)
    (hcpu : req.currentCPU > limit.cpuLimit) :
    (∀ stopResult : Except String (Option InstanceStateChange),
      findOne (monitorInstance awsRegion st req clock stopResult historyOk).1.instanceLimits
        req.userId req.instanceId = some (recordBreach (clock 0) limit)) ∧
    (recordBreach (clock 0) limit).breachCount = some (limit.breachCount.getD 0 + 1) ∧
    (recordBreach (clock 0) limit).lastBreach = some (clock 0) ∧
    (limit.autoShutdown = some true → truthyStr req.awsAccessKey = true →
      truthyStr req.awsSecretKey = true → ∀ msg : String,
      (monitorInstance awsRegion st req clock (.error msg) historyOk).2.2
        = [Effect.stopInstances awsRegion [req.instanceId]] ∧
      (monitorInstance awsRegion st req clock (.error msg) historyOk).2.1
        = MonitorResponse.basic 500 false "error" (.stopFailed msg) ∧
      (monitorInstance awsRegion st req clock (.error msg) historyOk).2.1.status = 500 ∧
      (monitorInstance awsRegion st req clock (.error msg) historyOk).2.1.success = false ∧
      (monitorInstance awsRegion st req clock (.error msg) historyOk).2.1.action = "error" ∧
      (monitorInstance awsRegion st req clock (.error msg) historyOk).2.1.message
        = .stopFailed msg) := by
  refine ⟨?_, rfl, rfl, ?_⟩
  · intro stopResult
    rw [monitorInstance_breach_limits awsRegion st req clock stopResult historyOk limit
      hfind hcpu]
    exact findOne_updateOne _ _ _ (matchesKey_recordBreach _ _ _) _ _ hfind
  · intro hauto hkey hsecret msg
    have hgo : (truthyBool limit.autoShutdown && truthyStr req.awsAccessKey
        && truthyStr req.awsSecretKey) = true := by
      simp [hauto, hkey, hsecret, truthyBool]
    have hresp : (monitorInstance awsRegion st req clock (.error msg) historyOk).2.1
        = MonitorResponse.basic 500 false "error" (.stopFailed msg) := by
      unfold monitorInstance
      rw [hfind]
      simp only [hcpu, if_true, hgo]
    refine ⟨monitorInstance_breach_stop_trace awsRegion st req clock _ historyOk limit
      hfind hcpu hgo, hresp, ?_, ?_, ?_, ?_⟩ <;> rw [hresp] <;> rfl

/-- Witness of C6: the scenario `i-001` with a stop command that fails with
`UnauthorizedOperation`: error response, `breachCount` stored as 1. -/
theorem monitor_breach_counted_before_dispatch_witness :
    findOne (monitorInstance "us-east-1" stateI001 tickI001 clockFrom5000
      (.error "UnauthorizedOperation") true).1.instanceLimits tickI001.userId
        tickI001.instanceId = some (recordBreach (clockFrom5000 0) limitI001) ∧
    (recordBreach (clockFrom5000 0) limitI001).breachCount = some 1 ∧
    (monitorInstance "us-east-1" stateI001 tickI001 clockFrom5000
      (.error "UnauthorizedOperation") true).2.1
        = MonitorResponse.basic 500 false "error" (.stopFailed "UnauthorizedOperation") ∧
    (monitorInstance "us-east-1" stateI001 tickI001 clockFrom5000
      (.error "UnauthorizedOperation") true).2.1.status = 500 ∧
    (monitorInstance "us-east-1" stateI001 tickI001 clockFrom5000
      (.error "UnauthorizedOperation") true).2.1.success = false :=
  have h := monitor_breach_counted_before_dispatch "us-east-1" stateI001 tickI001
    clockFrom5000 true limitI001 (by decide) (by decide)
  have h2 := (h.2.2.2 rfl (by decide) (by decide) "UnauthorizedOperation").2
  ⟨h.1 _, rfl, h2.1, h2.2.1, h2.2.2.1⟩

/-! ## `POST /api/instance-limits` -/

theorem saveInstanceLimit_limits (st : ServerState) (req : SaveLimitRequest)
    (clock : Nat → Int) (id : String) (hid : req.instanceId = some id) (hne : id ≠ "") :
    (saveInstanceLimit st req clock).1.instanceLimits =
      upsertOne req.userId id (applySave req clock) (freshLimit req id clock)
        st.instanceLimits := by
  unfold saveInstanceLimit
  rw [hid]
  simp only [hne, if_false]

theorem findOne_append_fresh (docs : List InstanceLimit) (userId instanceId : String)
    (fresh : InstanceLimit) (hnone : findOne docs userId instanceId = none)
    (hfresh : matchesKey userId instanceId fresh = true) :
    findOne (docs ++ [fresh]) userId instanceId = some fresh := by
  unfold findOne at hnone ⊢
  rw [List.find?_append, hnone]
  simp [List.find?, hfresh]

theorem matchesKey_freshLimit (req : SaveLimitRequest) (id : String) (clock : Nat → Int) :
    matchesKey req.userId id (freshLimit req id clock) = true := by
  simp [matchesKey, freshLimit]

/-- C7 on the code: on an empty store a save of `cpuLimit = 500` stores 500,
while the clamp `min(100, max(10, 500))` that the claim requires is 100, and a
save of `cpuLimit = 1` stores 1, while the clamp is 10. -/
theorem saveInstanceLimit_does_not_clamp :
    (findOne (saveInstanceLimit emptyState save500 clockFrom5000).1.instanceLimits
        "u1" "i-001").map (fun d => d.cpuLimit) = some 500 ∧
    min (100 : ℚ) (max 10 500) = 100 ∧
    (findOne (saveInstanceLimit emptyState save1 clockFrom5000).1.instanceLimits
        "u1" "i-001").map (fun d => d.cpuLimit) = some 1 ∧
    min (100 : ℚ) (max 10 1) = 10 := by
  refine ⟨by decide, by decide, by decide, by decide⟩

/-- A save with a non-empty instance id stores the number it is given,
unchanged: for a numeric `cpuLimit = x` the stored document has
`cpuLimit = x`, and for an absent `cpuLimit` it has 80; the response echoes
the same value.  The client's `handleLimitChange` keeps every parsed
non-zero integer as it is.  No path of the save restricts the value to the
range 10 to 100 that the client's input element and help text announce. -/
theorem saveInstanceLimit_stores_input_unclamped (st : ServerState)
    (req : SaveLimitRequest) (clock : Nat → Int) (id : String)
    (hid : req.instanceId = some id) (hne : id ≠ "") :
    (findOne (saveInstanceLimit st req clock).1.instanceLimits req.userId id).map
      (fun d => d.cpuLimit) = some (limitVal req.cpuLimit) ∧
    (saveInstanceLimit st req clock).2.cpuLimit = some (limitVal req.cpuLimit) ∧
    (∀ x : ℚ, req.cpuLimit = some x → limitVal req.cpuLimit = x) ∧
    (req.cpuLimit = none → limitVal req.cpuLimit = 80) ∧
    (∀ n : Int, n ≠ 0 → handleLimitChange (some n) = n) := by
  refine ⟨?_, ?_, ?_, ?_, ?_⟩
  · rw [saveInstanceLimit_limits st req clock id hid hne]
    unfold upsertOne
    cases hfind : findOne st.instanceLimits req.userId id with
    | none =>
      simp only []
      rw [findOne_append_fresh _ _ _ _ hfind (matchesKey_freshLimit req id clock)]
      rfl
    | some d =>
      simp only []
      rw [findOne_updateOne req.userId id (applySave req clock) (fun _ => rfl) _ d hfind]
      rfl
  · unfold saveInstanceLimit
    rw [hid]
    simp only [hne, if_false]
  · intro x hx; rw [hx]; rfl
  · intro hx; rw [hx]; rfl
  · intro n hn; simp [handleLimitChange, hn]

/-- C8: a save with a non-empty instance id.  When no document exists for
(user, instance), one is appended with `breachCount = 0`, `lastBreach = null`
and `createdAt` set, all other documents untouched.  When a document `d`
exists, the first such document becomes `d` with `cpuLimit`, `autoShutdown`
and `updatedAt` replaced, so its `breachCount`, `lastBreach`, `createdAt` and
`autoMonitoring` are those of `d`, and all other documents are untouched. -/
theorem saveInstanceLimit_resets_counter_only_on_insert (st : ServerState)
    (req : SaveLimitRequest) (clock : Nat → Int) (id : String)
    (hid : req.instanceId = some id) (hne : id ≠ "") :
    (findOne st.instanceLimits req.userId id = none →
      (saveInstanceLimit st req clock).1.instanceLimits
        = st.instanceLimits ++ [freshLimit req id clock] ∧
      findOne (saveInstanceLimit st req clock).1.instanceLimits req.userId id
        = some (freshLimit req id clock) ∧
      (freshLimit req id clock).breachCount = some 0 ∧
      (freshLimit req id clock).lastBreach = none) ∧
    (∀ d : InstanceLimit, findOne st.instanceLimits req.userId id = some d →
      (∃ pre post, st.instanceLimits = pre ++ d :: post ∧
        (∀ x ∈ pre, matchesKey req.userId id x = false) ∧
        (saveInstanceLimit st req clock).1.instanceLimits
          = pre ++ applySave req clock d :: post) ∧
      findOne (saveInstanceLimit st req clock).1.instanceLimits req.userId id
        = some (applySave req clock d) ∧
      (applySave req clock d).breachCount = d.breachCount ∧
      (applySave req clock d).lastBreach = d.lastBreach ∧
      (applySave req clock d).createdAt = d.createdAt ∧
      (applySave req clock d).autoMonitoring = d.autoMonitoring ∧
      (applySave req clock d).userId = d.userId ∧
      (applySave req clock d).instanceId = d.instanceId) := by
  have hlim := saveInstanceLimit_limits st req clock id hid hne
  constructor
  · intro hnone
    have h1 : (saveInstanceLimit st req clock).1.instanceLimits
        = st.instanceLimits ++ [freshLimit req id clock] := by
      rw [hlim]; unfold upsertOne; rw [hnone]
    refine ⟨h1, ?_, rfl, rfl⟩
    rw [h1]
    exact findOne_append_fresh _ _ _ _ hnone (matchesKey_freshLimit req id clock)
  · intro d hfind
    have h1 : (saveInstanceLimit st req clock).1.instanceLimits
        = updateOne req.userId id (applySave req clock) st.instanceLimits := by
      rw [hlim]; unfold upsertOne; rw [hfind]
    refine ⟨?_, ?_, rfl, rfl, rfl, rfl, rfl, rfl⟩
    · obtain ⟨pre, post, h2, h3, h4⟩ :=
        updateOne_split req.userId id (applySave req clock) _ d hfind
      exact ⟨pre, post, h2, h3, by rw [h1, h4]⟩
    · rw [h1]
      exact findOne_updateOne req.userId id (applySave req clock) (fun _ => rfl) _ d hfind

/-- Witness of C8: a save of limit 1 over the threshold of `i-001` that has
three counted breaches keeps `breachCount = 3` and `lastBreach`; the same
save on an empty store inserts a document with `breachCount = 0`. -/
theorem saveInstanceLimit_resets_counter_only_on_insert_witness :
    findOne (saveInstanceLimit stateI001Breached save1 clockFrom5000).1.instanceLimits
      save1.userId "i-001" = some (applySave save1 clockFrom5000 limitI001Breached) ∧
    (applySave save1 clockFrom5000 limitI001Breached).breachCount = some 3 ∧
    (applySave save1 clockFrom5000 limitI001Breached).lastBreach = some 4000 ∧
    (saveInstanceLimit emptyState save1 clockFrom5000).1.instanceLimits
      = emptyState.instanceLimits ++ [freshLimit save1 "i-001" clockFrom5000] ∧
    (freshLimit save1 "i-001" clockFrom5000).breachCount = some 0 :=
  have h := saveInstanceLimit_resets_counter_only_on_insert stateI001Breached save1
    clockFrom5000 "i-001" rfl (by decide)
  have h0 := saveInstanceLimit_resets_counter_only_on_insert emptyState save1
    clockFrom5000 "i-001" rfl (by decide)
  ⟨(h.2 limitI001Breached (by decide)).2.1, rfl, rfl, (h0.1 (by decide)).1, rfl⟩

/-! ## The cooldown rule of the background pass -/

theorem latestOf_eq_none (l : List EmailAlertRecord) : latestOf l = none ↔ l = [] := by
  cases l with
  | nil => simp [latestOf]
  | cons r rs =>
    simp only [latestOf, reduceCtorEq, iff_false]
    cases latestOf rs with
    | none => simp
    | some m => by_cases h : r.timestamp < m.timestamp <;> simp [h]

theorem latestOf_some (l : List EmailAlertRecord) :
    ∀ r, latestOf l = some r → r ∈ l ∧ ∀ x ∈ l, x.timestamp ≤ r.timestamp := by
  induction l with
  | nil => intro r h; simp [latestOf] at h
  | cons a as ih =>
    intro r h
    simp only [latestOf] at h
    cases hl : latestOf as with
    | none =>
      rw [hl] at h
      have has : as = [] := (latestOf_eq_none as).mp hl
      have hr : a = r := by simpa using h
      subst hr; subst has
      simp
    | some m =>
      rw [hl] at h
      obtain ⟨hm, hmax⟩ := ih m hl
      by_cases hlt : a.timestamp < m.timestamp
      · have hr : m = r := by simpa [hlt] using h
        subst hr
        refine ⟨List.mem_cons_of_mem _ hm, ?_⟩
        intro x hx
        rcases List.mem_cons.mp hx with rfl | hx
        · exact le_of_lt hlt
        · exact hmax x hx
      · have hr : a = r := by simpa [hlt] using h
        subst hr
        refine ⟨List.mem_cons_self _ _, ?_⟩
        intro x hx
        rcases List.mem_cons.mp hx with rfl | hx
        · exact le_refl _
        · exact le_trans (hmax x hx) (not_lt.mp hlt)

theorem findLastEmail_some (alerts : List EmailAlertRecord) (userId instanceId : String)
    (r : EmailAlertRecord) (h : findLastEmail alerts userId instanceId = some r) :
    r ∈ alerts ∧ matchesAlert userId instanceId r = true ∧
    ∀ x ∈ alerts, matchesAlert userId instanceId x = true → x.timestamp ≤ r.timestamp := by
  obtain ⟨hm, hmax⟩ := latestOf_some _ r h
  have hm' := List.mem_filter.mp hm
  exact ⟨hm'.1, hm'.2, fun x hx hxm => hmax x (List.mem_filter.mpr ⟨hx, hxm⟩)⟩

theorem findLastEmail_none (alerts : List EmailAlertRecord) (userId instanceId : String) :
    findLastEmail alerts userId instanceId = none ↔
      ∀ x ∈ alerts, matchesAlert userId instanceId x = false := by
  unfold findLastEmail
  rw [latestOf_eq_none, List.filter_eq_nil_iff]
  simp

theorem cooldownDenies_iff_exists (alerts : List EmailAlertRecord)
    (userId instanceId : String) (now : Int) :
    cooldownDenies alerts userId instanceId now = true ↔
      ∃ x ∈ alerts, matchesAlert userId instanceId x = true ∧
        now - 60 * 60 * 1000 < x.timestamp := by
  unfold cooldownDenies
  cases h : findLastEmail alerts userId instanceId with
  | none =>
    have hn := (findLastEmail_none alerts userId instanceId).mp h
    simp only [Bool.false_eq_true, false_iff, not_exists, not_and]
    intro x hx hmx
    rw [hn x hx] at hmx
    exact absurd hmx (by simp)
  | some r =>
    obtain ⟨hr, hrm, hmax⟩ := findLastEmail_some alerts userId instanceId r h
    simp only [gt_iff_lt, decide_eq_true_eq]
    constructor
    · intro hlt
      exact ⟨r, hr, hrm, hlt⟩
    · rintro ⟨x, hx, hxm, hlt⟩
      exact lt_of_lt_of_le hlt (hmax x hx hxm)

/-- C9: the cooldown rule of the background pass.  With no alert record of
type `low_utilization` for (user, instance) the rule does not deny.
Otherwise the record it consults is one of greatest timestamp among the
matching records, and the rule denies exactly when that timestamp is
strictly later than `now - 60 min`; so a most recent record exactly 60
minutes old, or older, does not deny. -/
theorem cooldown_considers_latest_record_strictly (alerts : List EmailAlertRecord)
    (userId instanceId : String) (now : Int) :
    ((∀ x ∈ alerts, matchesAlert userId instanceId x = false) →
      cooldownDenies alerts userId instanceId now = false) ∧
    (∀ r : EmailAlertRecord, findLastEmail alerts userId instanceId = some r →
      (r ∈ alerts ∧ matchesAlert userId instanceId r = true ∧
        ∀ x ∈ alerts, matchesAlert userId instanceId x = true →
          x.timestamp ≤ r.timestamp) ∧
      (cooldownDenies alerts userId instanceId now = true ↔
        now - 60 * 60 * 1000 < r.timestamp) ∧
      (r.timestamp ≤ now - 60 * 60 * 1000 →
        cooldownDenies alerts userId instanceId now = false)) ∧
    ((∃ x ∈ alerts, matchesAlert userId instanceId x = true) →
      ∃ r, findLastEmail alerts userId instanceId = some r) := by
  refine ⟨?_, ?_, ?_⟩
  · intro hnone
    have h := (findLastEmail_none alerts userId instanceId).mpr hnone
    simp [cooldownDenies, h]
  · intro r hr
    have hiff : cooldownDenies alerts userId instanceId now = true ↔
        now - 60 * 60 * 1000 < r.timestamp := by
      simp [cooldownDenies, hr]
    refine ⟨findLastEmail_some alerts userId instanceId r hr, hiff, ?_⟩
    intro hle
    cases hc : cooldownDenies alerts userId instanceId now
    · rfl
    · exact absurd (hiff.mp hc) (not_lt.mpr hle)
  · rintro ⟨x, hx, hxm⟩
    cases h : findLastEmail alerts userId instanceId with
    | some r => exact ⟨r, rfl⟩
    | none =>
      have := (findLastEmail_none alerts userId instanceId).mp h x hx
      rw [this] at hxm
      exact absurd hxm (by simp)

/-- Witness of C9: with records at 1000 and 5000 for (`u1`, `i-001`) the rule
consults the one at 5000; at `now = 5000 + 60 min` (exactly 60 minutes old)
it does not deny, and one millisecond earlier it denies. -/
theorem cooldown_considers_latest_record_strictly_witness :
    findLastEmail [alertAt 5000, alertAt 1000] "u1" "i-001" = some (alertAt 5000) ∧
    cooldownDenies [alertAt 5000, alertAt 1000] "u1" "i-001" (5000 + 3600000) = false ∧
    cooldownDenies [alertAt 5000, alertAt 1000] "u1" "i-001" (5000 + 3599999) = true :=
  have h := (cooldown_considers_latest_record_strictly [alertAt 5000, alertAt 1000]
    "u1" "i-001" (5000 + 3600000)).2.1 (alertAt 5000) (by decide)
  have h' := (cooldown_considers_latest_record_strictly [alertAt 5000, alertAt 1000]
    "u1" "i-001" (5000 + 3599999)).2.1 (alertAt 5000) (by decide)
  ⟨by decide, h.2.2 (by decide), h'.2.1.mpr (by decide)⟩

/-! ## The cooldown gate and the order of send and record -/

theorem matchesAlert_sentRecord (userSettings : ProductionModeSettings)
    (inst : Ec2Instance) (instanceName : String) (avg : ℚ) (clock : Nat → Int) :
    matchesAlert userSettings.userId inst.instanceId
      (sentRecord userSettings inst instanceName avg clock) = true := by
  simp [matchesAlert, sentRecord]

theorem evaluateUntilSend_sending_gate (userSettings : ProductionModeSettings)
    (userDoc : UserDoc) (alerts : List EmailAlertRecord) (inst : Ec2Instance)
    (region : String) (clock : Nat → Int)
    (metrics : Except String (Option (List Datapoint))) (instanceName : String) (avg : ℚ)
    (trace : List Effect)
    (h : evaluateUntilSend userSettings userDoc alerts inst region clock metrics
      = .ok (.sending instanceName avg, trace)) :
    emailEnabledOf userSettings inst.instanceId ≠ some false ∧
    cooldownDenies alerts userSettings.userId inst.instanceId (clock 0) = false := by
  unfold evaluateUntilSend at h
  by_cases h1 : emailEnabledOf userSettings inst.instanceId = some false
  · simp [h1] at h
  · cases h2 : cooldownDenies alerts userSettings.userId inst.instanceId (clock 0)
    · exact ⟨h1, rfl⟩
    · simp [h1, h2] at h

theorem roundHalfEven_intCast (n : ℤ) : roundHalfEven (n : ℚ) = n := by
  simp [roundHalfEven]

theorem binaryExponent_natCast (n : ℕ) (hn : n ≠ 0) :
    binaryExponent (n : ℚ) = (Nat.log2 n : ℤ) := by
  have h1 : Nat.log2 1 = 0 := by simp [Nat.log2]
  have hle : (2 : ℚ) ^ (Nat.log2 n) ≤ (n : ℚ) := by
    have := Nat.log2_self_le hn
    exact_mod_cast this
  simp only [binaryExponent, Rat.num_natCast, Int.natAbs_ofNat, Rat.den_natCast, h1,
    Nat.cast_zero, sub_zero, zpow_natCast, Nat.abs_cast, hle, if_true]

/-- A natural number below `2 ^ 53` is a binary64 number: rounding keeps it. -/
theorem roundDouble_natCast (n : ℕ) (hn : n < 2 ^ 53) : roundDouble (n : ℚ) = n := by
  by_cases h0 : n = 0
  · subst h0
    simp [roundDouble]
  · have hlog : Nat.log2 n < 53 := (Nat.log2_lt h0).2 hn
    have hx : (n : ℚ) ≠ 0 := by exact_mod_cast h0
    have hmax : max (Nat.log2 n : ℤ) (-1022) = (Nat.log2 n : ℤ) := by
      apply max_eq_left
      omega
    have hq : (2 : ℚ) ^ ((Nat.log2 n : ℤ) - 52) * (2 : ℚ) ^ (52 - Nat.log2 n) = 1 := by
      have h52 : ((52 - Nat.log2 n : ℕ) : ℤ) = 52 - (Nat.log2 n : ℤ) := by omega
      rw [← zpow_natCast, h52, ← zpow_add₀ (by norm_num : (2 : ℚ) ≠ 0)]
      simp
    have hdiv : (n : ℚ) / (2 : ℚ) ^ ((Nat.log2 n : ℤ) - 52)
        = ((n * 2 ^ (52 - Nat.log2 n) : ℕ) : ℤ) := by
      have hpos : (2 : ℚ) ^ ((Nat.log2 n : ℤ) - 52) ≠ 0 := zpow_ne_zero _ (by norm_num)
      rw [div_eq_iff hpos]
      push_cast
      rw [mul_assoc, mul_comm ((2 : ℚ) ^ (52 - Nat.log2 n)), hq, mul_one]
    simp only [roundDouble, hx, if_false, binaryExponent_natCast n h0, hmax]
    rw [hdiv, roundHalfEven_intCast]
    push_cast
    rw [mul_assoc, mul_comm ((2 : ℚ) ^ (52 - Nat.log2 n)), hq, mul_one]

theorem zpow_two_mono {e f : ℤ} (h : e ≤ f) : (2 : ℚ) ^ e ≤ (2 : ℚ) ^ f :=
  zpow_le_zpow_right₀ (by norm_num) h

theorem exponent_unique (y : ℚ) (e f : ℤ) (he1 : (2 : ℚ) ^ e ≤ y) (he2 : y < (2 : ℚ) ^ (e + 1))
    (hf1 : (2 : ℚ) ^ f ≤ y) (hf2 : y < (2 : ℚ) ^ (f + 1)) : e = f := by
  by_contra hne
  rcases lt_or_gt_of_ne hne with h | h
  · have := zpow_two_mono (show e + 1 ≤ f by omega)
    linarith
  · have := zpow_two_mono (show f + 1 ≤ e by omega)
    linarith

theorem abs_eq_natAbs_div_den (x : ℚ) : |x| = (x.num.natAbs : ℚ) / (x.den : ℚ) := by
  have hd : (0 : ℚ) < x.den := by exact_mod_cast x.den_pos
  conv_lhs => rw [← Rat.num_div_den x]
  rw [abs_div, abs_of_pos hd]
  congr 1
  rw [← Int.cast_abs, Int.abs_eq_natAbs, Int.cast_natCast]

theorem log2_bounds (n : ℕ) (hn : n ≠ 0) :
    (2 : ℚ) ^ (Nat.log2 n : ℤ) ≤ n ∧ (n : ℚ) < (2 : ℚ) ^ ((Nat.log2 n : ℤ) + 1) := by
  constructor
  · rw [zpow_natCast]
    exact_mod_cast Nat.log2_self_le hn
  · have h : n < 2 ^ (Nat.log2 n + 1) := Nat.lt_log2_self
    have h2 : ((Nat.log2 n : ℤ) + 1) = ((Nat.log2 n + 1 : ℕ) : ℤ) := by push_cast; ring
    rw [h2, zpow_natCast]
    exact_mod_cast h

theorem binaryExponent_of_bounds (x : ℚ) (e : ℤ) (hlo : (2 : ℚ) ^ e ≤ |x|)
    (hhi : |x| < (2 : ℚ) ^ (e + 1)) : binaryExponent x = e := by
  have hpos : (0 : ℚ) < |x| := lt_of_lt_of_le (zpow_pos (by norm_num) e) hlo
  have hx : x ≠ 0 := abs_pos.mp hpos
  have hN : x.num.natAbs ≠ 0 := by
    simpa using (Rat.num_ne_zero.mpr hx)
  have hD : x.den ≠ 0 := x.den_nz
  obtain ⟨a1, a2⟩ := log2_bounds x.num.natAbs hN
  obtain ⟨b1, b2⟩ := log2_bounds x.den hD
  have habs := abs_eq_natAbs_div_den x
  have hd : (0 : ℚ) < x.den := by exact_mod_cast x.den_pos
  have h2b : (0 : ℚ) < (2 : ℚ) ^ (Nat.log2 x.den : ℤ) := zpow_pos (by norm_num) _
  have two : (2 : ℚ) ≠ 0 := by norm_num
  -- upper bound with e0
  have hup : |x| < (2 : ℚ) ^ ((Nat.log2 x.num.natAbs : ℤ) - (Nat.log2 x.den : ℤ) + 1) := by
    rw [habs, div_lt_iff₀ hd]
    have e1 : (2 : ℚ) ^ ((Nat.log2 x.num.natAbs : ℤ) - (Nat.log2 x.den : ℤ) + 1)
        * (2 : ℚ) ^ (Nat.log2 x.den : ℤ) = (2 : ℚ) ^ ((Nat.log2 x.num.natAbs : ℤ) + 1) := by
      rw [← zpow_add₀ two]; congr 1; ring
    calc (x.num.natAbs : ℚ) < (2 : ℚ) ^ ((Nat.log2 x.num.natAbs : ℤ) + 1) := a2
      _ = (2 : ℚ) ^ ((Nat.log2 x.num.natAbs : ℤ) - (Nat.log2 x.den : ℤ) + 1)
            * (2 : ℚ) ^ (Nat.log2 x.den : ℤ) := e1.symm
      _ ≤ _ := by
        apply mul_le_mul_of_nonneg_left b1
        exact le_of_lt (zpow_pos (by norm_num) _)
  have hdown : (2 : ℚ) ^ ((Nat.log2 x.num.natAbs : ℤ) - (Nat.log2 x.den : ℤ) - 1) ≤ |x| := by
    rw [habs, le_div_iff₀ hd]
    have e1 : (2 : ℚ) ^ ((Nat.log2 x.num.natAbs : ℤ) - (Nat.log2 x.den : ℤ) - 1)
        * (2 : ℚ) ^ ((Nat.log2 x.den : ℤ) + 1) = (2 : ℚ) ^ (Nat.log2 x.num.natAbs : ℤ) := by
      rw [← zpow_add₀ two]; congr 1; ring
    calc (2 : ℚ) ^ ((Nat.log2 x.num.natAbs : ℤ) - (Nat.log2 x.den : ℤ) - 1) * (x.den : ℚ)
        ≤ (2 : ℚ) ^ ((Nat.log2 x.num.natAbs : ℤ) - (Nat.log2 x.den : ℤ) - 1)
            * (2 : ℚ) ^ ((Nat.log2 x.den : ℤ) + 1) := by
          apply mul_le_mul_of_nonneg_left (le_of_lt b2)
          exact le_of_lt (zpow_pos (by norm_num) _)
      _ = (2 : ℚ) ^ (Nat.log2 x.num.natAbs : ℤ) := e1
      _ ≤ _ := a1
  unfold binaryExponent
  simp only []
  split
  · next h => exact exponent_unique |x| _ e h hup hlo hhi
  · next h =>
    have h' : |x| < (2 : ℚ) ^ ((Nat.log2 x.num.natAbs : ℤ) - (Nat.log2 x.den : ℤ)) :=
      lt_of_not_le h
    have h'' : |x| < (2 : ℚ) ^ ((Nat.log2 x.num.natAbs : ℤ) - (Nat.log2 x.den : ℤ) - 1 + 1) := by
      rwa [sub_add_cancel]
    exact exponent_unique |x| _ e hdown h'' hlo hhi

theorem roundDouble_eval (x : ℚ) (e n : ℤ) (hlo : (2 : ℚ) ^ e ≤ |x|)
    (hhi : |x| < (2 : ℚ) ^ (e + 1)) (hmin : -1022 ≤ e)
    (hn : roundHalfEven (x / (2 : ℚ) ^ (e - 52)) = n) :
    roundDouble x = (n : ℚ) * (2 : ℚ) ^ (e - 52) := by
  have hpos : (0 : ℚ) < |x| := lt_of_lt_of_le (zpow_pos (by norm_num) e) hlo
  have hx : x ≠ 0 := abs_pos.mp hpos
  simp only [roundDouble, hx, if_false, binaryExponent_of_bounds x e hlo hhi,
    max_eq_left hmin, hn]

theorem roundHalfEven_eval (t : ℚ) (f : ℤ) (h1 : (f : ℚ) ≤ t) (h2 : t < f + 1) :
    roundHalfEven t =
      if t - f < 1 / 2 then f else if 1 / 2 < t - f then f + 1
      else if f % 2 = 0 then f else f + 1 := by
  have hf : ⌊t⌋ = f := Int.floor_eq_iff.mpr ⟨h1, h2⟩
  simp only [roundHalfEven, hf]


theorem roundDouble_tenth : roundDouble ((3602879701896397 : ℚ) / 36028797018963968)
    = 3602879701896397 / 36028797018963968 := by
  rw [roundDouble_eval _ (-4) 7205759403792794 (by norm_num [abs_of_pos, zpow_neg])
    (by norm_num [abs_of_pos, zpow_neg]) (by norm_num)]
  · norm_num [zpow_neg]
  · have h := roundHalfEven_intCast 7205759403792794
    have e : (3602879701896397 : ℚ) / 36028797018963968 / (2 : ℚ) ^ ((-4 : ℤ) - 52)
        = ((7205759403792794 : ℤ) : ℚ) := by norm_num [zpow_neg]
    rw [e, h]

theorem roundDouble_tenth_add_fifth : roundDouble ((3602879701896397 : ℚ) / 36028797018963968
      + 3602879701896397 / 18014398509481984)
    = 1351079888211149 / 4503599627370496 := by
  rw [roundDouble_eval _ (-2) 5404319552844596 (by norm_num [abs_of_pos, zpow_neg])
    (by norm_num [abs_of_pos, zpow_neg]) (by norm_num)]
  · norm_num [zpow_neg]
  · rw [roundHalfEven_eval _ 5404319552844595 (by norm_num [zpow_neg])
      (by norm_num [zpow_neg])]
    norm_num [zpow_neg]

theorem roundDouble_add_fourteen_seven : roundDouble ((1351079888211149 : ℚ) / 4503599627370496
      + 4137682157646643 / 281474976710656) = 15 := by
  rw [roundDouble_eval _ 3 8444249301319680 (by norm_num [abs_of_pos])
    (by norm_num [abs_of_pos]) (by norm_num)]
  · norm_num [zpow_neg]
  · rw [roundHalfEven_eval _ 8444249301319679 (by norm_num [zpow_neg])
      (by norm_num [zpow_neg])]
    norm_num [zpow_neg]

theorem avgCPU_three (a b c : Datapoint) :
    avgCPU [a, b, c]
      = roundDouble (roundDouble (roundDouble (roundDouble (0 + a.average) + b.average)
          + c.average) / ((3 : ℕ) : ℚ)) := rfl

/-- The averaging of the pass on the binary64 numbers nearest to 0.1, 0.2 and
14.7: the sums are rounded to 0.30000000000000004 and to 15, so the computed
average is exactly 5 and is not below the threshold, while the exact mean of
the three numbers is below 5. -/
theorem avgCPU_rounds_sums :
    avgCPU windowRoundsToFive = 5 ∧
    ¬ avgCPU windowRoundsToFive < LOW_UTILIZATION_THRESHOLD ∧
    ((3602879701896397 : ℚ) / 36028797018963968 + 3602879701896397 / 18014398509481984
      + 4137682157646643 / 281474976710656) / 3 < 5 := by
  have h5 : roundDouble ((5 : ℕ) : ℚ) = ((5 : ℕ) : ℚ) := roundDouble_natCast 5 (by norm_num)
  have hdiv : (15 : ℚ) / ((3 : ℕ) : ℚ) = ((5 : ℕ) : ℚ) := by norm_num
  have havg : avgCPU windowRoundsToFive = 5 := by
    unfold windowRoundsToFive
    rw [avgCPU_three]
    simp only []
    rw [zero_add, roundDouble_tenth, roundDouble_tenth_add_fifth,
      roundDouble_add_fourteen_seven, hdiv, h5]
    norm_num
  refine ⟨havg, ?_, by norm_num⟩
  rw [havg]
  simp only [LOW_UTILIZATION_THRESHOLD]
  norm_num

/-- The average of a window of one datapoint whose value is a binary64 number
is that value. -/
theorem avgCPU_single (d : Datapoint) (h : roundDouble d.average = d.average) :
    avgCPU [d] = d.average := by
  simp [avgCPU, h]

theorem avgCPU_single_two : avgCPU [{ timestamp := 900, average := 2 }] = 2 := by
  have h := avgCPU_single { timestamp := 900, average := ((2 : ℕ) : ℚ) }
    (roundDouble_natCast 2 (by norm_num))
  simpa using h

theorem avgCPU_single_ninety_five : avgCPU [{ timestamp := 900, average := 95 }] = 95 := by
  have h := avgCPU_single { timestamp := 900, average := ((95 : ℕ) : ℚ) }
    (roundDouble_natCast 95 (by norm_num))
  simpa using h

theorem evaluateUntilSend_idle_i001 (clock : Nat → Int) :
    evaluateUntilSend settingsU1 userU1 [] instanceI001 "us-east-1" clock metricsIdle
      = .ok (.sending "i-001" 2,
          [Effect.getMetricStatistics "us-east-1" "i-001" (clock 1 - 15 * 60 * 1000)
             (clock 1) 300,
           Effect.sendEmail "alice@example.com" "i-001"]) := by
  simp [evaluateUntilSend, settingsU1, emailEnabledOf, cooldownDenies, findLastEmail,
    latestOf, metricsIdle, avgCPU_single_two, LOW_UTILIZATION_THRESHOLD, instanceNameOf,
    instanceI001, userU1]
  norm_num

/-- C10, as stated, fails.  With no alert record for (`u1`, `i-001`) an
evaluation passes the gate and reaches the mail request without having
written any record; a second gate check two minutes later on the same
collection is granted as well, and that evaluation reaches the mail request
too.  And when the mail service answers the first request with a response
that is not `ok`, the completed evaluation leaves the state as it was, so no
record exists afterwards either. -/
theorem gate_granted_again_before_record_is_written :
    evaluateUntilSend settingsU1 userU1 emptyState.emailAlertHistory instanceI001
      "us-east-1" clockFrom10M metricsIdle
      = .ok (.sending "i-001" 2,
          [Effect.getMetricStatistics "us-east-1" "i-001"
             (clockFrom10M 1 - 15 * 60 * 1000) (clockFrom10M 1) 300,
           Effect.sendEmail "alice@example.com" "i-001"]) ∧
    cooldownDenies emptyState.emailAlertHistory "u1" "i-001" (clockFrom10M 0 + 120000)
      = false ∧
    evaluateUntilSend settingsU1 userU1 emptyState.emailAlertHistory instanceI001
      "us-east-1" (fun k => clockFrom10M k + 120000) metricsIdle
      = .ok (.sending "i-001" 2,
          [Effect.getMetricStatistics "us-east-1" "i-001"
             (clockFrom10M 1 + 120000 - 15 * 60 * 1000) (clockFrom10M 1 + 120000) 300,
           Effect.sendEmail "alice@example.com" "i-001"]) ∧
    evaluateInstance emptyState settingsU1 userU1 instanceI001 "us-east-1" clockFrom10M
      metricsIdle (.ok false)
      = .ok (emptyState,
          [Effect.getMetricStatistics "us-east-1" "i-001"
             (clockFrom10M 1 - 15 * 60 * 1000) (clockFrom10M 1) 300,
           Effect.sendEmail "alice@example.com" "i-001"]) := by
  refine ⟨evaluateUntilSend_idle_i001 _, by decide, evaluateUntilSend_idle_i001 _, ?_⟩
  unfold evaluateInstance
  rw [show emptyState.emailAlertHistory = [] from rfl, evaluateUntilSend_idle_i001]
  rfl

/-- C10, amended: when an evaluation has passed the gate and reached the mail
request, and the mail service accepts it, the evaluation ends by appending
the alert record (timestamp `clock 2`, read after the send) and the history
entry; from then on, whatever is appended later, every gate check for this
(user, instance) at a time less than 60 minutes after that timestamp is
denied.  A request that is answered but not accepted writes nothing. -/
theorem gate_denies_after_recorded_send (st : ServerState)
    (userSettings : ProductionModeSettings) (userDoc : UserDoc) (inst : Ec2Instance)
    (region : String) (clock : Nat → Int)
    (metrics : Except String (Option (List Datapoint))) (instanceName : String) (avg : ℚ)
    (trace : List Effect)
    (hreach : evaluateUntilSend userSettings userDoc st.emailAlertHistory inst region clock
      metrics = .ok (.sending instanceName avg, trace)) :
    cooldownDenies st.emailAlertHistory userSettings.userId inst.instanceId (clock 0)
      = false ∧
    evaluateInstance st userSettings userDoc inst region clock metrics (.ok true)
      = .ok ({ st with
          emailAlertHistory := st.emailAlertHistory
            ++ [sentRecord userSettings inst instanceName avg clock],
          history := st.history
            ++ [sentHistoryEntry userSettings userDoc inst instanceName avg clock] },
        trace) ∧
    (∀ (later : List EmailAlertRecord) (now : Int),
      now - 60 * 60 * 1000 < clock 2 →
      cooldownDenies
        (st.emailAlertHistory ++ [sentRecord userSettings inst instanceName avg clock]
          ++ later)
        userSettings.userId inst.instanceId now = true) ∧
    evaluateInstance st userSettings userDoc inst region clock metrics (.ok false)
      = .ok (st, trace) := by
  refine ⟨(evaluateUntilSend_sending_gate _ _ _ _ _ _ _ _ _ _ hreach).2, ?_, ?_, ?_⟩
  · unfold evaluateInstance
    rw [hreach]
    rfl
  · intro later now hnow
    rw [cooldownDenies_iff_exists]
    refine ⟨sentRecord userSettings inst instanceName avg clock, ?_,
      matchesAlert_sentRecord _ _ _ _ _, hnow⟩
    simp
  · unfold evaluateInstance
    rw [hreach]
    rfl

/-- Witness of the amended C10: the accepted send for (`u1`, `i-001`) is
recorded at `clockFrom10M 2`, and a gate check two minutes after the first
one is denied. -/
theorem gate_denies_after_recorded_send_witness :
    cooldownDenies emptyState.emailAlertHistory settingsU1.userId instanceI001.instanceId
      (clockFrom10M 0) = false ∧
    cooldownDenies
      (emptyState.emailAlertHistory
        ++ [sentRecord settingsU1 instanceI001 "i-001" 2 clockFrom10M] ++ [])
      settingsU1.userId instanceI001.instanceId (clockFrom10M 0 + 120000) = true :=
  have h := gate_denies_after_recorded_send emptyState settingsU1 userU1 instanceI001
    "us-east-1" clockFrom10M metricsIdle "i-001" 2 _ (evaluateUntilSend_idle_i001 _)
  ⟨h.1, h.2.2.1 [] (clockFrom10M 0 + 120000) (by decide)⟩

/-! ## `POST /api/stop-instance`: the region loop -/

theorem tryRegions_first_success (instanceId : String)
    (stop : String → Except AwsError (Option InstanceStateChange)) :
    ∀ (pre : List String) (region : String) (post : List String)
      (response : Option InstanceStateChange) (lastError : Option AwsError),
      (∀ r ∈ pre, ∃ e, stop r = .error e) → stop region = .ok response →
      (tryRegions instanceId stop (pre ++ region :: post) lastError).stopResponse
        = some response ∧
      (tryRegions instanceId stop (pre ++ region :: post) lastError).successRegion
        = some region ∧
      (tryRegions instanceId stop (pre ++ region :: post) lastError).trace
        = (pre ++ [region]).map (fun r => Effect.stopInstances r [instanceId]) := by
  intro pre
  induction pre with
  | nil =>
    intro region post response lastError _ hok
    simp [tryRegions, hok]
  | cons p ps ih =>
    intro region post response lastError hpre hok
    obtain ⟨e, he⟩ := hpre p (List.mem_cons_self _ _)
    have ih' := ih region post response (some e)
      (fun r hr => hpre r (List.mem_cons_of_mem _ hr)) hok
    simp only [List.cons_append, tryRegions, he, ite_self, List.map_cons]
    refine ⟨ih'.1, ih'.2.1, ?_⟩
    have h3 := ih'.2.2
    simp only [List.append_eq] at h3 ⊢
    rw [h3]

theorem tryRegions_both_fail (instanceId : String)
    (stop : String → Except AwsError (Option InstanceStateChange)) (e1 e2 : AwsError)
    (lastError : Option AwsError)
    (h1 : stop "us-east-1" = .error e1) (h2 : stop "us-east-2" = .error e2) :
    tryRegions instanceId stop regionsToCheck lastError =
      { stopResponse := none, successRegion := none, lastError := some e2,
        trace := [Effect.stopInstances "us-east-1" [instanceId],
                  Effect.stopInstances "us-east-2" [instanceId]] } := by
  simp [tryRegions, regionsToCheck, h1, h2]

/-- C17: with a non-empty instance id and usable credentials, the stop route
tries `us-east-1` first.  If the command succeeds there, it is the only
command issued, the response is the success response, the loop leaves
`successRegion = 'us-east-1'` and the audit entry appended last has action
`Stop Instance`, the instance id and `region = 'us-east-1'`.  If it fails
there with any error, "not found" included, and succeeds in `us-east-2`, the
two commands are issued in that order, `successRegion` is `'us-east-2'` and
the `region` of the appended audit entry is `'us-east-2'`. -/
theorem stopInstance_stops_at_first_successful_region (st : ServerState)
    (req : StopRequest) (credentials : Option AwsCredentials)
    (stop : String → Except AwsError (Option InstanceStateChange)) (clock : Nat → Int)
    (historyOk : Bool) (id : String)
    (hid : req.instanceId = some id) (hne : id ≠ "")
    (hcreds : credentialsUsable credentials = true) :
    (∀ r1 : Option InstanceStateChange, stop "us-east-1" = .ok r1 →
      (stopInstance st req credentials stop clock historyOk).2.2
        = [Effect.stopInstances "us-east-1" [id]] ∧
      (stopInstance st req credentials stop clock historyOk).2.1
        = { status := 200, success := true,
            message := "Instance " ++ id ++ " stopped successfully", data := some r1 } ∧
      (stopInstance st req credentials stop clock historyOk).1.activityLogs
        = st.activityLogs ++ [stopAuditEntry req id (some "us-east-1") r1 (clock 1)] ∧
      (tryRegions id stop regionsToCheck none).successRegion = some "us-east-1" ∧
      (stopInstance st req credentials stop clock historyOk).1.activityLogs.getLast?.map
        (fun entry => (entry.action, entry.instanceId, entry.region))
        = some ("Stop Instance", id, some "us-east-1")) ∧
    (∀ (e : AwsError) (r2 : Option InstanceStateChange),
      stop "us-east-1" = .error e → stop "us-east-2" = .ok r2 →
      (stopInstance st req credentials stop clock historyOk).2.2
        = [Effect.stopInstances "us-east-1" [id], Effect.stopInstances "us-east-2" [id]] ∧
      (stopInstance st req credentials stop clock historyOk).2.1
        = { status := 200, success := true,
            message := "Instance " ++ id ++ " stopped successfully", data := some r2 } ∧
      (stopInstance st req credentials stop clock historyOk).1.activityLogs
        = st.activityLogs ++ [stopAuditEntry req id (some "us-east-2") r2 (clock 1)] ∧
      (tryRegions id stop regionsToCheck none).successRegion = some "us-east-2" ∧
      (stopInstance st req credentials stop clock historyOk).1.activityLogs.getLast?.map
        (fun entry => (entry.action, entry.instanceId, entry.region))
        = some ("Stop Instance", id, some "us-east-2")) := by
  constructor
  · intro r1 h1
    have hlog : (stopInstance st req credentials stop clock historyOk).1.activityLogs
        = st.activityLogs ++ [stopAuditEntry req id (some "us-east-1") r1 (clock 1)] := by
      unfold stopInstance
      rw [hid]
      simp [hne, hcreds, tryRegions, regionsToCheck, h1]
    refine ⟨?_, ?_, hlog, ?_, ?_⟩
    · unfold stopInstance
      rw [hid]
      simp [hne, hcreds, tryRegions, regionsToCheck, h1]
    · unfold stopInstance
      rw [hid]
      simp [hne, hcreds, tryRegions, regionsToCheck, h1]
    · simp [tryRegions, regionsToCheck, h1]
    · rw [hlog, List.getLast?_append]
      rfl
  · intro e r2 h1 h2
    have hlog : (stopInstance st req credentials stop clock historyOk).1.activityLogs
        = st.activityLogs ++ [stopAuditEntry req id (some "us-east-2") r2 (clock 1)] := by
      unfold stopInstance
      rw [hid]
      simp [hne, hcreds, tryRegions, regionsToCheck, h1, h2]
    refine ⟨?_, ?_, hlog, ?_, ?_⟩
    · unfold stopInstance
      rw [hid]
      simp [hne, hcreds, tryRegions, regionsToCheck, h1, h2]
    · unfold stopInstance
      rw [hid]
      simp [hne, hcreds, tryRegions, regionsToCheck, h1, h2]
    · simp [tryRegions, regionsToCheck, h1, h2]
    · rw [hlog, List.getLast?_append]
      rfl

/-- Witness of C17: the stop of `i-001` answers "not found" in `us-east-1`
and succeeds in `us-east-2`, which is the recorded region. -/
theorem stopInstance_stops_at_first_successful_region_witness :
    (stopInstance stateI001 stopReqI001 credsU1 stopFoundInSecond clockFrom5000 true).2.2
      = [Effect.stopInstances "us-east-1" ["i-001"],
         Effect.stopInstances "us-east-2" ["i-001"]] ∧
    (stopInstance stateI001 stopReqI001 credsU1 stopFoundInSecond clockFrom5000
      true).1.activityLogs
      = stateI001.activityLogs ++ [stopAuditEntry stopReqI001 "i-001" (some "us-east-2")
          stopRunningToStopping (clockFrom5000 1)] ∧
    (stopInstance stateI001 stopReqI001 credsU1 stopFoundInSecond clockFrom5000
      true).1.activityLogs.getLast?.map
        (fun entry => (entry.action, entry.instanceId, entry.region))
      = some ("Stop Instance", "i-001", some "us-east-2") :=
  have h := (stopInstance_stops_at_first_successful_region stateI001 stopReqI001 credsU1
    stopFoundInSecond clockFrom5000 true "i-001" rfl (by decide) (by decide)).2
    errNotFound stopRunningToStopping rfl rfl
  ⟨h.1, h.2.2.1, h.2.2.2.2⟩

/-- C18 on the code: the stop of `i-001` is refused in `us-east-1` with a
permission error and answers "not found" in `us-east-2`; the route answers
status 500 with the message of the "not found" error, not with the message
of the permission error.  In general, when the command fails in both regions
the reported message is that of the error of `us-east-2`, since the `catch`
stores every error in `lastError`, "not found" included. -/
theorem stopInstance_reports_error_of_last_region :
    (stopInstance stateI001 stopReqI001 credsU1 stopDeniedThenNotFound clockFrom5000 true).2.1
      = { status := 500, success := false, message := errNotFound.message, data := none } ∧
    errNotFound.message ≠ errUnauthorized.message ∧
    (∀ (st : ServerState) (req : StopRequest) (credentials : Option AwsCredentials)
        (stop : String → Except AwsError (Option InstanceStateChange)) (clock : Nat → Int)
        (historyOk : Bool) (id : String) (e1 e2 : AwsError),
        req.instanceId = some id → id ≠ "" → credentialsUsable credentials = true →
        stop "us-east-1" = .error e1 → stop "us-east-2" = .error e2 →
        stopInstance st req credentials stop clock historyOk
          = (st, { status := 500, success := false, message := e2.message, data := none },
             [Effect.stopInstances "us-east-1" [id],
              Effect.stopInstances "us-east-2" [id]])) := by
  have general : ∀ (st : ServerState) (req : StopRequest)
      (credentials : Option AwsCredentials)
      (stop : String → Except AwsError (Option InstanceStateChange)) (clock : Nat → Int)
      (historyOk : Bool) (id : String) (e1 e2 : AwsError),
      req.instanceId = some id → id ≠ "" → credentialsUsable credentials = true →
      stop "us-east-1" = .error e1 → stop "us-east-2" = .error e2 →
      stopInstance st req credentials stop clock historyOk
        = (st, { status := 500, success := false, message := e2.message, data := none },
           [Effect.stopInstances "us-east-1" [id],
            Effect.stopInstances "us-east-2" [id]]) := by
    intro st req credentials stop clock historyOk id e1 e2 hid hne hcreds h1 h2
    unfold stopInstance
    rw [hid]
    simp [hne, hcreds, tryRegions_both_fail id stop e1 e2 none h1 h2, stopFailureMessage]
  refine ⟨?_, by decide, general⟩
  rw [general stateI001 stopReqI001 credsU1 stopDeniedThenNotFound clockFrom5000 true
    "i-001" errUnauthorized errNotFound rfl (by decide) (by decide) rfl rfl]

/-- C19 on the code: the automatic shutdown of `POST /api/monitor-instance`
writes no audit entry.  No run of the handler changes the activity log; in
the scenario `i-001` (limit 80, auto-shutdown on, CPU 95) the run answers
`stopped`, stores `breachCount = 1` and a history entry `auto_shutdown`, and
the activity log stays empty; the same stop through `POST /api/stop-instance`
appends the entry `Stop Instance` with its reason. -/
theorem monitorInstance_stop_writes_no_audit_entry :
    (∀ (awsRegion : String) (st : ServerState) (req : MonitorRequest) (clock : Nat → Int)
        (stopResult : Except String (Option InstanceStateChange)) (historyOk : Bool),
        (monitorInstance awsRegion st req clock stopResult historyOk).1.activityLogs
          = st.activityLogs) ∧
    (monitorInstance "us-east-1" stateI001 tickI001 clockFrom5000
      (.ok stopRunningToStopping) true).2.1.action = "stopped" ∧
    (monitorInstance "us-east-1" stateI001 tickI001 clockFrom5000
      (.ok stopRunningToStopping) true).2.2 = [Effect.stopInstances "us-east-1" ["i-001"]] ∧
    ((monitorInstance "us-east-1" stateI001 tickI001 clockFrom5000
      (.ok stopRunningToStopping) true).1.instanceLimits.map (fun d => d.breachCount))
      = [some 1] ∧
    ((monitorInstance "us-east-1" stateI001 tickI001 clockFrom5000
      (.ok stopRunningToStopping) true).1.history.map (fun e => e.action))
      = ["auto_shutdown"] ∧
    (monitorInstance "us-east-1" stateI001 tickI001 clockFrom5000
      (.ok stopRunningToStopping) true).1.activityLogs = [] ∧
    (stopInstance stateI001 stopReqI001 credsU1 stopSucceeds clockFrom5000
      true).1.activityLogs
      = [stopAuditEntry stopReqI001 "i-001" (some "us-east-1") stopRunningToStopping
          (clockFrom5000 1)] ∧
    (stopAuditEntry stopReqI001 "i-001" (some "us-east-1") stopRunningToStopping
      (clockFrom5000 1)).action = "Stop Instance" ∧
    (stopAuditEntry stopReqI001 "i-001" (some "us-east-1") stopRunningToStopping
      (clockFrom5000 1)).reason = some "Manual stop by user" := by
  refine ⟨?_, by decide, by decide, by decide, by decide, by decide, by decide, rfl, rfl⟩
  intro awsRegion st req clock stopResult historyOk
  unfold monitorInstance
  cases hfind : findOne st.instanceLimits req.userId req.instanceId with
  | none => rfl
  | some limit =>
    simp only []
    by_cases hcpu : req.currentCPU > limit.cpuLimit
    · simp only [hcpu, if_true]
      by_cases hgo : (truthyBool limit.autoShutdown && truthyStr req.awsAccessKey
          && truthyStr req.awsSecretKey) = true
      · simp only [hgo, if_true]
        cases stopResult with
        | error msg => rfl
        | ok r => cases historyOk <;> rfl
      · simp only [hgo]
        cases hget : mapGet st.instanceMonitoring (limitKey req.userId req.instanceId) <;>
          simp
    · simp only [hcpu, if_false]
      cases hhas : mapHas st.instanceMonitoring (limitKey req.userId req.instanceId) <;>
        simp

/-! ## `POST /api/send-low-utilization-email` -/

theorem sendLowUtilizationEmail_accepted (st : ServerState) (req : SendEmailRequest)
    (clock : Nat → Int) (historyOk : Bool) (id : String) (tp : TemplateParams)
    (hid : req.instanceId = some id) (hne : id ≠ "") (htp : req.templateParams = some tp) :
    sendLowUtilizationEmail st req clock (.ok true) historyOk
      = ({ st with emailAlertHistory :=
             st.emailAlertHistory ++ [manualSentRecord req.userId id (clock 0)] },
         { status := 500, success := false, message := "avgCPU is not defined" },
         [Effect.sendEmail (tp.to_email.getD "") id]) := by
  unfold sendLowUtilizationEmail
  rw [hid, htp]
  simp [hne, avgCPUInSendHandler]

/-- C20 on the code: no accepted alert email reaches the audit log.  The
manual route, on a send that the mail service accepts, inserts the alert
record and then fails on the unbound identifier `avgCPU` before
`logActivity` is called: it answers status 500 with `success = false`, and
the activity log and the history are unchanged.  The background pass, on an
accepted send, inserts the alert record and the history entry and leaves the
activity log unchanged. -/
theorem accepted_email_is_not_audited :
    (∀ (st : ServerState) (req : SendEmailRequest) (clock : Nat → Int) (historyOk : Bool)
        (id : String) (tp : TemplateParams),
        req.instanceId = some id → id ≠ "" → req.templateParams = some tp →
        (sendLowUtilizationEmail st req clock (.ok true) historyOk).2.2
          = [Effect.sendEmail (tp.to_email.getD "") id] ∧
        (sendLowUtilizationEmail st req clock (.ok true) historyOk).2.1
          = { status := 500, success := false, message := "avgCPU is not defined" } ∧
        (sendLowUtilizationEmail st req clock (.ok true) historyOk).1.activityLogs
          = st.activityLogs ∧
        (sendLowUtilizationEmail st req clock (.ok true) historyOk).1.history
          = st.history ∧
        (sendLowUtilizationEmail st req clock (.ok true) historyOk).1.emailAlertHistory
          = st.emailAlertHistory ++ [manualSentRecord req.userId id (clock 0)]) ∧
    (∀ (st st1 : ServerState) (userSettings : ProductionModeSettings) (userDoc : UserDoc)
        (inst : Ec2Instance) (instanceName : String) (avg : ℚ) (clock : Nat → Int),
        completeSend st userSettings userDoc inst instanceName avg clock (.ok true)
          = .ok st1 →
        st1.activityLogs = st.activityLogs) ∧
    (sendLowUtilizationEmail emptyState sendReqI001 clockFrom10M (.ok true) true).2.1.success
      = false ∧
    (sendLowUtilizationEmail emptyState sendReqI001 clockFrom10M (.ok true) true).1.activityLogs
      = [] := by
  have hconc := sendLowUtilizationEmail_accepted emptyState sendReqI001 clockFrom10M true
    "i-001" templateAlice rfl (by decide) rfl
  refine ⟨?_, ?_, by rw [hconc], by rw [hconc]; rfl⟩
  · intro st req clock historyOk id tp hid hne htp
    rw [sendLowUtilizationEmail_accepted st req clock historyOk id tp hid hne htp]
    exact ⟨rfl, rfl, rfl, rfl, rfl⟩
  · intro st st1 userSettings userDoc inst instanceName avg clock h
    simp only [completeSend, Except.ok.injEq] at h
    rw [← h]

/-- C12 on the code: the manual route never consults the alert records.  Two
requests for (`u1`, `i-001`) one second apart, both accepted by the mail
service, both send: each run issues the mail request, and the two inserted
records are 1000 ms apart.  In general an accepted request sends whatever the
alert records hold.  The client's own gate does not help: the route answers
`success = false`, so `lastEmailSent` stays unset and the gate lets the
second click through. -/
theorem manual_emails_are_not_rate_limited :
    (sendLowUtilizationEmail emptyState sendReqI001 clockFrom10M (.ok true) true).2.2
      = [Effect.sendEmail "alice@example.com" "i-001"] ∧
    (sendLowUtilizationEmail
      (sendLowUtilizationEmail emptyState sendReqI001 clockFrom10M (.ok true) true).1
      sendReqI001 (fun k => clockFrom10M k + 1000) (.ok true) true).2.2
      = [Effect.sendEmail "alice@example.com" "i-001"] ∧
    ((sendLowUtilizationEmail
      (sendLowUtilizationEmail emptyState sendReqI001 clockFrom10M (.ok true) true).1
      sendReqI001 (fun k => clockFrom10M k + 1000) (.ok true) true).1.emailAlertHistory.map
        (fun r => r.timestamp)) = [10000000, 10001000] ∧
    (∀ (st : ServerState) (req : SendEmailRequest) (clock : Nat → Int) (historyOk : Bool)
        (id : String) (tp : TemplateParams),
        req.instanceId = some id → id ≠ "" → req.templateParams = some tp →
        (sendLowUtilizationEmail st req clock (.ok true) historyOk).2.2
          = [Effect.sendEmail (tp.to_email.getD "") id]) ∧
    lastEmailSentAfter none
      (sendLowUtilizationEmail emptyState sendReqI001 clockFrom10M (.ok true) true).2.1
      10000005 = none ∧
    clientMaySend true none none 10001000 = true := by
  have h1 := sendLowUtilizationEmail_accepted emptyState sendReqI001 clockFrom10M true
    "i-001" templateAlice rfl (by decide) rfl
  have h2 := sendLowUtilizationEmail_accepted
    (sendLowUtilizationEmail emptyState sendReqI001 clockFrom10M (.ok true) true).1
    sendReqI001 (fun k => clockFrom10M k + 1000) true "i-001" templateAlice rfl
    (by decide) rfl
  refine ⟨by rw [h1]; rfl, by rw [h2]; rfl, ?_, ?_, by rw [h1]; rfl, by decide⟩
  · rw [h2, h1]
    decide
  · intro st req clock historyOk id tp hid hne htp
    rw [sendLowUtilizationEmail_accepted st req clock historyOk id tp hid hne htp]

/-! ## The background pass: opt-out, time window and production mode -/

/-- C14: in the background pass the evaluation of an instance ends at the
opt-out exactly when `instanceSettings[instanceId].emailEnabled` is `false`.
A missing settings map, a missing entry or a missing field reads as
`undefined`, and the evaluation is then the one obtained with the setting
`true`; the client's gate treats the setting in the same way. -/
theorem email_opt_out_only_when_explicitly_false :
    (∀ (userSettings : ProductionModeSettings) (userDoc : UserDoc)
        (alerts : List EmailAlertRecord) (inst : Ec2Instance) (region : String)
        (clock : Nat → Int) (metrics : Except String (Option (List Datapoint))),
        evaluateUntilSend userSettings userDoc alerts inst region clock metrics
          = .ok (.emailDisabled, []) ↔
        emailEnabledOf userSettings inst.instanceId = some false) ∧
    (∀ (userSettings : ProductionModeSettings) (instanceId : String),
        userSettings.instanceSettings = none →
        emailEnabledOf userSettings instanceId = none) ∧
    (∀ (userSettings : ProductionModeSettings) (m : List (String × InstanceSetting))
        (instanceId : String), userSettings.instanceSettings = some m →
        m.find? (fun e => e.1 == instanceId) = none →
        emailEnabledOf userSettings instanceId = none) ∧
    (∀ (userSettings : ProductionModeSettings) (m : List (String × InstanceSetting))
        (instanceId : String) (e : String × InstanceSetting),
        userSettings.instanceSettings = some m →
        m.find? (fun e => e.1 == instanceId) = some e →
        emailEnabledOf userSettings instanceId = e.2.emailEnabled) ∧
    (∀ (userSettings other : ProductionModeSettings) (userDoc : UserDoc)
        (alerts : List EmailAlertRecord) (inst : Ec2Instance) (region : String)
        (clock : Nat → Int) (metrics : Except String (Option (List Datapoint))),
        other.userId = userSettings.userId →
        emailEnabledOf userSettings inst.instanceId ≠ some false →
        emailEnabledOf other inst.instanceId ≠ some false →
        evaluateUntilSend userSettings userDoc alerts inst region clock metrics
          = evaluateUntilSend other userDoc alerts inst region clock metrics) ∧
    (∀ (productionModeEnabled : Bool) (lastSent : Option Int) (now : Int),
        clientMaySend productionModeEnabled none lastSent now
          = clientMaySend productionModeEnabled (some true) lastSent now ∧
        clientMaySend productionModeEnabled (some false) lastSent now = false) := by
  refine ⟨?_, ?_, ?_, ?_, ?_, ?_⟩
  · intro userSettings userDoc alerts inst region clock metrics
    constructor
    · intro h
      by_contra hne
      unfold evaluateUntilSend at h
      simp only [hne, if_false] at h
      split at h
      · simp at h
      · cases metrics with
        | error msg => simp at h
        | ok dps =>
          simp only [] at h
          split at h
          · simp at h
          · split at h <;> simp at h
    · intro h
      unfold evaluateUntilSend
      simp [h]
  · intro userSettings instanceId h
    simp [emailEnabledOf, h]
  · intro userSettings m instanceId h hfind
    simp [emailEnabledOf, h, hfind]
  · intro userSettings m instanceId e h hfind
    simp [emailEnabledOf, h, hfind]
  · intro userSettings other userDoc alerts inst region clock metrics hid h1 h2
    unfold evaluateUntilSend
    simp only [h1, h2, if_false, hid]
  · intro productionModeEnabled lastSent now
    cases productionModeEnabled <;> simp [clientMaySend]

theorem pass_outside_hours (st : ServerState)
    (productionModeSettings : List ProductionModeSettings) (world : Nat → UserRun)
    (currentHour : Nat) (hout : currentHour < 6 ∨ 23 ≤ currentHour) :
    monitorLowUtilizationInstances st currentHour productionModeSettings world
      = (st, []) := by
  unfold monitorLowUtilizationInstances
  have : (decide (currentHour < 6) || decide (currentHour ≥ 23)) = true := by
    rcases hout with h | h
    · simp [h]
    · simp [h]
  simp only [this, if_true]

theorem pass_inside_hours (st : ServerState)
    (productionModeSettings : List ProductionModeSettings) (world : Nat → UserRun)
    (currentHour : Nat) (h6 : 6 ≤ currentHour) (h22 : currentHour ≤ 22) :
    monitorLowUtilizationInstances st currentHour productionModeSettings world
      = passUsers st
          (withRuns world 0 (productionModeSettings.filter (fun s => s.enabled))) := by
  unfold monitorLowUtilizationInstances
  have : (decide (currentHour < 6) || decide (currentHour ≥ 23)) = false := by
    have h1 : ¬ currentHour < 6 := by omega
    have h2 : ¬ currentHour ≥ 23 := by omega
    simp [h1, h2]
  simp only [this, Bool.false_eq_true, if_false]
  cases hf : productionModeSettings.filter (fun s => s.enabled) with
  | nil => simp [withRuns, passUsers]
  | cons u us => simp

/-- C15: the pass is gated by the hour of the day in the reference timezone.
For every hour below 6 or from 23 on, the function returns the state it was
given and issues no call, whatever the settings collection and the
environment are.  For every hour from 6 to 22 it runs the loop over the
enabled settings documents. -/
theorem pass_runs_only_inside_active_hours (st : ServerState)
    (productionModeSettings : List ProductionModeSettings) (world : Nat → UserRun) :
    (∀ currentHour : Nat, currentHour < 6 ∨ 23 ≤ currentHour →
      monitorLowUtilizationInstances st currentHour productionModeSettings world
        = (st, [])) ∧
    (∀ currentHour : Nat, 6 ≤ currentHour → currentHour ≤ 22 →
      monitorLowUtilizationInstances st currentHour productionModeSettings world
        = passUsers st
            (withRuns world 0 (productionModeSettings.filter (fun s => s.enabled)))) :=
  ⟨fun h hout => pass_outside_hours st productionModeSettings world h hout,
   fun h h6 h22 => pass_inside_hours st productionModeSettings world h h6 h22⟩

theorem processUser_report_userId (st : ServerState) (userSettings : ProductionModeSettings)
    (run : UserRun) : (processUser st userSettings run).2.userId = userSettings.userId := by
  unfold processUser
  cases run.userDoc with
  | error msg => rfl
  | ok doc =>
    cases doc with
    | none => rfl
    | some userDoc =>
      simp only []
      split
      · rfl
      · cases run.credentials with
        | none => rfl
        | some credentials =>
          simp only []
          split
          · rfl
          · split <;> rfl

theorem passUsers_report_userIds :
    ∀ (users : List (ProductionModeSettings × UserRun)) (st : ServerState),
      (passUsers st users).2.map (fun r => r.userId) = users.map (fun p => p.1.userId) := by
  intro users
  induction users with
  | nil => intro st; rfl
  | cons p ps ih =>
    intro st
    obtain ⟨userSettings, run⟩ := p
    simp only [passUsers, List.map_cons]
    rw [ih, processUser_report_userId]

theorem withRuns_settings (world : Nat → UserRun) :
    ∀ (users : List ProductionModeSettings) (start : Nat),
      (withRuns world start users).map (fun p => p.1) = users := by
  intro users
  induction users with
  | nil => intro start; rfl
  | cons u us ih => intro start; simp [withRuns, ih]

theorem pass_report_userIds_enabled (st : ServerState) (currentHour : Nat)
    (productionModeSettings : List ProductionModeSettings) (world : Nat → UserRun)
    (rep : UserReport)
    (hrep : rep ∈ (monitorLowUtilizationInstances st currentHour productionModeSettings
      world).2) :
    ∃ s ∈ productionModeSettings, s.enabled = true ∧ s.userId = rep.userId := by
  unfold monitorLowUtilizationInstances at hrep
  split at hrep
  · simp at hrep
  · simp only [] at hrep
    split at hrep
    · simp at hrep
    · have hmem : rep.userId ∈ (passUsers st (withRuns world 0
          (productionModeSettings.filter (fun s => s.enabled)))).2.map (fun r => r.userId) :=
        List.mem_map_of_mem _ hrep
      rw [passUsers_report_userIds] at hmem
      obtain ⟨p, hp, hpid⟩ := List.mem_map.mp hmem
      have hp1 : p.1 ∈ (withRuns world 0
          (productionModeSettings.filter (fun s => s.enabled))).map (fun p => p.1) :=
        List.mem_map_of_mem _ hp
      rw [withRuns_settings] at hp1
      obtain ⟨hin, hen⟩ := List.mem_filter.mp hp1
      exact ⟨p.1, hin, hen, hpid⟩

/-- C13: when every settings document of user `u` has `enabled = false` (in
particular when `u` has none), no user of the pass is `u`: the reports, which
hold every call the pass issues, name only users with an enabled document;
and the whole pass, state and reports, is the one obtained with the
documents of `u` removed, so it does not depend on the per-instance settings
of `u`. -/
theorem disabled_user_is_not_processed (st : ServerState) (currentHour : Nat)
    (productionModeSettings : List ProductionModeSettings) (world : Nat → UserRun)
    (u : String)
    (hoff : ∀ s ∈ productionModeSettings, s.userId = u → s.enabled = false) :
    (∀ rep ∈ (monitorLowUtilizationInstances st currentHour productionModeSettings
        world).2, rep.userId ≠ u) ∧
    monitorLowUtilizationInstances st currentHour productionModeSettings world
      = monitorLowUtilizationInstances st currentHour
          (productionModeSettings.filter (fun s => s.userId != u)) world := by
  constructor
  · intro rep hrep heq
    obtain ⟨s, hs, hen, hid⟩ := pass_report_userIds_enabled st currentHour
      productionModeSettings world rep hrep
    have := hoff s hs (hid.trans heq)
    rw [this] at hen
    exact absurd hen (by simp)
  · have hfilter : (productionModeSettings.filter (fun s => s.userId != u)).filter
        (fun s => s.enabled) = productionModeSettings.filter (fun s => s.enabled) := by
      rw [List.filter_filter]
      apply List.filter_congr
      intro s hs
      by_cases hid : s.userId = u
      · simp [hoff s hs hid]
      · simp [hid]
    unfold monitorLowUtilizationInstances
    rw [hfilter]

/-! ## The background pass: two consecutive ticks -/

theorem evaluateUntilSend_low (userSettings : ProductionModeSettings) (userDoc : UserDoc)
    (alerts : List EmailAlertRecord) (inst : Ec2Instance) (region : String)
    (clock : Nat → Int) (metrics : Except String (Option (List Datapoint)))
    (dps : List Datapoint)
    (hopt : emailEnabledOf userSettings inst.instanceId ≠ some false)
    (hgate : cooldownDenies alerts userSettings.userId inst.instanceId (clock 0) = false)
    (hmet : metrics = .ok (some dps)) (hdps : dps ≠ [])
    (hlow : avgCPU dps < LOW_UTILIZATION_THRESHOLD) :
    evaluateUntilSend userSettings userDoc alerts inst region clock metrics
      = .ok (.sending (instanceNameOf inst) (avgCPU dps),
          [passMetricCall region inst clock, Effect.sendEmail userDoc.email inst.instanceId]) := by
  unfold evaluateUntilSend
  have hlen : dps.length ≠ 0 := fun h => hdps (List.length_eq_zero.mp h)
  simp [hopt, hgate, hmet, hlen, hlow, passMetricCall]

theorem evaluateUntilSend_notLow (userSettings : ProductionModeSettings) (userDoc : UserDoc)
    (alerts : List EmailAlertRecord) (inst : Ec2Instance) (region : String)
    (clock : Nat → Int) (metrics : Except String (Option (List Datapoint)))
    (dps : List Datapoint)
    (hopt : emailEnabledOf userSettings inst.instanceId ≠ some false)
    (hgate : cooldownDenies alerts userSettings.userId inst.instanceId (clock 0) = false)
    (hmet : metrics = .ok (some dps)) (hdps : dps ≠ [])
    (hhigh : ¬ avgCPU dps < LOW_UTILIZATION_THRESHOLD) :
    evaluateUntilSend userSettings userDoc alerts inst region clock metrics
      = .ok (.notLow (avgCPU dps), [passMetricCall region inst clock]) := by
  unfold evaluateUntilSend
  have hlen : dps.length ≠ 0 := fun h => hdps (List.length_eq_zero.mp h)
  simp [hopt, hgate, hmet, hlen, hhigh, passMetricCall]

theorem evaluateUntilSend_cooldown (userSettings : ProductionModeSettings)
    (userDoc : UserDoc) (alerts : List EmailAlertRecord) (inst : Ec2Instance)
    (region : String) (clock : Nat → Int)
    (metrics : Except String (Option (List Datapoint)))
    (hopt : emailEnabledOf userSettings inst.instanceId ≠ some false)
    (hgate : cooldownDenies alerts userSettings.userId inst.instanceId (clock 0) = true) :
    evaluateUntilSend userSettings userDoc alerts inst region clock metrics
      = .ok (.cooldown, []) := by
  unfold evaluateUntilSend
  simp [hopt, hgate]

theorem pass_single_instance (st : ServerState) (currentHour : Nat)
    (userSettings : ProductionModeSettings) (world : Nat → UserRun) (userDoc : UserDoc)
    (inst : Ec2Instance)
    (h6 : 6 ≤ currentHour) (h22 : currentHour ≤ 22) (hen : userSettings.enabled = true)
    (hrun : ServesOneInstance (world 0) userDoc inst) :
    monitorLowUtilizationInstances st currentHour [userSettings] world
      = ((evaluateInstanceRun st userSettings userDoc inst "us-east-1"
            ((world 0).instanceEval 0)).1,
         [{ userId := userSettings.userId,
            outcome :=
              match (evaluateInstanceRun st userSettings userDoc inst "us-east-1"
                ((world 0).instanceEval 0)).2.2 with
              | none => .completed
              | some msg => .failed msg,
            trace := passPrelude ++ (evaluateInstanceRun st userSettings userDoc inst
              "us-east-1" ((world 0).instanceEval 0)).2.1 }]) := by
  obtain ⟨hdoc, hemail, ⟨c, hc⟩, ⟨a, ha⟩, hd1, hd2, hstate⟩ := hrun
  rw [pass_inside_hours st [userSettings] world currentHour h6 h22]
  have hscan : scanRegions (world 0).describe regionsToCheck = [(inst, "us-east-1")] := by
    simp [scanRegions, regionsToCheck, hd1, hd2, runningIn, hstate]
  simp only [List.filter, hen, withRuns, passUsers, processUser, hdoc, hemail, if_false, hc,
    ha, hscan, evaluateAll]
  rcases hres : evaluateInstanceRun st userSettings userDoc inst "us-east-1"
    ((world 0).instanceEval 0) with ⟨st1, tr, err⟩
  cases err <;> simp [passPrelude, regionsToCheck]

theorem evaluateInstanceRun_sent (st : ServerState) (userSettings : ProductionModeSettings)
    (userDoc : UserDoc) (inst : Ec2Instance) (region : String) (run : InstanceEval)
    (dps : List Datapoint)
    (hopt : emailEnabledOf userSettings inst.instanceId ≠ some false)
    (hgate : cooldownDenies st.emailAlertHistory userSettings.userId inst.instanceId
      (run.clock 0) = false)
    (hmet : run.metrics = .ok (some dps)) (hdps : dps ≠ [])
    (hlow : avgCPU dps < LOW_UTILIZATION_THRESHOLD)
    (hacc : run.emailResponse = .ok true) :
    evaluateInstanceRun st userSettings userDoc inst region run
      = ({ st with
            emailAlertHistory := st.emailAlertHistory
              ++ [sentRecord userSettings inst (instanceNameOf inst) (avgCPU dps) run.clock],
            history := st.history
              ++ [sentHistoryEntry userSettings userDoc inst (instanceNameOf inst)
                    (avgCPU dps) run.clock] },
         [passMetricCall region inst run.clock,
          Effect.sendEmail userDoc.email inst.instanceId], none) := by
  unfold evaluateInstanceRun
  rw [evaluateUntilSend_low userSettings userDoc st.emailAlertHistory inst region run.clock
    run.metrics dps hopt hgate hmet hdps hlow, hacc]
  rfl

theorem evaluateInstanceRun_cooldown (st : ServerState)
    (userSettings : ProductionModeSettings) (userDoc : UserDoc) (inst : Ec2Instance)
    (region : String) (run : InstanceEval)
    (hopt : emailEnabledOf userSettings inst.instanceId ≠ some false)
    (hgate : cooldownDenies st.emailAlertHistory userSettings.userId inst.instanceId
      (run.clock 0) = true) :
    evaluateInstanceRun st userSettings userDoc inst region run = (st, [], none) := by
  unfold evaluateInstanceRun
  rw [evaluateUntilSend_cooldown userSettings userDoc st.emailAlertHistory inst region
    run.clock run.metrics hopt hgate]

theorem evaluateInstanceRun_notLow (st : ServerState)
    (userSettings : ProductionModeSettings) (userDoc : UserDoc) (inst : Ec2Instance)
    (region : String) (run : InstanceEval) (dps : List Datapoint)
    (hopt : emailEnabledOf userSettings inst.instanceId ≠ some false)
    (hgate : cooldownDenies st.emailAlertHistory userSettings.userId inst.instanceId
      (run.clock 0) = false)
    (hmet : run.metrics = .ok (some dps)) (hdps : dps ≠ [])
    (hhigh : ¬ avgCPU dps < LOW_UTILIZATION_THRESHOLD) :
    evaluateInstanceRun st userSettings userDoc inst region run
      = (st, [passMetricCall region inst run.clock], none) := by
  unfold evaluateInstanceRun
  rw [evaluateUntilSend_notLow userSettings userDoc st.emailAlertHistory inst region
    run.clock run.metrics dps hopt hgate hmet hdps hhigh]

theorem runU1_serves (eval : InstanceEval) :
    ServesOneInstance (runU1 eval) userU1 instanceI001 :=
  ⟨rfl, by decide, ⟨_, rfl⟩, ⟨_, rfl⟩, rfl, rfl, rfl⟩

/-- C11, as stated, fails: `i-001` breaches its stored limit 80 at an average
of 95% CPU, auto-shutdown is off, email is enabled for the instance,
production mode is on and the hour is 12; the first tick fetches the metric
and sends no email, and no alert record is inserted, because the pass only
mails instances whose average is below the low-utilization threshold. -/
theorem breaching_instance_gets_no_email_on_first_tick :
    (findOne stateI001Off.instanceLimits "u1" "i-001").map
      (fun d => (d.cpuLimit, d.autoShutdown)) = some (80, some false) ∧
    avgCPU [{ timestamp := 900, average := 95 }] = 95 ∧
    emailEnabledOf (settingsU1With (some true)) "i-001" = some true ∧
    monitorLowUtilizationInstances stateI001Off 12 [settingsU1With (some true)]
      (fun _ => runU1 (evalBusyAccepted clockFrom10M))
      = (stateI001Off,
         [{ userId := "u1", outcome := .completed,
            trace := passPrelude ++ [passMetricCall "us-east-1" instanceI001 clockFrom10M] }]) := by
  refine ⟨by decide, avgCPU_single_ninety_five, by decide, ?_⟩
  rw [pass_single_instance stateI001Off 12 (settingsU1With (some true)) _ userU1
    instanceI001 (by decide) (by decide) rfl (runU1_serves _)]
  have hhigh : ¬ avgCPU [({ timestamp := 900, average := 95 } : Datapoint)]
      < LOW_UTILIZATION_THRESHOLD := by
    rw [avgCPU_single_ninety_five]
    simp only [LOW_UTILIZATION_THRESHOLD]
    norm_num
  have hrun : (runU1 (evalBusyAccepted clockFrom10M)).instanceEval 0
      = evalBusyAccepted clockFrom10M := rfl
  rw [hrun, evaluateInstanceRun_notLow stateI001Off (settingsU1With (some true)) userU1
    instanceI001 "us-east-1" (evalBusyAccepted clockFrom10M) _ (by decide) (by decide) rfl
    (by simp) hhigh]
  rfl

/-! ## The background pass: one user does not disturb the next -/

theorem matchesAlert_userId {userId instanceId : String} {r : EmailAlertRecord}
    (h : matchesAlert userId instanceId r = true) : r.userId = userId := by
  simp only [matchesAlert, Bool.and_eq_true, beq_iff_eq] at h
  exact h.1.1

theorem cooldownDenies_append (a b : List EmailAlertRecord) (userId instanceId : String)
    (now : Int) :
    cooldownDenies (a ++ b) userId instanceId now
      = (cooldownDenies a userId instanceId now || cooldownDenies b userId instanceId now) := by
  rw [Bool.eq_iff_iff]
  simp only [Bool.or_eq_true, cooldownDenies_iff_exists, List.mem_append]
  constructor
  · rintro ⟨x, hx | hx, h⟩
    · exact Or.inl ⟨x, hx, h⟩
    · exact Or.inr ⟨x, hx, h⟩
  · rintro (⟨x, hx, h⟩ | ⟨x, hx, h⟩)
    · exact ⟨x, Or.inl hx, h⟩
    · exact ⟨x, Or.inr hx, h⟩

theorem cooldownDenies_foreign (b : List EmailAlertRecord) (userId instanceId : String)
    (now : Int) (h : ∀ r ∈ b, r.userId ≠ userId) :
    cooldownDenies b userId instanceId now = false := by
  cases hc : cooldownDenies b userId instanceId now
  · rfl
  · obtain ⟨x, hx, hm, _⟩ := (cooldownDenies_iff_exists b userId instanceId now).mp hc
    exact absurd (matchesAlert_userId hm) (h x hx)

theorem CoolEq_append_same {userId : String} {a b : List EmailAlertRecord}
    (h : CoolEq userId a b) (added : List EmailAlertRecord) :
    CoolEq userId (a ++ added) (b ++ added) := by
  intro i t
  rw [cooldownDenies_append, cooldownDenies_append, h i t]

theorem CoolEq_append_foreign (userId : String) (a added : List EmailAlertRecord)
    (h : ∀ r ∈ added, r.userId ≠ userId) : CoolEq userId (a ++ added) a := by
  intro i t
  rw [cooldownDenies_append, cooldownDenies_foreign added userId i t h, Bool.or_false]

theorem evaluateUntilSend_congr (userSettings : ProductionModeSettings) (userDoc : UserDoc)
    (a b : List EmailAlertRecord) (inst : Ec2Instance) (region : String)
    (clock : Nat → Int) (metrics : Except String (Option (List Datapoint)))
    (h : CoolEq userSettings.userId a b) :
    evaluateUntilSend userSettings userDoc a inst region clock metrics
      = evaluateUntilSend userSettings userDoc b inst region clock metrics := by
  unfold evaluateUntilSend
  simp only [h inst.instanceId (clock 0)]

theorem evaluateInstanceRun_rel (s t : ServerState) (userSettings : ProductionModeSettings)
    (userDoc : UserDoc) (inst : Ec2Instance) (region : String) (run : InstanceEval)
    (h : CoolEq userSettings.userId s.emailAlertHistory t.emailAlertHistory) :
    (evaluateInstanceRun s userSettings userDoc inst region run).2
      = (evaluateInstanceRun t userSettings userDoc inst region run).2 ∧
    ∃ added : List EmailAlertRecord,
      (evaluateInstanceRun s userSettings userDoc inst region run).1.emailAlertHistory
        = s.emailAlertHistory ++ added ∧
      (evaluateInstanceRun t userSettings userDoc inst region run).1.emailAlertHistory
        = t.emailAlertHistory ++ added ∧
      ∀ r ∈ added, r.userId = userSettings.userId := by
  have hc := evaluateUntilSend_congr userSettings userDoc s.emailAlertHistory
    t.emailAlertHistory inst region run.clock run.metrics h
  unfold evaluateInstanceRun
  rw [hc]
  cases hres : evaluateUntilSend userSettings userDoc t.emailAlertHistory inst region
      run.clock run.metrics with
  | error msg => exact ⟨rfl, [], by simp, by simp, by simp⟩
  | ok res =>
    obtain ⟨point, trace⟩ := res
    cases point with
    | emailDisabled => exact ⟨rfl, [], by simp, by simp, by simp⟩
    | cooldown => exact ⟨rfl, [], by simp, by simp, by simp⟩
    | noMetrics => exact ⟨rfl, [], by simp, by simp, by simp⟩
    | notLow avg => exact ⟨rfl, [], by simp, by simp, by simp⟩
    | sending instanceName avg =>
      cases hresp : run.emailResponse with
      | error msg =>
        exact ⟨by simp [completeSend], [], by simp [completeSend], by simp [completeSend],
          by simp⟩
      | ok accepted =>
        cases accepted with
        | false =>
          exact ⟨by simp [completeSend], [], by simp [completeSend],
            by simp [completeSend], by simp⟩
        | true =>
          refine ⟨by simp [completeSend],
            [sentRecord userSettings inst instanceName avg run.clock],
            by simp [completeSend], by simp [completeSend], ?_⟩
          intro r hr
          rw [List.mem_singleton.mp hr]
          rfl

theorem evaluateAll_rel (userSettings : ProductionModeSettings) (userDoc : UserDoc)
    (evals : Nat → InstanceEval) :
    ∀ (instances : List (Ec2Instance × String)) (k : Nat) (s t : ServerState),
      CoolEq userSettings.userId s.emailAlertHistory t.emailAlertHistory →
      (evaluateAll userSettings userDoc evals k instances s).2
        = (evaluateAll userSettings userDoc evals k instances t).2 ∧
      ∃ added : List EmailAlertRecord,
        (evaluateAll userSettings userDoc evals k instances s).1.emailAlertHistory
          = s.emailAlertHistory ++ added ∧
        (evaluateAll userSettings userDoc evals k instances t).1.emailAlertHistory
          = t.emailAlertHistory ++ added ∧
        ∀ r ∈ added, r.userId = userSettings.userId := by
  intro instances
  induction instances with
  | nil =>
    intro k s t _
    exact ⟨rfl, [], by simp [evaluateAll], by simp [evaluateAll], by simp⟩
  | cons p rest ih =>
    intro k s t h
    obtain ⟨inst, region⟩ := p
    obtain ⟨h2, added, hs, ht, hids⟩ :=
      evaluateInstanceRun_rel s t userSettings userDoc inst region (evals k) h
    rcases hrs : evaluateInstanceRun s userSettings userDoc inst region (evals k)
      with ⟨s1, tr, err⟩
    rcases hrt : evaluateInstanceRun t userSettings userDoc inst region (evals k)
      with ⟨t1, tr', err'⟩
    rw [hrs, hrt] at h2
    rw [hrs] at hs
    rw [hrt] at ht
    simp only [Prod.mk.injEq] at h2
    obtain ⟨htr, herr⟩ := h2
    subst htr
    subst herr
    simp only [] at hs ht
    cases err with
    | some msg =>
      have es : evaluateAll userSettings userDoc evals k ((inst, region) :: rest) s
          = (s1, tr, some msg) := by simp only [evaluateAll, hrs]
      have et : evaluateAll userSettings userDoc evals k ((inst, region) :: rest) t
          = (t1, tr, some msg) := by simp only [evaluateAll, hrt]
      rw [es, et]
      exact ⟨rfl, added, hs, ht, hids⟩
    | none =>
      have h1 : CoolEq userSettings.userId s1.emailAlertHistory t1.emailAlertHistory := by
        rw [hs, ht]
        exact CoolEq_append_same h added
      obtain ⟨h3, added2, hs2, ht2, hids2⟩ := ih (k + 1) s1 t1 h1
      rcases hrs2 : evaluateAll userSettings userDoc evals (k + 1) rest s1
        with ⟨s2, tr2, err2⟩
      rcases hrt2 : evaluateAll userSettings userDoc evals (k + 1) rest t1
        with ⟨t2, tr2', err2'⟩
      rw [hrs2, hrt2] at h3
      rw [hrs2] at hs2
      rw [hrt2] at ht2
      simp only [Prod.mk.injEq] at h3
      obtain ⟨htr2, herr2⟩ := h3
      subst htr2
      subst herr2
      simp only [] at hs2 ht2
      have es : evaluateAll userSettings userDoc evals k ((inst, region) :: rest) s
          = (s2, tr ++ tr2, err2) := by simp only [evaluateAll, hrs, hrs2]
      have et : evaluateAll userSettings userDoc evals k ((inst, region) :: rest) t
          = (t2, tr ++ tr2, err2) := by simp only [evaluateAll, hrt, hrt2]
      rw [es, et]
      refine ⟨rfl, added ++ added2, ?_, ?_, ?_⟩
      · rw [hs2, hs, List.append_assoc]
      · rw [ht2, ht, List.append_assoc]
      · intro r hr
        rcases List.mem_append.mp hr with hr | hr
        · exact hids r hr
        · exact hids2 r hr

theorem processUser_rel (s t : ServerState) (userSettings : ProductionModeSettings)
    (run : UserRun)
    (h : CoolEq userSettings.userId s.emailAlertHistory t.emailAlertHistory) :
    (processUser s userSettings run).2 = (processUser t userSettings run).2 ∧
    ∃ added : List EmailAlertRecord,
      (processUser s userSettings run).1.emailAlertHistory = s.emailAlertHistory ++ added ∧
      (processUser t userSettings run).1.emailAlertHistory = t.emailAlertHistory ++ added ∧
      ∀ r ∈ added, r.userId = userSettings.userId := by
  have trivialCase : ∀ (rep : UserReport),
      ((s, rep) : ServerState × UserReport).2 = ((t, rep) : ServerState × UserReport).2 ∧
      ∃ added : List EmailAlertRecord,
        ((s, rep) : ServerState × UserReport).1.emailAlertHistory
          = s.emailAlertHistory ++ added ∧
        ((t, rep) : ServerState × UserReport).1.emailAlertHistory
          = t.emailAlertHistory ++ added ∧
        ∀ r ∈ added, r.userId = userSettings.userId :=
    fun _ => ⟨rfl, [], by simp, by simp, by simp⟩
  unfold processUser
  cases run.userDoc with
  | error msg => exact trivialCase _
  | ok doc =>
    cases doc with
    | none => exact trivialCase _
    | some userDoc =>
      simp only []
      split
      · exact trivialCase _
      · cases run.credentials with
        | none => exact trivialCase _
        | some credentials =>
          simp only []
          split
          · exact trivialCase _
          · obtain ⟨h2, added, hs, ht, hids⟩ := evaluateAll_rel userSettings userDoc
              run.instanceEval (scanRegions run.describe regionsToCheck) 0 s t h
            rcases hrs : evaluateAll userSettings userDoc run.instanceEval 0
              (scanRegions run.describe regionsToCheck) s with ⟨s1, tr, err⟩
            rcases hrt : evaluateAll userSettings userDoc run.instanceEval 0
              (scanRegions run.describe regionsToCheck) t with ⟨t1, tr', err'⟩
            rw [hrs, hrt] at h2
            rw [hrs] at hs
            rw [hrt] at ht
            simp only [Prod.mk.injEq] at h2
            obtain ⟨htr, herr⟩ := h2
            subst htr
            subst herr
            simp only [] at hs ht
            cases err with
            | none => exact ⟨rfl, added, hs, ht, hids⟩
            | some msg => exact ⟨rfl, added, hs, ht, hids⟩

theorem passUsers_rel :
    ∀ (users : List (ProductionModeSettings × UserRun)) (s t : ServerState),
      (∀ p ∈ users, CoolEq p.1.userId s.emailAlertHistory t.emailAlertHistory) →
      (passUsers s users).2 = (passUsers t users).2 := by
  intro users
  induction users with
  | nil => intro s t _; rfl
  | cons p rest ih =>
    intro s t h
    obtain ⟨userSettings, run⟩ := p
    obtain ⟨h2, added, hs, ht, _⟩ :=
      processUser_rel s t userSettings run (h _ (List.mem_cons_self _ _))
    rcases hrs : processUser s userSettings run with ⟨s1, rep⟩
    rcases hrt : processUser t userSettings run with ⟨t1, rep'⟩
    rw [hrs, hrt] at h2
    rw [hrs] at hs
    rw [hrt] at ht
    simp only [] at h2 hs ht
    subst h2
    have hrest : ∀ q ∈ rest, CoolEq q.1.userId s1.emailAlertHistory t1.emailAlertHistory := by
      intro q hq
      rw [hs, ht]
      exact CoolEq_append_same (h q (List.mem_cons_of_mem _ hq)) added
    have := ih s1 t1 hrest
    simp only [passUsers, hrs, hrt, this]

theorem passUsers_append :
    ∀ (xs ys : List (ProductionModeSettings × UserRun)) (st : ServerState),
      passUsers st (xs ++ ys)
        = ((passUsers (passUsers st xs).1 ys).1,
           (passUsers st xs).2 ++ (passUsers (passUsers st xs).1 ys).2) := by
  intro xs
  induction xs with
  | nil => intro ys st; simp [passUsers]
  | cons p rest ih =>
    intro ys st
    obtain ⟨userSettings, run⟩ := p
    simp only [List.cons_append, passUsers]
    rw [show rest.append ys = rest ++ ys from rfl, ih]

theorem passUsers_later_reports (st : ServerState)
    (post : List (ProductionModeSettings × UserRun))
    (userSettings : ProductionModeSettings) (run : UserRun)
    (hdistinct : ∀ p ∈ post, p.1.userId ≠ userSettings.userId) :
    (passUsers (processUser st userSettings run).1 post).2 = (passUsers st post).2 := by
  obtain ⟨_, added, hs, _, hids⟩ :=
    processUser_rel st st userSettings run (fun _ _ => rfl)
  apply passUsers_rel
  intro p hp
  rw [hs]
  apply CoolEq_append_foreign
  intro r hr heq
  exact hdistinct p hp (heq.symm.trans (hids r hr))

/-- C16: one user of the loop does not disturb the users after it.  For a
list `pre ++ (user) :: post` whose later users have a user id other than the
user's, the reports of the pass are those of `pre`, the user's own report,
and then exactly the reports that `post` gets in the pass over `pre ++ post`:
the loop goes on after the user whatever its outcome, a raised error
included.  A user without a document or with an empty email ends as
`noEmail`, a user without credentials as `noCredentials`, both without any
call and with the state unchanged, and then the final state too is that of
the pass without the user. -/
theorem failing_user_is_skipped_without_disturbing_later_users (st : ServerState)
    (pre post : List (ProductionModeSettings × UserRun))
    (userSettings : ProductionModeSettings) (run : UserRun)
    (hdistinct : ∀ p ∈ post, p.1.userId ≠ userSettings.userId) :
    (passUsers st (pre ++ (userSettings, run) :: post)).2
      = (passUsers st pre).2
          ++ (processUser (passUsers st pre).1 userSettings run).2
            :: (passUsers (passUsers st pre).1 post).2 ∧
    (passUsers st (pre ++ post)).2
      = (passUsers st pre).2 ++ (passUsers (passUsers st pre).1 post).2 ∧
    ((run.userDoc = .ok none ∨ ∃ ud, run.userDoc = .ok (some ud) ∧ ud.email = "") →
      ∀ s : ServerState, processUser s userSettings run
        = (s, { userId := userSettings.userId, outcome := .noEmail, trace := [] })) ∧
    ((∃ ud, run.userDoc = .ok (some ud) ∧ ud.email ≠ "") → run.credentials = none →
      ∀ s : ServerState, processUser s userSettings run
        = (s, { userId := userSettings.userId, outcome := .noCredentials, trace := [] })) ∧
    ((processUser (passUsers st pre).1 userSettings run).1 = (passUsers st pre).1 →
      (passUsers st (pre ++ (userSettings, run) :: post)).1
        = (passUsers st (pre ++ post)).1) := by
  refine ⟨?_, ?_, ?_, ?_, ?_⟩
  · rw [passUsers_append]
    simp only [passUsers]
    rw [passUsers_later_reports (passUsers st pre).1 post userSettings run hdistinct]
  · rw [passUsers_append]
  · intro hdoc s
    unfold processUser
    rcases hdoc with h | ⟨ud, h, hemail⟩
    · rw [h]
    · rw [h]
      simp [hemail]
  · rintro ⟨ud, h, hemail⟩ hcreds s
    unfold processUser
    rw [h, hcreds]
    simp [hemail]
  · intro hsame
    rw [passUsers_append, passUsers_append]
    simp only [passUsers]
    rw [hsame]

/-- Witness of C16: `u2`, whose metric call throws, followed by `u1`, whose
instance is idle: `u2` ends as failed, and the report of `u1` is the one of
the pass over `u1` alone. -/
theorem failing_user_is_skipped_without_disturbing_later_users_witness :
    (passUsers emptyState ([] ++ (settingsU2On, runMetricsThrow)
        :: [(settingsU1With (some true), runU1 (evalIdleAccepted clockFrom10M))])).2
      = (passUsers emptyState []).2
          ++ (processUser (passUsers emptyState []).1 settingsU2On runMetricsThrow).2
            :: (passUsers (passUsers emptyState []).1
                [(settingsU1With (some true), runU1 (evalIdleAccepted clockFrom10M))]).2 ∧
    (processUser emptyState settingsU2On runMetricsThrow).2.outcome = .failed "Throttling" :=
  ⟨(failing_user_is_skipped_without_disturbing_later_users emptyState []
      [(settingsU1With (some true), runU1 (evalIdleAccepted clockFrom10M))]
      settingsU2On runMetricsThrow (by
        intro p hp
        rw [List.mem_singleton.mp hp]
        decide)).1,
   by rfl⟩

/-- Witness of C13: `u2` has production mode off and email enabled for its
instance; the pass over the documents of `u1` and `u2` is the pass over the
document of `u1` alone. -/
theorem disabled_user_is_not_processed_witness :
    (∀ rep ∈ (monitorLowUtilizationInstances emptyState 12
        [settingsU1With (some true), settingsU2Off]
        (fun _ => runU1 (evalIdleAccepted clockFrom10M))).2, rep.userId ≠ "u2") ∧
    monitorLowUtilizationInstances emptyState 12
        [settingsU1With (some true), settingsU2Off]
        (fun _ => runU1 (evalIdleAccepted clockFrom10M))
      = monitorLowUtilizationInstances emptyState 12
          ([settingsU1With (some true), settingsU2Off].filter (fun s => s.userId != "u2"))
          (fun _ => runU1 (evalIdleAccepted clockFrom10M)) :=
  disabled_user_is_not_processed emptyState 12 [settingsU1With (some true), settingsU2Off]
    (fun _ => runU1 (evalIdleAccepted clockFrom10M)) "u2" (by decide)

/-- Witness of C15: at hour 3 and at hour 23 the pass over the enabled user
`u1` returns the state unchanged and issues no call. -/
theorem pass_runs_only_inside_active_hours_witness :
    monitorLowUtilizationInstances emptyState 3 [settingsU1With (some true)]
      (fun _ => runU1 (evalIdleAccepted clockFrom10M)) = (emptyState, []) ∧
    monitorLowUtilizationInstances emptyState 23 [settingsU1With (some true)]
      (fun _ => runU1 (evalIdleAccepted clockFrom10M)) = (emptyState, []) :=
  ⟨(pass_runs_only_inside_active_hours emptyState [settingsU1With (some true)]
      (fun _ => runU1 (evalIdleAccepted clockFrom10M))).1 3 (by decide),
   (pass_runs_only_inside_active_hours emptyState [settingsU1With (some true)]
      (fun _ => runU1 (evalIdleAccepted clockFrom10M))).1 23 (by decide)⟩

/-! ## The lambda: one result per entry -/

theorem processInstance_instanceId (region : String) (config : LimitConfig)
    (run : InstanceRun) :
    (processInstance region config run).1.instanceId = config.instanceId := by
  unfold processInstance
  cases run.describe with
  | error msg => rfl
  | ok found =>
    cases found with
    | none => rfl
    | some inst =>
      simp only []
      split
      · rfl
      · cases run.metrics with
        | error msg => rfl
        | ok dps =>
          simp only []
          cases dps.getD [] with
          | nil => rfl
          | cons d ds =>
            simp only []
            split
            · split
              · cases run.stop with
                | error msg => rfl
                | ok r =>
                  simp only []
                  cases h : stateNames r with
                  | error msg => rfl
                  | ok names => rfl
              · rfl
            · rfl

theorem processAll_length (region : String) (world : Nat → InstanceRun) :
    ∀ (cs : List LimitConfig) (start : Nat),
      (processAll region world start cs).length = cs.length := by
  intro cs
  induction cs with
  | nil => intro start; rfl
  | cons c cs ih => intro start; simp [processAll, ih]

theorem handler_results_length (event : LambdaEvent) (envRegion : Option String)
    (world : Nat → InstanceRun) (finalTime : Int) :
    (handler event envRegion world finalTime).2.1.results.length
      = (event.instanceLimits.getD []).length := by
  unfold handler
  by_cases h : (event.instanceLimits.getD []).length = 0
  · simp [h, LambdaBody.results]
  · simp [h, LambdaBody.results, processAll_length]

/-- C28: the lambda returns one result per configured limit, in input order:
the results are as many as the limits and the result at each position
carries the instance id of the limit at that position; with at least one
limit the body is the report whose `summary.totalMonitored` is the number of
limits (with none, the early return reports `monitored: 0`).  The result at
a position is determined by the entry and the provider answers at that
position alone; a describe call, a metric query or a stop command that
throws gives the result `error` with the thrown message at that position. -/
theorem lambda_one_result_per_limit (event : LambdaEvent) (envRegion : Option String)
    (world : Nat → InstanceRun) (finalTime : Int) :
    (handler event envRegion world finalTime).2.1.results.length
      = (event.instanceLimits.getD []).length ∧
    (∀ i : Nat, ((handler event envRegion world finalTime).2.1.results[i]?).map
        (fun r => r.instanceId)
      = ((event.instanceLimits.getD [])[i]?).map (fun c => c.instanceId)) ∧
    ((event.instanceLimits.getD []) ≠ [] →
      ∃ summary results, (handler event envRegion world finalTime).2.1
          = .report summary results finalTime ∧
        summary.totalMonitored = (event.instanceLimits.getD []).length) ∧
    ((event.instanceLimits.getD []) = [] →
      (handler event envRegion world finalTime).2.1 = .noInstances 0) ∧
    (∀ (other : Nat → InstanceRun) (i : Nat), other i = world i →
      (handler event envRegion other finalTime).2.1.results[i]?
        = (handler event envRegion world finalTime).2.1.results[i]?) ∧
    (∀ (region : String) (config : LimitConfig) (run : InstanceRun) (msg : String),
      (run.describe = .error msg →
        processInstance region config run
          = (lambdaError config.instanceId msg,
             [Effect.describeInstances region [config.instanceId]])) ∧
      (∀ inst, run.describe = .ok (some inst) → inst.stateName = "running" →
        run.metrics = .error msg →
        (processInstance region config run).1 = lambdaError config.instanceId msg) ∧
      (∀ inst d ds, run.describe = .ok (some inst) → inst.stateName = "running" →
        run.metrics = .ok (some (d :: ds)) → mostRecentCPU d ds > config.cpuLimit →
        config.autoShutdown ≠ some false → run.stop = .error msg →
        (processInstance region config run).1 = lambdaError config.instanceId msg)) := by
  refine ⟨handler_results_length event envRegion world finalTime, ?_, ?_, ?_, ?_, ?_⟩
  · intro i
    rw [handler_results_getElem?]
    cases (event.instanceLimits.getD [])[i]? with
    | none => rfl
    | some c => simp [processInstance_instanceId]
  · intro hne
    have hlen : (event.instanceLimits.getD []).length ≠ 0 :=
      fun h => hne (List.length_eq_zero.mp h)
    unfold handler
    simp only [hlen, if_false]
    exact ⟨_, _, rfl, rfl⟩
  · intro hnil
    unfold handler
    simp [hnil]
  · intro other i hi
    rw [handler_results_getElem?, handler_results_getElem?, hi]
  · intro region config run msg
    refine ⟨?_, ?_, ?_⟩
    · intro h
      unfold processInstance
      simp [h, lambdaError]
    · intro inst hd hrun hm
      unfold processInstance
      simp [hd, hrun, hm, lambdaError]
    · intro inst d ds hd hrun hm hcpu hauto hstop
      have hauto' : config.autoShutdown.getD true = true := by
        cases h : config.autoShutdown with
        | none => rfl
        | some b =>
          cases b with
          | true => rfl
          | false => exact absurd h hauto
      unfold processInstance
      simp [hd, hrun, hm, hcpu, hauto', hstop, lambdaError]

/-- Witness of C28: two entries for `i-002`, the describe call of the first
throws; the first result is `error`, the second is the result the entry gets
on its own. -/
theorem lambda_one_result_per_limit_witness :
    (handler { region := none, instanceLimits := some [configI002, configI002] } none
      worldFirstThrows 9000).2.1.results.length = 2 ∧
    (handler { region := none, instanceLimits := some [configI002, configI002] } none
      worldFirstThrows 9000).2.1.results[1]?
      = (handler { region := none, instanceLimits := some [configI002, configI002] } none
          (fun _ => runI002Busy) 9000).2.1.results[1]? ∧
    processInstance "us-east-1" configI002 (worldFirstThrows 0)
      = (lambdaError "i-002" "RequestLimitExceeded",
         [Effect.describeInstances "us-east-1" ["i-002"]]) :=
  have h := lambda_one_result_per_limit
    { region := none, instanceLimits := some [configI002, configI002] } none
    (fun _ => runI002Busy) 9000
  have h' := lambda_one_result_per_limit
    { region := none, instanceLimits := some [configI002, configI002] } none
    worldFirstThrows 9000
  ⟨h'.1, h.2.2.2.2.1 worldFirstThrows 1 rfl,
   (h.2.2.2.2.2 "us-east-1" configI002 (worldFirstThrows 0) "RequestLimitExceeded").1 rfl⟩

/-! ## `POST /api/monitor-instance`: the decision does not depend on history -/

theorem monitorInstance_breach_action (awsRegion : String) (st : ServerState)
    (req : MonitorRequest) (clock : Nat → Int)
    (stopResult : Except String (Option InstanceStateChange)) (historyOk : Bool)
    (limit : InstanceLimit)
    (hfind : findOne st.instanceLimits req.userId req.instanceId = some limit)
    (hcpu : req.currentCPU > limit.cpuLimit) :
    (monitorInstance awsRegion st req clock stopResult historyOk).2.1.action ≠ "none" := by
  unfold monitorInstance
  rw [hfind]
  simp only [hcpu, if_true]
  split
  · cases stopResult with
    | error msg => simp [MonitorResponse.basic]
    | ok r => cases historyOk <;> simp [MonitorResponse.basic]
  · cases hget : mapGet st.instanceMonitoring (limitKey req.userId req.instanceId) <;>
      simp [MonitorResponse.basic]

theorem runTicks_breaching (awsRegion userId instanceId : String) :
    ∀ (ticks : List TickInput) (st : ServerState) (limit : InstanceLimit),
      findOne st.instanceLimits userId instanceId = some limit →
      (∀ t ∈ ticks, t.req.userId = userId ∧ t.req.instanceId = instanceId ∧
        t.req.currentCPU > limit.cpuLimit) →
      (∃ d, findOne (runTicks awsRegion st ticks).1.instanceLimits userId instanceId = some d ∧
        d.breachCount.getD 0 = limit.breachCount.getD 0 + ticks.length ∧
        d.cpuLimit = limit.cpuLimit ∧ d.autoShutdown = limit.autoShutdown) ∧
      (runTicks awsRegion st ticks).2.length = ticks.length ∧
      ∀ out ∈ (runTicks awsRegion st ticks).2, out.1.action ≠ "none" := by
  intro ticks
  induction ticks with
  | nil =>
    intro st limit hfind _
    exact ⟨⟨limit, hfind, by simp, rfl, rfl⟩, rfl, by simp [runTicks]⟩
  | cons t ts ih =>
    intro st limit hfind hall
    obtain ⟨hu, hi, hcpu⟩ := hall t (List.mem_cons_self _ _)
    have hfind' : findOne st.instanceLimits t.req.userId t.req.instanceId = some limit := by
      rw [hu, hi]; exact hfind
    have hlim := monitorInstance_breach_limits awsRegion st t.req t.clock t.stopResult
      t.historyOk limit hfind' hcpu
    have hact := monitorInstance_breach_action awsRegion st t.req t.clock t.stopResult
      t.historyOk limit hfind' hcpu
    have hnext : findOne (monitorInstance awsRegion st t.req t.clock t.stopResult
        t.historyOk).1.instanceLimits userId instanceId
        = some (recordBreach (t.clock 0) limit) := by
      rw [hlim, hu, hi]
      exact findOne_updateOne _ _ _ (matchesKey_recordBreach _ _ _) _ _ hfind
    obtain ⟨⟨d, hd, hcount, hcl, hauto⟩, hlen, hout⟩ :=
      ih (monitorInstance awsRegion st t.req t.clock t.stopResult t.historyOk).1
        (recordBreach (t.clock 0) limit) hnext
        (fun x hx => hall x (List.mem_cons_of_mem _ hx))
    have hrun : runTicks awsRegion st (t :: ts)
        = ((runTicks awsRegion (monitorInstance awsRegion st t.req t.clock t.stopResult
              t.historyOk).1 ts).1,
           ((monitorInstance awsRegion st t.req t.clock t.stopResult t.historyOk).2.1,
            (monitorInstance awsRegion st t.req t.clock t.stopResult t.historyOk).2.2)
             :: (runTicks awsRegion (monitorInstance awsRegion st t.req t.clock
                  t.stopResult t.historyOk).1 ts).2) := rfl
    rw [hrun]
    refine ⟨⟨d, hd, ?_, hcl, hauto⟩, by simp [hlen], ?_⟩
    · rw [hcount]
      simp only [recordBreach, Option.getD_some, List.length_cons]
      omega
    · intro out hmem
      rcases List.mem_cons.mp hmem with rfl | hmem
      · exact hact
      · exact hout out hmem

/-- C25: the answer of a run of `POST /api/monitor-instance` is the same in
any two states whose stored thresholds for the instance have the same
`cpuLimit` and `autoShutdown`: response and issued calls do not depend on
`breachCount`, `lastBreach`, the in-memory map or any other document.  And
over any number of consecutive ticks that all breach, every tick acts (its
action is not `none`) and the stored `breachCount` rises by the number of
ticks. -/
theorem monitor_decision_is_stateless (awsRegion : String) (st other : ServerState)
    (req : MonitorRequest) (clock : Nat → Int)
    (stopResult : Except String (Option InstanceStateChange)) (historyOk : Bool)
    (limit limit2 : InstanceLimit)
    (h1 : findOne st.instanceLimits req.userId req.instanceId = some limit)
    (h2 : findOne other.instanceLimits req.userId req.instanceId = some limit2)
    (hl : limit2.cpuLimit = limit.cpuLimit) (ha : limit2.autoShutdown = limit.autoShutdown) :
    (monitorInstance awsRegion st req clock stopResult historyOk).2
      = (monitorInstance awsRegion other req clock stopResult historyOk).2 ∧
    (∀ ticks : List TickInput,
      (∀ t ∈ ticks, t.req.userId = req.userId ∧ t.req.instanceId = req.instanceId ∧
        t.req.currentCPU > limit.cpuLimit) →
      (∃ d, findOne (runTicks awsRegion st ticks).1.instanceLimits req.userId
          req.instanceId = some d ∧
        d.breachCount.getD 0 = limit.breachCount.getD 0 + ticks.length) ∧
      (runTicks awsRegion st ticks).2.length = ticks.length ∧
      ∀ out ∈ (runTicks awsRegion st ticks).2, out.1.action ≠ "none") := by
  constructor
  · unfold monitorInstance
    rw [h1, h2]
    simp only [hl, ha]
    by_cases hcpu : req.currentCPU > limit.cpuLimit
    · simp only [hcpu, if_true]
      split
      · cases stopResult with
        | error msg => rfl
        | ok r => cases historyOk <;> rfl
      · cases mapGet st.instanceMonitoring (limitKey req.userId req.instanceId) <;>
          cases mapGet other.instanceMonitoring (limitKey req.userId req.instanceId) <;>
          rfl
    · simp only [hcpu, if_false]
  · intro ticks hall
    obtain ⟨⟨d, hd, hcount, _, _⟩, hlen, hout⟩ :=
      runTicks_breaching awsRegion req.userId req.instanceId ticks st limit h1 hall
    exact ⟨⟨d, hd, hcount⟩, hlen, hout⟩

/-- Witness of C25: the tick for `i-001` without credentials answers the same
on the fresh threshold and on the threshold with three counted breaches and
a tracked alert; three such ticks in a row raise `breachCount` from 0 by 3. -/
theorem monitor_decision_is_stateless_witness :
    (monitorInstance "us-east-1" stateI001 tickI001NoKeys clockFrom5000
        (.ok stopRunningToStopping) true).2
      = (monitorInstance "us-east-1" stateI001Breached tickI001NoKeys clockFrom5000
          (.ok stopRunningToStopping) true).2 ∧
    (∃ d, findOne (runTicks "us-east-1" stateI001
          [tickInputNoKeys clockFrom5000, tickInputNoKeys clockFrom5000,
           tickInputNoKeys clockFrom5000]).1.instanceLimits
          tickI001NoKeys.userId tickI001NoKeys.instanceId = some d ∧
      d.breachCount.getD 0 = limitI001.breachCount.getD 0 + 3) :=
  have h := monitor_decision_is_stateless "us-east-1" stateI001 stateI001Breached
    tickI001NoKeys clockFrom5000 (.ok stopRunningToStopping) true limitI001
    limitI001Breached (by decide) (by decide) rfl rfl
  ⟨h.1, (h.2 [tickInputNoKeys clockFrom5000, tickInputNoKeys clockFrom5000,
      tickInputNoKeys clockFrom5000] (by
        intro t ht
        simp only [List.mem_cons, List.mem_singleton, List.not_mem_nil, or_false,
          or_self] at ht
        rw [ht]
        exact ⟨rfl, rfl, by decide⟩)).1⟩

/-! ## The limit routes: counters and scoping -/

theorem matchesKey_of_fields {userId instanceId : String} {a b : InstanceLimit}
    (hu : a.userId = b.userId) (hi : a.instanceId = b.instanceId) :
    matchesKey userId instanceId a = matchesKey userId instanceId b := by
  simp [matchesKey, hu, hi]

theorem CountsKept_refl (docs : List InstanceLimit) : CountsKept docs docs :=
  fun _ _ d h => ⟨d, h, le_refl _⟩

theorem CountsKept_trans {a b c : List InstanceLimit} (h1 : CountsKept a b)
    (h2 : CountsKept b c) : CountsKept a c := by
  intro u i d hd
  obtain ⟨d2, hd2, hle2⟩ := h1 u i d hd
  obtain ⟨d3, hd3, hle3⟩ := h2 u i d2 hd2
  exact ⟨d3, hd3, le_trans hle2 hle3⟩

theorem CountsKept_updateOne (userId instanceId : String)
    (f : InstanceLimit → InstanceLimit)
    (hf : ∀ d, (f d).userId = d.userId ∧ (f d).instanceId = d.instanceId ∧
      d.breachCount.getD 0 ≤ (f d).breachCount.getD 0) :
    ∀ docs : List InstanceLimit, CountsKept docs (updateOne userId instanceId f docs) := by
  intro docs
  induction docs with
  | nil => intro u i d h; simp [findOne] at h
  | cons x xs ih =>
    intro u i d h
    have hfx : matchesKey u i (f x) = matchesKey u i x :=
      matchesKey_of_fields (hf x).1 (hf x).2.1
    by_cases hx : matchesKey userId instanceId x = true
    · simp only [updateOne, hx, if_true]
      by_cases hux : matchesKey u i x = true
      · have hd : x = d := by simpa [findOne, List.find?, hux] using h
        subst hd
        exact ⟨f x, by simp [findOne, List.find?, hfx, hux], (hf x).2.2⟩
      · have hux' : matchesKey u i x = false := by simpa using hux
        have h' : findOne xs u i = some d := by simpa [findOne, List.find?, hux'] using h
        exact ⟨d, by simpa [findOne, List.find?, hfx, hux'] using h', le_refl _⟩
    · have hx' : matchesKey userId instanceId x = false := by simpa using hx
      simp only [updateOne, hx', Bool.false_eq_true, if_false]
      by_cases hux : matchesKey u i x = true
      · have hd : x = d := by simpa [findOne, List.find?, hux] using h
        subst hd
        exact ⟨x, by simp [findOne, List.find?, hux], le_refl _⟩
      · have hux' : matchesKey u i x = false := by simpa using hux
        have h' : findOne xs u i = some d := by simpa [findOne, List.find?, hux'] using h
        obtain ⟨d2, hd2, hle⟩ := ih u i d h'
        exact ⟨d2, by simpa [findOne, List.find?, hux'] using hd2, hle⟩

theorem CountsKept_append (docs : List InstanceLimit) (fresh : InstanceLimit) :
    CountsKept docs (docs ++ [fresh]) := by
  intro u i d h
  refine ⟨d, ?_, le_refl _⟩
  unfold findOne at h ⊢
  rw [List.find?_append, h]
  rfl

theorem CountsKept_upsertOne (userId instanceId : String)
    (f : InstanceLimit → InstanceLimit) (fresh : InstanceLimit)
    (hf : ∀ d, (f d).userId = d.userId ∧ (f d).instanceId = d.instanceId ∧
      d.breachCount.getD 0 ≤ (f d).breachCount.getD 0)
    (docs : List InstanceLimit) :
    CountsKept docs (upsertOne userId instanceId f fresh docs) := by
  unfold upsertOne
  cases findOne docs userId instanceId with
  | none => exact CountsKept_append docs fresh
  | some d => exact CountsKept_updateOne userId instanceId f hf docs

theorem monitorInstance_limits_cases (awsRegion : String) (st : ServerState)
    (req : MonitorRequest) (clock : Nat → Int)
    (stopResult : Except String (Option InstanceStateChange)) (historyOk : Bool) :
    (monitorInstance awsRegion st req clock stopResult historyOk).1.instanceLimits
        = st.instanceLimits ∨
    (monitorInstance awsRegion st req clock stopResult historyOk).1.instanceLimits
        = updateOne req.userId req.instanceId (recordBreach (clock 0)) st.instanceLimits := by
  cases hfind : findOne st.instanceLimits req.userId req.instanceId with
  | none =>
    left
    unfold monitorInstance
    rw [hfind]
  | some limit =>
    by_cases hcpu : req.currentCPU > limit.cpuLimit
    · right
      exact monitorInstance_breach_limits awsRegion st req clock stopResult historyOk limit
        hfind hcpu
    · left
      unfold monitorInstance
      rw [hfind]
      simp only [hcpu, if_false]
      cases mapHas st.instanceMonitoring (limitKey req.userId req.instanceId) <;> simp

theorem saveInstanceLimit_limits_cases (st : ServerState) (req : SaveLimitRequest)
    (clock : Nat → Int) :
    (saveInstanceLimit st req clock).1.instanceLimits = st.instanceLimits ∨
    ∃ id, (saveInstanceLimit st req clock).1.instanceLimits
        = upsertOne req.userId id (applySave req clock) (freshLimit req id clock)
            st.instanceLimits := by
  unfold saveInstanceLimit
  cases req.instanceId with
  | none => left; rfl
  | some id =>
    simp only []
    by_cases hid : id = ""
    · left; simp [hid]
    · right; exact ⟨id, by simp [hid]⟩

theorem setAutoMonitoring_limits_cases (st : ServerState) (req : AutoMonitorRequest)
    (clock : Nat → Int) :
    (setAutoMonitoring st req clock).1.instanceLimits = st.instanceLimits ∨
    (∃ id, (setAutoMonitoring st req clock).1.instanceLimits
        = upsertOne req.userId id (applyEnable (autoMonitorLimit req.cpuLimit) (clock 0))
            (freshMonitored req.userId id (autoMonitorLimit req.cpuLimit) (clock 0))
            st.instanceLimits) ∨
    ∃ id, (setAutoMonitoring st req clock).1.instanceLimits
        = updateOne req.userId id (applyDisable (clock 0)) st.instanceLimits := by
  unfold setAutoMonitoring
  cases req.instanceId with
  | none => left; rfl
  | some id =>
    simp only []
    by_cases hid : id = ""
    · left; simp [hid]
    · cases hen : req.enabled with
      | true => right; left; exact ⟨id, by simp [hid]⟩
      | false => right; right; exact ⟨id, by simp [hid]⟩

theorem applyOp_countsKept (st : ServerState) (op : LimitOp) (hop : op.isDelete = false) :
    CountsKept st.instanceLimits (applyOp st op).instanceLimits := by
  cases op with
  | delete u i => simp [LimitOp.isDelete] at hop
  | save req clock =>
    rcases saveInstanceLimit_limits_cases st req clock with h | ⟨id, h⟩
    · simp only [applyOp, h]; exact CountsKept_refl _
    · simp only [applyOp, h]
      exact CountsKept_upsertOne req.userId id (applySave req clock) _
        (fun d => ⟨rfl, rfl, le_refl _⟩) _
  | autoMonitor req clock =>
    rcases setAutoMonitoring_limits_cases st req clock with h | ⟨id, h⟩ | ⟨id, h⟩
    · simp only [applyOp, h]; exact CountsKept_refl _
    · simp only [applyOp, h]
      exact CountsKept_upsertOne req.userId id
        (applyEnable (autoMonitorLimit req.cpuLimit) (clock 0)) _
        (fun d => ⟨rfl, rfl, le_refl _⟩) _
    · simp only [applyOp, h]
      exact CountsKept_updateOne req.userId id (applyDisable (clock 0))
        (fun d => ⟨rfl, rfl, le_refl _⟩) _
  | tick awsRegion input =>
    rcases monitorInstance_limits_cases awsRegion st input.req input.clock input.stopResult
      input.historyOk with h | h
    · simp only [applyOp, h]; exact CountsKept_refl _
    · simp only [applyOp, h]
      refine CountsKept_updateOne input.req.userId input.req.instanceId
        (recordBreach (input.clock 0)) (fun d => ⟨rfl, rfl, ?_⟩) _
      simp only [recordBreach, Option.getD_some]
      omega

theorem applyOps_countsKept :
    ∀ (ops : List LimitOp) (st : ServerState), (∀ op ∈ ops, op.isDelete = false) →
      CountsKept st.instanceLimits (applyOps st ops).instanceLimits := by
  intro ops
  induction ops with
  | nil => intro st _; exact CountsKept_refl _
  | cons op rest ih =>
    intro st h
    have h1 := applyOp_countsKept st op (h op (List.mem_cons_self _ _))
    have h2 := ih (applyOp st op) (fun x hx => h x (List.mem_cons_of_mem _ hx))
    exact CountsKept_trans h1 h2

/-- C24: `breachCount` never decreases.  Over every sequence of operations
that are saves of a limit, auto-monitor toggles and monitor ticks with any
CPU value, every document that exists before is still found under its key
afterwards with a `breachCount` (an absent field counting as 0) at least as
large; and a breaching tick raises the `breachCount` of its document by
exactly one. -/
theorem breachCount_never_decreases (st : ServerState) (ops : List LimitOp)
    (hops : ∀ op ∈ ops, op.isDelete = false) :
    (∀ (userId instanceId : String) (d : InstanceLimit),
      findOne st.instanceLimits userId instanceId = some d →
      ∃ d2, findOne (applyOps st ops).instanceLimits userId instanceId = some d2 ∧
        d.breachCount.getD 0 ≤ d2.breachCount.getD 0) ∧
    (∀ (awsRegion : String) (input : TickInput) (limit : InstanceLimit),
      findOne st.instanceLimits input.req.userId input.req.instanceId = some limit →
      input.req.currentCPU > limit.cpuLimit →
      ∃ d2, findOne (applyOp st (.tick awsRegion input)).instanceLimits input.req.userId
          input.req.instanceId = some d2 ∧
        d2.breachCount.getD 0 = limit.breachCount.getD 0 + 1) := by
  refine ⟨applyOps_countsKept ops st hops, ?_⟩
  intro awsRegion input limit hfind hcpu
  refine ⟨recordBreach (input.clock 0) limit, ?_, by simp [recordBreach]⟩
  simp only [applyOp]
  rw [monitorInstance_breach_limits awsRegion st input.req input.clock input.stopResult
    input.historyOk limit hfind hcpu]
  exact findOne_updateOne _ _ _ (matchesKey_recordBreach _ _ _) _ _ hfind

/-- Witness of C24: a save of limit 500, the enabling of auto-monitoring and a
breaching tick applied to the threshold of `i-001` with three counted
breaches. -/
theorem breachCount_never_decreases_witness :
    ∃ d2, findOne (applyOps stateI001Breached
        [.save save500 clockFrom5000, .autoMonitor enableI001 clockFrom5000,
         .tick "us-east-1" (tickInputNoKeys clockFrom5000)]).instanceLimits
        "u1" "i-001" = some d2 ∧
      limitI001Breached.breachCount.getD 0 ≤ d2.breachCount.getD 0 :=
  (breachCount_never_decreases stateI001Breached
    [.save save500 clockFrom5000, .autoMonitor enableI001 clockFrom5000,
     .tick "us-east-1" (tickInputNoKeys clockFrom5000)]
    (by
      intro op hop
      simp only [List.mem_cons, List.mem_singleton, List.not_mem_nil, or_false] at hop
      rcases hop with h | h | h <;> rw [h] <;> rfl)).1 "u1" "i-001" limitI001Breached
    (by decide)

theorem limitsOf_updateOne (userId instanceId other : String)
    (f : InstanceLimit → InstanceLimit) (hf : ∀ d, (f d).userId = d.userId)
    (hne : userId ≠ other) :
    ∀ docs : List InstanceLimit,
      limitsOf (updateOne userId instanceId f docs) other = limitsOf docs other := by
  intro docs
  induction docs with
  | nil => rfl
  | cons x xs ih =>
    by_cases hx : matchesKey userId instanceId x = true
    · have hxu : x.userId = userId := by
        simp only [matchesKey, Bool.and_eq_true, beq_iff_eq] at hx
        exact hx.1
      have h1 : ¬ x.userId = other := by rw [hxu]; exact hne
      have h2 : ¬ (f x).userId = other := by rw [hf x]; exact h1
      simp [updateOne, hx, limitsOf, List.filter_cons, h1, h2]
    · have hx' : matchesKey userId instanceId x = false := by simpa using hx
      simp only [limitsOf] at ih
      simp [updateOne, hx', limitsOf, List.filter_cons, ih]

theorem limitsOf_deleteOne (userId instanceId other : String) (hne : userId ≠ other) :
    ∀ docs : List InstanceLimit,
      limitsOf (deleteOne userId instanceId docs) other = limitsOf docs other := by
  intro docs
  induction docs with
  | nil => rfl
  | cons x xs ih =>
    by_cases hx : matchesKey userId instanceId x = true
    · have hxu : x.userId = userId := by
        simp only [matchesKey, Bool.and_eq_true, beq_iff_eq] at hx
        exact hx.1
      have h1 : ¬ x.userId = other := by rw [hxu]; exact hne
      simp [deleteOne, hx, limitsOf, List.filter_cons, h1]
    · have hx' : matchesKey userId instanceId x = false := by simpa using hx
      simp only [limitsOf] at ih
      simp [deleteOne, hx', limitsOf, List.filter_cons, ih]

theorem limitsOf_upsertOne (userId instanceId other : String)
    (f : InstanceLimit → InstanceLimit) (fresh : InstanceLimit)
    (hf : ∀ d, (f d).userId = d.userId) (hfresh : fresh.userId = userId)
    (hne : userId ≠ other) (docs : List InstanceLimit) :
    limitsOf (upsertOne userId instanceId f fresh docs) other = limitsOf docs other := by
  unfold upsertOne
  cases findOne docs userId instanceId with
  | some d => exact limitsOf_updateOne userId instanceId other f hf hne docs
  | none =>
    have h1 : ¬ fresh.userId = other := by rw [hfresh]; exact hne
    simp [limitsOf, List.filter_append, List.filter_cons, h1]

theorem applyOp_limitsOf (st : ServerState) (op : LimitOp) (other : String)
    (hne : op.userId ≠ other) :
    limitsOf (applyOp st op).instanceLimits other = limitsOf st.instanceLimits other := by
  cases op with
  | delete u i =>
    exact limitsOf_deleteOne u i other hne st.instanceLimits
  | save req clock =>
    rcases saveInstanceLimit_limits_cases st req clock with h | ⟨id, h⟩
    · simp only [applyOp, h]
    · simp only [applyOp, h]
      exact limitsOf_upsertOne req.userId id other (applySave req clock) _ (fun _ => rfl)
        rfl hne _
  | autoMonitor req clock =>
    rcases setAutoMonitoring_limits_cases st req clock with h | ⟨id, h⟩ | ⟨id, h⟩
    · simp only [applyOp, h]
    · simp only [applyOp, h]
      exact limitsOf_upsertOne req.userId id other
        (applyEnable (autoMonitorLimit req.cpuLimit) (clock 0)) _ (fun _ => rfl) rfl hne _
    · simp only [applyOp, h]
      exact limitsOf_updateOne req.userId id other (applyDisable (clock 0)) (fun _ => rfl)
        hne _
  | tick awsRegion input =>
    rcases monitorInstance_limits_cases awsRegion st input.req input.clock input.stopResult
      input.historyOk with h | h
    · simp only [applyOp, h]
    · simp only [applyOp, h]
      exact limitsOf_updateOne input.req.userId input.req.instanceId other
        (recordBreach (input.clock 0)) (fun _ => rfl) hne _

theorem applyOps_limitsOf (other : String) :
    ∀ (ops : List LimitOp) (st : ServerState), (∀ op ∈ ops, op.userId ≠ other) →
      limitsOf (applyOps st ops).instanceLimits other = limitsOf st.instanceLimits other := by
  intro ops
  induction ops with
  | nil => intro st _; rfl
  | cons op rest ih =>
    intro st h
    have h1 := applyOp_limitsOf st op other (h op (List.mem_cons_self _ _))
    have h2 := ih (applyOp st op) (fun x hx => h x (List.mem_cons_of_mem _ hx))
    exact h2.trans h1

/-- C26: threshold documents are scoped by `userId`.  For distinct users `u`
and `v`, every sequence of saves, deletions, auto-monitor toggles and monitor
ticks performed by `u` leaves the list that `GET /api/instance-limits`
returns to `v` as it was; that list is the projection of the documents whose
`userId` is `v`, so none of them is owned by `u`. -/
theorem limits_are_scoped_by_user (st : ServerState) (ops : List LimitOp) (u v : String)
    (huv : u ≠ v) (hops : ∀ op ∈ ops, op.userId = u) :
    getInstanceLimits (applyOps st ops) v = getInstanceLimits st v ∧
    getInstanceLimits (applyOps st ops) v
      = (limitsOf (applyOps st ops).instanceLimits v).map limitView ∧
    (∀ d ∈ limitsOf (applyOps st ops).instanceLimits v, d.userId = v ∧ d.userId ≠ u) := by
  have h := applyOps_limitsOf v ops st (fun op hop => by rw [hops op hop]; exact huv)
  refine ⟨by simp only [getInstanceLimits, h], rfl, ?_⟩
  intro d hd
  have hv : d.userId = v := by
    have := (List.mem_filter.mp hd).2
    simpa using this
  exact ⟨hv, by rw [hv]; exact fun h' => huv h'.symm⟩

/-- Witness of C26: `u1` saves, toggles, ticks and deletes on its threshold;
the list returned to `u2` is unchanged. -/
theorem limits_are_scoped_by_user_witness :
    getInstanceLimits (applyOps stateTwoUsers
        [.save save500 clockFrom5000, .autoMonitor enableI001 clockFrom5000,
         .tick "us-east-1" (tickInputNoKeys clockFrom5000), .delete "u1" "i-001"]) "u2"
      = getInstanceLimits stateTwoUsers "u2" ∧
    getInstanceLimits stateTwoUsers "u2" = [limitView limitU2] :=
  ⟨(limits_are_scoped_by_user stateTwoUsers
      [.save save500 clockFrom5000, .autoMonitor enableI001 clockFrom5000,
       .tick "us-east-1" (tickInputNoKeys clockFrom5000), .delete "u1" "i-001"] "u1" "u2"
      (by decide)
      (by
        intro op hop
        simp only [List.mem_cons, List.mem_singleton, List.not_mem_nil, or_false] at hop
        rcases hop with h | h | h | h <;> rw [h] <;> rfl)).1,
   by decide⟩

/-- C30 on the code: the default for a missing `autoShutdown` differs between
paths.  Enabling auto-monitoring for `i-001` on an empty store inserts a
document without an `autoShutdown` field; `GET /api/monitored-instances`
reports it with `autoShutdown = true` and the lambda, given such an entry,
stops the breaching instance, while `POST /api/monitor-instance`, at 95% CPU
against the limit 80 and with credentials, only alerts and issues no stop
command. -/
theorem autoShutdown_default_differs_between_paths :
    (setAutoMonitoring emptyState enableI001 clockFrom5000).1.instanceLimits
      = [freshMonitored "u1" "i-001" 80 5000] ∧
    (freshMonitored "u1" "i-001" 80 5000).autoShutdown = none ∧
    getMonitoredInstances (setAutoMonitoring emptyState enableI001 clockFrom5000).1 "u1"
      = [{ instanceId := "i-001", cpuLimit := 80, autoShutdown := true }] ∧
    (monitorInstance "us-east-1" (setAutoMonitoring emptyState enableI001 clockFrom5000).1
      tickI001 clockFrom5000 (.ok stopRunningToStopping) true).2.1.action = "alert" ∧
    (monitorInstance "us-east-1" (setAutoMonitoring emptyState enableI001 clockFrom5000).1
      tickI001 clockFrom5000 (.ok stopRunningToStopping) true).2.2 = [] ∧
    (processInstance "us-east-1" configI001NoFlag runI001Hot).1.status = "stopped" := by
  refine ⟨by decide, rfl, by decide, by decide, by decide, by decide⟩

/-! ## The size suggestion helpers -/

/-- C27 on the code: the helpers upsize the smallest size.  `sizeMap[size]`
is 0 for the smallest size, which `|| 3` (EC2) and `|| 2` (RDS) replace by
the fallback rank: `t2.nano` (rank 0) at 3% CPU is answered `t2.micro`
(rank 1) and at 7% CPU `t2.small` (rank 2); `db.t3.micro` (rank 0) at 15% CPU
is answered `db.t3.small` (rank 1). -/
theorem suggestion_upsizes_smallest_size :
    suggestInstanceType "t2.nano" 3 = "t2.micro" ∧
    sizeRank ec2SizeMap "nano" = some 0 ∧ sizeRank ec2SizeMap "micro" = some 1 ∧
    suggestInstanceType "t2.nano" 7 = "t2.small" ∧
    sizeRank ec2SizeMap "small" = some 2 ∧
    suggestRDSInstanceType "db.t3.micro" 15 = "db.t3.small" ∧
    sizeRank rdsSizeMap "micro" = some 0 ∧ sizeRank rdsSizeMap "small" = some 1 := by
  refine ⟨by decide, by decide, by decide, by decide, by decide, by decide, by decide,
    by decide⟩


theorem ec2_rank_roundtrip (k : Nat) (hk : k ≤ 6) :
    sizeRank ec2SizeMap (sizeOfRank ec2SizeMap k) = some k := by
  interval_cases k <;> decide

theorem ec2_rank_of_size (size : String) (r : Nat)
    (hr : sizeRank ec2SizeMap size = some r) :
    r ≤ 6 ∧ sizeOfRank ec2SizeMap r = size := by
  unfold sizeRank at hr
  cases hfind : ec2SizeMap.find? (fun e => e.1 == size) with
  | none => rw [hfind] at hr; simp at hr
  | some e =>
    rw [hfind] at hr
    have hmem := List.mem_of_find?_eq_some hfind
    have hkey := List.find?_some hfind
    simp only [Option.map_some', Option.some.injEq] at hr
    simp only [ec2SizeMap, List.mem_cons, List.mem_singleton, List.not_mem_nil,
      or_false] at hmem
    have hsize : e.1 = size := by simpa using hkey
    subst hsize
    subst hr
    rcases hmem with h | h | h | h | h | h | h <;> subst h <;> decide

/-- For every EC2 size of the table other than `nano`, the suggestion keeps
the family and names a size of the table whose rank is at most the current
rank. -/
theorem suggestFromParts_downsizes (family size : String) (cpuUsage : ℚ) (r : Nat)
    (hr : sizeRank ec2SizeMap size = some r) (hpos : r ≠ 0) :
    ∃ r2, r2 ≤ r ∧
      suggestFromParts [family, size] (family ++ "." ++ size) cpuUsage
        = family ++ "." ++ sizeOfRank ec2SizeMap r2 ∧
      sizeRank ec2SizeMap (sizeOfRank ec2SizeMap r2) = some r2 := by
  obtain ⟨hle, hname⟩ := ec2_rank_of_size size r hr
  by_cases h5 : cpuUsage < 5
  · exact ⟨r - 2, by omega, by simp [suggestFromParts, hr, orDefault, hpos, h5],
      ec2_rank_roundtrip _ (by omega)⟩
  · by_cases h10 : cpuUsage < 10
    · exact ⟨r - 1, by omega, by simp [suggestFromParts, hr, orDefault, hpos, h5, h10],
        ec2_rank_roundtrip _ (by omega)⟩
    · exact ⟨r, le_refl _, by simp [suggestFromParts, h5, h10, hname],
        ec2_rank_roundtrip _ hle⟩

/-! ## The metric fetcher and the EC2 recommendations -/

theorem getCloudWatchMetric_of_message (m : String) :
    getCloudWatchMetric (.error (.object (some m))) = .ok zeroSample := by
  simp only [getCloudWatchMetric, messageIncludes]
  cases includes m "No metrics found" <;> cases includes m "not found" <;> rfl

/-- C21, as the code behaves: when the provider call rejects with a value
that carries no string `message` (here `undefined`, a thrown string and an
object without `message`), `getCloudWatchMetric` itself throws a `TypeError`
from its `catch` block instead of returning the zero-sample result. -/
theorem getCloudWatchMetric_throws_without_message :
    getCloudWatchMetric (.error .nullish)
      = .error "TypeError: Cannot read properties of undefined (reading 'message')" ∧
    getCloudWatchMetric (.error (.primitive "timeout"))
      = .error "TypeError: Cannot read properties of undefined (reading 'includes')" ∧
    getCloudWatchMetric (.error (.object none))
      = .error "TypeError: Cannot read properties of undefined (reading 'includes')" :=
  ⟨rfl, rfl, rfl⟩

/-- C21, amended: for every outcome of the provider call whose thrown value,
if any, is an object with a string `message`, `getCloudWatchMetric` returns a
result and does not throw; the result is the zero-sample result for every
response without datapoints and for every such thrown value. -/
theorem getCloudWatchMetric_zero_sample_on_failure
    (send : Except Thrown (Option (List MetricDatapoint)))
    (hshape : ∀ e, send = .error e → ∃ m, e = .object (some m)) :
    (∃ r, getCloudWatchMetric send = .ok r) ∧
    ((send = .ok none ∨ send = .ok (some []) ∨ ∃ e, send = .error e) →
      getCloudWatchMetric send = .ok zeroSample) := by
  cases send with
  | error e =>
    obtain ⟨m, rfl⟩ := hshape e rfl
    exact ⟨⟨_, getCloudWatchMetric_of_message m⟩, fun _ => getCloudWatchMetric_of_message m⟩
  | ok response =>
    refine ⟨?_, ?_⟩
    · simp only [getCloudWatchMetric]
      split
      · exact ⟨_, rfl⟩
      · exact ⟨_, rfl⟩
    · rintro (h | h | ⟨e, h⟩)
      · cases h; rfl
      · cases h; rfl
      · cases h

theorem getCloudWatchMetric_zero_sample_on_failure_witness :
    (∃ r, getCloudWatchMetric (.error thrownThrottling) = .ok r) ∧
    getCloudWatchMetric (.error thrownThrottling) = .ok zeroSample :=
  have h := getCloudWatchMetric_zero_sample_on_failure (.error thrownThrottling)
    (fun e h => by cases h; exact ⟨"Rate exceeded", rfl⟩)
  ⟨h.1, h.2 (Or.inr (Or.inr ⟨_, rfl⟩))⟩

theorem fetchInstance_zero_datapoints (acc : Ec2Data) (inst : DescribedInstance)
    (run : MetricsRun) (m : MetricResult) (hstate : inst.stateName = "running")
    (hcpu : getCloudWatchMetric run.cpu = .ok m) (hzero : m.datapoints = 0) :
    (fetchInstance acc inst run).underutilized = acc.underutilized := by
  simp only [fetchInstance, hstate, if_true, hcpu]
  cases getCloudWatchMetric run.network with
  | error e => rfl
  | ok n => simp [hzero]

theorem fetchInstance_underutilized (acc : Ec2Data) (inst : DescribedInstance)
    (run : MetricsRun) (u : Underutilized)
    (hu : u ∈ (fetchInstance acc inst run).underutilized) :
    u ∈ acc.underutilized ∨
      (u.id = inst.instanceId ∧ u.type = inst.instanceType ∧
        ((inst.stateName = "stopped" ∧ u.reason = .stopped) ∨
          (inst.stateName = "running" ∧ u.reason = .lowCpu ∧
            ∃ m, getCloudWatchMetric run.cpu = .ok m ∧ 0 < m.datapoints ∧
              m.average < 10 ∧ m.maximum < 30))) := by
  unfold fetchInstance at hu
  by_cases hrun : inst.stateName = "running"
  · simp only [hrun, if_true] at hu
    cases hc : getCloudWatchMetric run.cpu with
    | error e => rw [hc] at hu; exact Or.inl hu
    | ok m =>
      cases hn : getCloudWatchMetric run.network with
      | error e => rw [hc, hn] at hu; exact Or.inl hu
      | ok n =>
        rw [hc, hn] at hu
        simp only [] at hu
        by_cases hd : m.datapoints > 0
        · by_cases hlow : m.average < 10 ∧ m.maximum < 30
          · simp only [hd, hlow, if_true, and_self, List.mem_append, List.mem_singleton] at hu
            rcases hu with h | h
            · exact Or.inl h
            · subst h
              exact Or.inr ⟨rfl, rfl, Or.inr ⟨hrun, rfl, m, rfl, hd, hlow.1, hlow.2⟩⟩
          · simp only [hd, hlow, if_true, if_false] at hu
            exact Or.inl hu
        · simp only [hd, if_false] at hu
          exact Or.inl hu
  · simp only [hrun, if_false] at hu
    by_cases hstop : inst.stateName = "stopped"
    · simp only [hstop, if_true, List.mem_append, List.mem_singleton] at hu
      rcases hu with h | h
      · exact Or.inl h
      · subst h
        exact Or.inr ⟨rfl, rfl, Or.inl ⟨hstop, rfl⟩⟩
    · simp only [hstop, if_false] at hu
      exact Or.inl hu

theorem fetchAll_underutilized (world : Nat → MetricsRun) :
    ∀ (l : List DescribedInstance) (acc : Ec2Data) (k : Nat) (u : Underutilized),
      u ∈ (fetchAll world acc k l).underutilized →
      u ∈ acc.underutilized ∨
        ∃ i inst, l[i]? = some inst ∧ u.id = inst.instanceId ∧ u.type = inst.instanceType ∧
          ((inst.stateName = "stopped" ∧ u.reason = .stopped) ∨
            (inst.stateName = "running" ∧ u.reason = .lowCpu ∧
              ∃ m, getCloudWatchMetric (world (k + i)).cpu = .ok m ∧ 0 < m.datapoints ∧
                m.average < 10 ∧ m.maximum < 30)) := by
  intro l
  induction l with
  | nil => intro acc k u hu; exact Or.inl hu
  | cons inst rest ih =>
    intro acc k u hu
    simp only [fetchAll] at hu
    rcases ih _ _ u hu with h | ⟨i, inst2, hi, hid, hty, hcase⟩
    · rcases fetchInstance_underutilized acc inst (world k) u h with h2 | ⟨hid, hty, hcase⟩
      · exact Or.inl h2
      · exact Or.inr ⟨0, inst, by simp, hid, hty, by simpa using hcase⟩
    · refine Or.inr ⟨i + 1, inst2, by simpa using hi, hid, hty, ?_⟩
      have e : k + 1 + i = k + (i + 1) := by omega
      rw [e] at hcase
      exact hcase

/-- C22: in `fetchEC2Data`, processing a running instance whose CPU snapshot
has zero datapoints leaves `underutilized` unchanged, whatever the instance
type, the network snapshot and the entries collected so far; and every entry
of the returned `underutilized` list stems from a listed instance that is
either stopped, or running with a CPU snapshot of at least one datapoint
whose average is below 10 and maximum below 30. -/
theorem zero_datapoints_never_underutilized :
    (∀ (acc : Ec2Data) (inst : DescribedInstance) (run : MetricsRun) (m : MetricResult),
      inst.stateName = "running" → getCloudWatchMetric run.cpu = .ok m → m.datapoints = 0 →
      (fetchInstance acc inst run).underutilized = acc.underutilized) ∧
    (∀ (describe : Except Thrown (Option (List (Option (List DescribedInstance)))))
      (world : Nat → MetricsRun) (u : Underutilized),
      u ∈ (fetchEC2Data describe world).underutilized →
      ∃ reservations i inst, describe = .ok reservations ∧
        (listedInstances reservations)[i]? = some inst ∧
        u.id = inst.instanceId ∧ u.type = inst.instanceType ∧
        ((inst.stateName = "stopped" ∧ u.reason = .stopped) ∨
          (inst.stateName = "running" ∧ u.reason = .lowCpu ∧
            ∃ m, getCloudWatchMetric (world i).cpu = .ok m ∧ 0 < m.datapoints ∧
              m.average < 10 ∧ m.maximum < 30))) := by
  refine ⟨fetchInstance_zero_datapoints, ?_⟩
  intro describe world u hu
  cases describe with
  | error e => simp [fetchEC2Data, emptyEc2Data] at hu
  | ok reservations =>
    simp only [fetchEC2Data] at hu
    rcases fetchAll_underutilized world _ _ 0 u hu with h | ⟨i, inst, hi, hid, hty, hcase⟩
    · simp [emptyEc2Data] at h
    · exact ⟨reservations, i, inst, rfl, hi, hid, hty, by simpa using hcase⟩

theorem zero_datapoints_never_underutilized_witness :
    (fetchInstance emptyEc2Data describedI001 runNoDatapoints).underutilized = [] ∧
    (fetchEC2Data listingI001 (fun _ => runNoDatapoints)).underutilized = [] :=
  ⟨zero_datapoints_never_underutilized.1 emptyEc2Data describedI001 runNoDatapoints zeroSample
      rfl rfl rfl,
    by decide⟩

/-- C23, as the code behaves: for a running instance whose CPU snapshot has
zero datapoints, `fetchEC2Data` makes no recommendation but stores the
zero-sample result under `metrics`; the client reads its `average` as the CPU
load, so the row carries `cpuAvg = 0`, passes the filter `cpuAvg < 5 && state
=== 'running'` of the low-utilization table and is shown as 0.00%.  The same
row results when `ec2Metrics` has no entry for the instance at all. -/
theorem zero_sample_row_is_listed_as_low_utilization :
    (fetchEC2Data listingI001 (fun _ => runNoDatapoints)).underutilized = [] ∧
    objGet (fetchEC2Data listingI001 (fun _ => runNoDatapoints)).metrics "i-001"
      = some { cpu := zeroSample, network := zeroSample } ∧
    loadInstances (fetchEC2Data listingI001 (fun _ => runNoDatapoints)) = [rowI001Zero] ∧
    lowUtilizationRows (loadInstances (fetchEC2Data listingI001 (fun _ => runNoDatapoints)))
      = [rowI001Zero] ∧
    shownCpu rowI001Zero = some 0 ∧
    loadInstances awsDataNoMetrics = [rowI001Zero] ∧
    lowUtilizationRows (loadInstances awsDataNoMetrics) = [rowI001Zero] := by
  refine ⟨by decide, by decide, by decide, by decide, ?_, by decide, by decide⟩
  simp only [shownCpu, rowI001Zero, toFixed2, Option.map_some', Option.some.injEq]
  norm_num

/-! ## Text generation with model fallback -/

theorem AllFailed_nil (world : GeminiWorld) : AllFailed world [] := by
  intro k m h
  simp at h

theorem AllFailed_snoc (world : GeminiWorld) (l : List (Option String)) (m : Option String)
    (e : GeminiError) (hl : AllFailed world l)
    (hm : world.generateContent l.length m = .error e) : AllFailed world (l ++ [m]) := by
  intro k x hx
  by_cases hk : k < l.length
  · rw [List.getElem?_append_left hk] at hx
    exact hl k x hx
  · have hk2 : l.length ≤ k := Nat.le_of_not_lt hk
    rw [List.getElem?_append_right hk2] at hx
    by_cases h0 : k - l.length = 0
    · rw [h0] at hx
      simp at hx
      subst hx
      have : k = l.length := by omega
      subst this
      exact ⟨e, hm⟩
    · obtain ⟨j, hj⟩ := Nat.exists_eq_succ_of_ne_zero h0
      rw [hj] at hx
      simp at hx

theorem attemptLoop_spec (world : GeminiWorld) (m : Option String) :
    ∀ (r a : Nat) (st : GeminiRun),
      AllFailed world st.requests → FinalErrorIsLast world st →
      (attemptLoop world m r a st).2.triedModels = st.triedModels ∧
      (attemptLoop world m r a st).2.cachedAvailableModels = st.cachedAvailableModels ∧
      (∀ x ∈ (attemptLoop world m r a st).2.requests, x ∈ st.requests ∨ x = m) ∧
      (∀ x, x ≠ m → (attemptLoop world m r a st).2.requests.count x = st.requests.count x) ∧
      (attemptLoop world m r a st).2.requests.count m ≤ st.requests.count m + r ∧
      (match (attemptLoop world m r a st).1 with
       | some text =>
         ∃ earlier, (attemptLoop world m r a st).2.requests = earlier ++ [m] ∧
           AllFailed world earlier ∧ world.generateContent earlier.length m = .ok text ∧
           (attemptLoop world m r a st).2.workingModel = m
       | none =>
         AllFailed world (attemptLoop world m r a st).2.requests ∧
         FinalErrorIsLast world (attemptLoop world m r a st).2 ∧
         ((attemptLoop world m r a st).2.workingModel = st.workingModel ∨
           (attemptLoop world m r a st).2.workingModel = none)) := by
  intro r
  induction r with
  | zero =>
    intro a st hall hfin
    have e : attemptLoop world m 0 a st = (none, st) := rfl
    rw [e]
    exact ⟨rfl, rfl, fun x hx => Or.inl hx, fun _ _ => rfl, Nat.le_refl _, hall, hfin, Or.inl rfl⟩
  | succ r ih =>
    intro a st hall hfin
    cases hgen : world.generateContent st.requests.length m with
    | ok text =>
      have e : attemptLoop world m (r + 1) a st
          = (some text, { st with requests := st.requests ++ [m], workingModel := m }) := by
        simp only [attemptLoop, hgen]
      rw [e]
      refine ⟨rfl, rfl, ?_, ?_, ?_, ?_⟩
      · intro x hx
        simp only [List.mem_append, List.mem_singleton] at hx
        exact hx
      · intro x hx
        simp only [List.count_append, List.count_singleton]
        have : (m == x) = false := by simpa using fun h => hx h.symm
        simp [this]
      · simp only [List.count_append, List.count_singleton]
        simp
      · exact ⟨st.requests, rfl, hall, hgen, rfl⟩
    | error err =>
      have hall2 : AllFailed world (st.requests ++ [m]) := AllFailed_snoc world _ _ err hall hgen
      have hcountx : ∀ x, x ≠ m → (st.requests ++ [m]).count x = st.requests.count x := by
        intro x hx
        simp only [List.count_append, List.count_singleton]
        have : (m == x) = false := by simpa using fun h => hx h.symm
        simp [this]
      have hcountm : (st.requests ++ [m]).count m = st.requests.count m + 1 := by
        simp only [List.count_append, List.count_singleton]
        simp
      by_cases hretry : (isRateLimitError err || isOverloadedError err) = true
      · have e : attemptLoop world m (r + 1) a st
            = attemptLoop world m r (a + 1)
                { st with requests := st.requests ++ [m], finalError := some err,
                          sleeps := st.sleeps ++ [(a + 1) * BASE_RETRY_DELAY_MS] } := by
          simp only [attemptLoop, hgen, hretry, if_true]
        rw [e]
        have h := ih (a + 1)
          { st with requests := st.requests ++ [m], finalError := some err,
                    sleeps := st.sleeps ++ [(a + 1) * BASE_RETRY_DELAY_MS] }
          hall2 (Or.inr ⟨st.requests, m, err, rfl, hgen, rfl⟩)
        obtain ⟨h1, h2, h3, h4, h5, h6⟩ := h
        refine ⟨h1, h2, ?_, ?_, ?_, ?_⟩
        · intro x hx
          rcases h3 x hx with h | h
          · simp only [List.mem_append, List.mem_singleton] at h
            exact h
          · exact Or.inr h
        · intro x hx
          rw [h4 x hx]
          exact hcountx x hx
        · have := h5
          simp only [] at this
          rw [hcountm] at this
          omega
        · exact h6
      · by_cases hmiss : isModelMissingError err = true
        · by_cases hw : st.workingModel = m
          · have e : attemptLoop world m (r + 1) a st
                = (none, { st with requests := st.requests ++ [m], finalError := some err,
                                   workingModel := none }) := by
              simp only [attemptLoop, hgen, hretry, hmiss, hw, if_true]
              simp
            rw [e]
            refine ⟨rfl, rfl, ?_, hcountx, by simp only []; rw [hcountm]; omega, hall2,
              Or.inr ⟨st.requests, m, err, rfl, hgen, rfl⟩, Or.inr rfl⟩
            intro x hx
            simp only [List.mem_append, List.mem_singleton] at hx
            exact hx
          · have e : attemptLoop world m (r + 1) a st
                = (none, { st with requests := st.requests ++ [m], finalError := some err }) := by
              simp only [attemptLoop, hgen, hretry, hmiss, hw, if_true]
              simp
            rw [e]
            refine ⟨rfl, rfl, ?_, hcountx, by simp only []; rw [hcountm]; omega, hall2,
              Or.inr ⟨st.requests, m, err, rfl, hgen, rfl⟩, Or.inl rfl⟩
            intro x hx
            simp only [List.mem_append, List.mem_singleton] at hx
            exact hx
        · have e : attemptLoop world m (r + 1) a st
              = (none, { st with requests := st.requests ++ [m], finalError := some err }) := by
            simp only [attemptLoop, hgen, hretry, hmiss, if_true]
            simp
          rw [e]
          refine ⟨rfl, rfl, ?_, hcountx, by simp only []; rw [hcountm]; omega, hall2,
            Or.inr ⟨st.requests, m, err, rfl, hgen, rfl⟩, Or.inl rfl⟩
          intro x hx
          simp only [List.mem_append, List.mem_singleton] at hx
          exact hx

theorem getAvailableModels_spec (world : GeminiWorld) (names : List (Option String))
    (st : GeminiRun) (hn : GeminiNames world names)
    (hc : ∀ m ∈ st.cachedAvailableModels, some m ∈ names) :
    (∀ m ∈ (getAvailableModels world st).1, some m ∈ names) ∧
    (∀ m ∈ (getAvailableModels world st).2.cachedAvailableModels, some m ∈ names) ∧
    (getAvailableModels world st).2.triedModels = st.triedModels ∧
    (getAvailableModels world st).2.workingModel = st.workingModel ∧
    (getAvailableModels world st).2.finalError = st.finalError ∧
    (getAvailableModels world st).2.requests = st.requests ∧
    (getAvailableModels world st).2.listings.getLast? = some (getAvailableModels world st).1 ∧
    ((getAvailableModels world st).1
        = world.fetchAvailableModels ((getAvailableModels world st).2.listCalls - 1) ∨
      (getAvailableModels world st).1 = (getAvailableModels world st).2.cachedAvailableModels) := by
  unfold getAvailableModels
  simp only []
  split
  · exact ⟨hc, hc, rfl, rfl, rfl, rfl, by simp, Or.inr rfl⟩
  · split
    · exact ⟨hn.1 _, hn.1 _, rfl, rfl, rfl, rfl, by simp, Or.inr rfl⟩
    · exact ⟨hn.1 _, hc, rfl, rfl, rfl, rfl, by simp, Or.inl (by simp)⟩

theorem candidatesOf_subset (envModel : Option String) (availableModels : List String)
    (c : Option String) (hc : c ∈ candidatesOf envModel availableModels) :
    c ∈ MODEL_PRIORITY envModel ∨ ∃ a ∈ availableModels, c = some a := by
  unfold candidatesOf at hc
  split at hc
  · simp only [List.mem_append, List.mem_filter, List.mem_map] at hc
    rcases hc with h | ⟨a, ha, rfl⟩
    · exact Or.inl h.1
    · exact Or.inr ⟨a, ha.1, rfl⟩
  · exact Or.inl hc

theorem selectModel_spec (world : GeminiWorld) (names : List (Option String))
    (st : GeminiRun) (hn : GeminiNames world names)
    (hw : truthyStr st.workingModel = true → st.workingModel ∈ names)
    (hc : ∀ m ∈ st.cachedAvailableModels, some m ∈ names) :
    (∀ m ∈ (selectModel world st).2.cachedAvailableModels, some m ∈ names) ∧
    (selectModel world st).2.triedModels = st.triedModels ∧
    (selectModel world st).2.workingModel = st.workingModel ∧
    (selectModel world st).2.finalError = st.finalError ∧
    (selectModel world st).2.requests = st.requests ∧
    (match (selectModel world st).1 with
     | some m => m ∉ st.triedModels ∧ m ∈ names
     | none =>
       ¬ (truthyStr st.workingModel = true ∧ st.workingModel ∉ st.triedModels) ∧
       ∃ availableModels,
         (selectModel world st).2.listings.getLast? = some availableModels ∧
         (availableModels
             = world.fetchAvailableModels ((selectModel world st).2.listCalls - 1) ∨
           availableModels = (selectModel world st).2.cachedAvailableModels) ∧
         ∀ c ∈ candidatesOf world.envModel availableModels, c ∈ st.triedModels) := by
  by_cases hsel : truthyStr st.workingModel = true ∧ st.workingModel ∉ st.triedModels
  · have e : selectModel world st = (some st.workingModel, st) := by
      simp only [selectModel, hsel, and_self, if_true]
      simp
    rw [e]
    exact ⟨hc, rfl, rfl, rfl, rfl, hsel.2, hw hsel.1⟩
  · obtain ⟨a1, a2, a3, a4, a5, a6, a7, a8⟩ := getAvailableModels_spec world names st hn hc
    cases hcand : (getModelCandidates world st.triedModels st).1 with
    | nil =>
      have e : selectModel world st = (none, (getAvailableModels world st).2) := by
        simp only [selectModel, hsel, if_false, hcand]
        rfl
      rw [e]
      refine ⟨a2, a3, a4, a5, a6, hsel, (getAvailableModels world st).1, a7, a8, ?_⟩
      intro c hcmem
      by_contra hnot
      have : c ∈ (getModelCandidates world st.triedModels st).1 := by
        simp only [getModelCandidates, List.mem_filter]
        exact ⟨hcmem, by simpa using hnot⟩
      rw [hcand] at this
      simp at this
    | cons m rest =>
      have e : selectModel world st = (some m, (getAvailableModels world st).2) := by
        simp only [selectModel, hsel, if_false, hcand]
        rfl
      rw [e]
      have hm : m ∈ (getModelCandidates world st.triedModels st).1 := by
        rw [hcand]; exact List.mem_cons_self _ _
      simp only [getModelCandidates, List.mem_filter] at hm
      refine ⟨a2, a3, a4, a5, a6, by simpa using hm.2, ?_⟩
      rcases candidatesOf_subset _ _ _ hm.1 with h | ⟨a, ha, rfl⟩
      · exact hn.2.1 m h
      · exact a1 a ha

theorem FinalErrorIsLast_congr (world : GeminiWorld) (a b : GeminiRun)
    (hr : b.requests = a.requests) (hf : b.finalError = a.finalError)
    (h : FinalErrorIsLast world a) : FinalErrorIsLast world b := by
  unfold FinalErrorIsLast at *
  rw [hr, hf]
  exact h

theorem attempts_spec (world : GeminiWorld) (names : List (Option String))
    (st : GeminiRun) (hinv : GeminiInv world names st) (m : Option String)
    (hmt : m ∉ st.triedModels) (hmn : m ∈ names) (st1 : GeminiRun)
    (t1 : st1.triedModels = st.triedModels ++ [m]) (t2 : st1.requests = st.requests)
    (t3 : st1.workingModel = st.workingModel) (t4 : st1.finalError = st.finalError)
    (t5 : ∀ x ∈ st1.cachedAvailableModels, some x ∈ names) :
    match (attemptLoop world m MAX_ATTEMPTS_PER_MODEL 0 st1).1 with
    | some text =>
      GeminiPost world names (.ok text) (attemptLoop world m MAX_ATTEMPTS_PER_MODEL 0 st1).2
    | none =>
      GeminiInv world names (attemptLoop world m MAX_ATTEMPTS_PER_MODEL 0 st1).2 ∧
      (attemptLoop world m MAX_ATTEMPTS_PER_MODEL 0 st1).2.triedModels.length
        = st.triedModels.length + 1 := by
  obtain ⟨i1, i2, i3, i4, i5, i6, i7, i8⟩ := hinv
  have hall : AllFailed world st1.requests := by rw [t2]; exact i7
  have hfin : FinalErrorIsLast world st1 := FinalErrorIsLast_congr world st _ t2 t4 i8
  obtain ⟨a1, a2, a3, a4, a5, a6⟩ :=
    attemptLoop_spec world m MAX_ATTEMPTS_PER_MODEL 0 st1 hall hfin
  rw [t1] at a1
  rw [t2] at a3 a4 a5
  rw [t3] at a6
  have hm0 : st.requests.count m = 0 :=
    List.count_eq_zero_of_not_mem (fun h => hmt (i5 m h))
  have hnodup : (st.triedModels ++ [m]).Nodup := by
    rw [List.nodup_append]
    refine ⟨i1, List.nodup_singleton m, ?_⟩
    intro x hx hx2
    simp only [List.mem_singleton] at hx2
    subst hx2
    exact hmt hx
  have hsub : ∀ x ∈ st.triedModels ++ [m], x ∈ names := by
    intro x hx
    simp only [List.mem_append, List.mem_singleton] at hx
    rcases hx with h | h
    · exact i2 x h
    · subst h; exact hmn
  have hcount : ∀ x,
      List.count x (attemptLoop world m MAX_ATTEMPTS_PER_MODEL 0 st1).2.requests
        ≤ MAX_ATTEMPTS_PER_MODEL := by
    intro x
    by_cases hx : x = m
    · subst hx; rw [hm0] at a5; omega
    · rw [a4 x hx]; exact i6 x
  have hreq : ∀ x ∈ (attemptLoop world m MAX_ATTEMPTS_PER_MODEL 0 st1).2.requests,
      x ∈ st.triedModels ++ [m] := by
    intro x hx
    simp only [List.mem_append, List.mem_singleton]
    rcases a3 x hx with h | h
    · exact Or.inl (i5 x h)
    · exact Or.inr h
  cases hatt : (attemptLoop world m MAX_ATTEMPTS_PER_MODEL 0 st1).1 with
  | some text =>
    rw [hatt] at a6
    simp only [] at a6
    obtain ⟨earlier, c1, c2, c3, c4⟩ := a6
    simp only [GeminiPost]
    rw [a1]
    exact ⟨hnodup, hsub, hreq, hcount, earlier, m, c1, c2, c3, c4⟩
  | none =>
    rw [hatt] at a6
    simp only [] at a6
    obtain ⟨b1, b2, b3⟩ := a6
    simp only [GeminiInv]
    rw [a1, a2]
    refine ⟨⟨hnodup, hsub, ?_, t5, hreq, hcount, b1, b2⟩, by simp⟩
    intro ht
    rcases b3 with h | h
    · rw [h] at ht ⊢
      exact i3 ht
    · rw [h] at ht
      simp [truthyStr] at ht

theorem generateStep_spec (world : GeminiWorld) (names : List (Option String))
    (st : GeminiRun) (hn : GeminiNames world names) (hinv : GeminiInv world names st) :
    match (generateStep world st).1 with
    | none =>
      GeminiInv world names (generateStep world st).2 ∧
      (generateStep world st).2.triedModels.length = st.triedModels.length + 1
    | some outcome => GeminiPost world names outcome (generateStep world st).2 := by
  obtain ⟨s1, s2, s3, s4, s5, s6⟩ := selectModel_spec world names st hn hinv.2.2.1 hinv.2.2.2.1
  cases hsel : (selectModel world st).1 with
  | none =>
    obtain ⟨i1, i2, i3, i4, i5, i6, i7, i8⟩ := hinv
    rw [hsel] at s6
    have e : generateStep world st
        = (some (.error ((selectModel world st).2.finalError.getD noWorkingModelsError)),
            (selectModel world st).2) := by
      simp only [generateStep, hsel]
    rw [e]
    obtain ⟨s7, availableModels, s8, s9, s10⟩ := s6
    simp only [GeminiPost]
    rw [s2, s3, s5]
    exact ⟨i1, i2, i5, i6, i7, FinalErrorIsLast_congr world st _ s5 s4 i8, trivial, s7,
      availableModels, s8, s9, s10⟩
  | some m =>
    rw [hsel] at s6
    obtain ⟨hmt, hmn⟩ := s6
    have hgm : world.getGenerativeModel m = none := hn.2.2 m
    have hspec := attempts_spec world names st hinv m hmt hmn
      { (selectModel world st).2 with
          triedModels := (selectModel world st).2.triedModels ++ [m] }
      (by simp only [s2]) s5 s3 s4 s1
    cases hatt : (attemptLoop world m MAX_ATTEMPTS_PER_MODEL 0
        { (selectModel world st).2 with
            triedModels := (selectModel world st).2.triedModels ++ [m] }).1 with
    | some text =>
      rw [hatt] at hspec
      have e : generateStep world st
          = (some (.ok text), (attemptLoop world m MAX_ATTEMPTS_PER_MODEL 0
              { (selectModel world st).2 with
                  triedModels := (selectModel world st).2.triedModels ++ [m] }).2) := by
        simp only [generateStep, hsel, hgm, hatt]
      rw [e]
      exact hspec
    | none =>
      rw [hatt] at hspec
      have e : generateStep world st
          = (none, (attemptLoop world m MAX_ATTEMPTS_PER_MODEL 0
              { (selectModel world st).2 with
                  triedModels := (selectModel world st).2.triedModels ++ [m] }).2) := by
        simp only [generateStep, hsel, hgm, hatt]
      rw [e]
      exact hspec

theorem tried_length_le (names tried : List (Option String)) (hnodup : tried.Nodup)
    (hsub : ∀ m ∈ tried, m ∈ names) : tried.length ≤ names.length :=
  (List.subperm_of_subset hnodup hsub).length_le

theorem generateLoop_spec (world : GeminiWorld) (names : List (Option String))
    (hn : GeminiNames world names) :
    ∀ (fuel : Nat) (st : GeminiRun), GeminiInv world names st →
      names.length < fuel + st.triedModels.length →
      ∃ outcome st1, generateLoop world fuel st = some (outcome, st1) ∧
        GeminiPost world names outcome st1 := by
  intro fuel
  induction fuel with
  | zero =>
    intro st hinv hfuel
    have := tried_length_le names st.triedModels hinv.1 hinv.2.1
    omega
  | succ fuel ih =>
    intro st hinv hfuel
    have hstep := generateStep_spec world names st hn hinv
    rcases hs : generateStep world st with ⟨res, st1⟩
    rw [hs] at hstep
    cases res with
    | some outcome =>
      refine ⟨outcome, st1, ?_, hstep⟩
      simp only [generateLoop, hs]
    | none =>
      obtain ⟨hinv1, hlen⟩ := hstep
      simp only [] at hinv1 hlen
      have hfuel1 : names.length < fuel + st1.triedModels.length := by omega
      obtain ⟨outcome, st2, h1, h2⟩ := ih st1 hinv1 hfuel1
      refine ⟨outcome, st2, ?_, h2⟩
      simp only [generateLoop, hs]
      exact h1

/-- C29, as the code behaves: when `genAI` is unset the call throws
`'Gemini AI not initialized'` at once, with no model selected and no request
issued, although candidates exist and one of them would answer (the same call
with `genAI` set returns that answer). -/
theorem generateWithGemini_throws_before_any_candidate :
    generateWithGemini worldFlashOverloaded 5 runUninitialized
      = some (.error notInitializedError, runUninitialized) ∧
    runUninitialized.triedModels = [] ∧ runUninitialized.requests = [] ∧
    candidatesOf worldFlashOverloaded.envModel []
      = [none, some "gemini-1.5-flash", some "gemini-1.5-pro", some "gemini-1.0-pro"] ∧
    worldFlashOverloaded.generateContent 0 (some "gemini-1.5-pro")
      = .ok "Stop the idle instances." ∧
    (generateWithGemini worldFlashOverloaded 5 runInitialized).map Prod.fst
      = some (.ok "Stop the idle instances.") :=
  ⟨rfl, rfl, rfl, rfl, rfl, rfl⟩

/-- C29, amended: when `genAI` is set, `genAI.getGenerativeModel` does not
throw and every model name the environment supplies lies in a finite list
`names`, a call of `generateWithGemini` ends for every bound `fuel` above
`names.length` on the passes of its outer loop.  The
models it selected are pairwise distinct, requests were issued only for
selected models and at most `MAX_ATTEMPTS_PER_MODEL` for each, and the call
either returns the text of its last request, all earlier requests having
failed, or throws after all requests failed, when `workingModel` is unset or
already tried and every candidate of the final listing has been tried, the
final listing being the list the last call of `getAvailableModels` resolved
to (the list fetched at that call, or the cached list); the thrown error is
that of the last request, or the generic error when no request was
issued. -/
theorem generateWithGemini_bounded_retries
    (world : GeminiWorld) (names : List (Option String)) (st : GeminiRun) (fuel : Nat)
    (hgen : st.genAI = true)
    (hfetch : ∀ k, ∀ m ∈ world.fetchAvailableModels k, some m ∈ names)
    (hprio : ∀ m ∈ MODEL_PRIORITY world.envModel, m ∈ names)
    (hcache : ∀ m ∈ st.cachedAvailableModels, some m ∈ names)
    (hworking : truthyStr st.workingModel = true → st.workingModel ∈ names)
    (hmodel : ∀ m, world.getGenerativeModel m = none)
    (hfuel : names.length < fuel) :
    ∃ outcome st1, generateWithGemini world fuel st = some (outcome, st1) ∧
      st1.triedModels.Nodup ∧
      (∀ m ∈ st1.requests, m ∈ st1.triedModels) ∧
      (∀ m, st1.requests.count m ≤ MAX_ATTEMPTS_PER_MODEL) ∧
      ((∃ text earlier modelName, outcome = .ok text ∧
          st1.requests = earlier ++ [modelName] ∧ AllFailed world earlier ∧
          world.generateContent earlier.length modelName = .ok text) ∨
        (∃ error, outcome = .error error ∧ AllFailed world st1.requests ∧
          FinalErrorIsLast world st1 ∧
          error = st1.finalError.getD noWorkingModelsError ∧
          ¬ (truthyStr st1.workingModel = true ∧ st1.workingModel ∉ st1.triedModels) ∧
          ∃ availableModels, st1.listings.getLast? = some availableModels ∧
            (availableModels = world.fetchAvailableModels (st1.listCalls - 1) ∨
              availableModels = st1.cachedAvailableModels) ∧
            ∀ c ∈ candidatesOf world.envModel availableModels, c ∈ st1.triedModels)) := by
  have hn : GeminiNames world names := ⟨hfetch, hprio, hmodel⟩
  have hinv : GeminiInv world names
      { st with triedModels := [], finalError := none, listCalls := 0, listings := [],
                requests := [], sleeps := [] } :=
    ⟨List.nodup_nil, fun m h => by simp at h, hworking, hcache, fun m h => by simp at h,
      fun m => by simp, AllFailed_nil world, Or.inl ⟨rfl, rfl⟩⟩
  obtain ⟨outcome, st1, h1, h2⟩ := generateLoop_spec world names hn fuel _ hinv
    (by simpa using hfuel)
  refine ⟨outcome, st1, ?_, ?_⟩
  · have e : generateWithGemini world fuel st
        = generateLoop world fuel
            { st with triedModels := [], finalError := none, listCalls := 0, listings := [],
                      requests := [], sleeps := [] } := by
      unfold generateWithGemini
      rw [if_neg (by rw [hgen]; decide)]
    rw [e]
    exact h1
  · obtain ⟨p1, _, p3, p4, p5⟩ := h2
    refine ⟨p1, p3, p4, ?_⟩
    cases outcome with
    | ok text =>
      obtain ⟨earlier, modelName, q1, q2, q3, _⟩ := p5
      exact Or.inl ⟨text, earlier, modelName, rfl, q1, q2, q3⟩
    | error error =>
      obtain ⟨q1, q2, q3, q4, q5⟩ := p5
      exact Or.inr ⟨error, rfl, q1, q2, q3, q4, q5⟩

theorem generateWithGemini_bounded_retries_witness :
    ∃ outcome st1, generateWithGemini worldFlashOverloaded 5 runInitialized
        = some (outcome, st1) ∧
      st1.triedModels.Nodup ∧
      (∀ m ∈ st1.requests, m ∈ st1.triedModels) ∧
      (∀ m, st1.requests.count m ≤ MAX_ATTEMPTS_PER_MODEL) ∧
      ((∃ text earlier modelName, outcome = .ok text ∧
          st1.requests = earlier ++ [modelName] ∧ AllFailed worldFlashOverloaded earlier ∧
          worldFlashOverloaded.generateContent earlier.length modelName = .ok text) ∨
        (∃ error, outcome = .error error ∧ AllFailed worldFlashOverloaded st1.requests ∧
          FinalErrorIsLast worldFlashOverloaded st1 ∧
          error = st1.finalError.getD noWorkingModelsError ∧
          ¬ (truthyStr st1.workingModel = true ∧ st1.workingModel ∉ st1.triedModels) ∧
          ∃ availableModels, st1.listings.getLast? = some availableModels ∧
            (availableModels = worldFlashOverloaded.fetchAvailableModels (st1.listCalls - 1) ∨
              availableModels = st1.cachedAvailableModels) ∧
            ∀ c ∈ candidatesOf worldFlashOverloaded.envModel availableModels,
              c ∈ st1.triedModels)) :=
  generateWithGemini_bounded_retries worldFlashOverloaded
    (MODEL_PRIORITY worldFlashOverloaded.envModel) runInitialized 5 rfl
    (fun _ m h => by simp [worldFlashOverloaded] at h) (fun _ h => h)
    (fun m h => by simp [runInitialized] at h) (fun h => by simp [runInitialized, truthyStr] at h)
    (fun _ => rfl) (by decide)


/-! ## The background pass: two consecutive ticks, any number of users and
instances -/

theorem matchesAlert_instanceId {userId instanceId : String} {r : EmailAlertRecord}
    (h : matchesAlert userId instanceId r = true) : r.instanceId = instanceId := by
  simp only [matchesAlert, Bool.and_eq_true, beq_iff_eq] at h
  exact h.1.2

theorem cooldownDenies_other_instance (b : List EmailAlertRecord)
    (userId instanceId : String) (now : Int) (h : ∀ r ∈ b, r.instanceId ≠ instanceId) :
    cooldownDenies b userId instanceId now = false := by
  cases hc : cooldownDenies b userId instanceId now
  · rfl
  · obtain ⟨x, hx, hm, _⟩ := (cooldownDenies_iff_exists b userId instanceId now).mp hc
    exact absurd (matchesAlert_instanceId hm) (h x hx)

theorem evaluateUntilSend_effects (userSettings : ProductionModeSettings) (userDoc : UserDoc)
    (alerts : List EmailAlertRecord) (inst : Ec2Instance) (region : String)
    (clock : Nat → Int) (metrics : Except String (Option (List Datapoint)))
    (point : BeforeSend) (trace : List Effect)
    (h : evaluateUntilSend userSettings userDoc alerts inst region clock metrics
      = .ok (point, trace)) :
    ∀ e ∈ trace, e.aboutInstance = some inst.instanceId := by
  unfold evaluateUntilSend at h
  simp only [] at h
  split at h
  · cases h; intro e he; simp at he
  · split at h
    · cases h; intro e he; simp at he
    · cases metrics with
      | error msg => simp at h
      | ok dps =>
        simp only [] at h
        split at h
        · cases h
          intro e he
          simp only [List.mem_singleton] at he
          subst he; rfl
        · split at h
          · cases h
            intro e he
            simp only [List.mem_append, List.mem_singleton] at he
            rcases he with he | he <;> subst he <;> rfl
          · cases h
            intro e he
            simp only [List.mem_singleton] at he
            subst he; rfl

theorem evaluateUntilSend_throws (userSettings : ProductionModeSettings) (userDoc : UserDoc)
    (alerts : List EmailAlertRecord) (inst : Ec2Instance) (region : String)
    (clock : Nat → Int) (metrics : Except String (Option (List Datapoint))) (msg : String)
    (h : evaluateUntilSend userSettings userDoc alerts inst region clock metrics
      = .error msg) :
    metrics = .error msg := by
  unfold evaluateUntilSend at h
  simp only [] at h
  split at h
  · cases h
  · split at h
    · cases h
    · cases metrics with
      | error m => simp only [Except.error.injEq] at h; rw [h]
      | ok dps =>
        simp only [] at h
        split at h
        · cases h
        · split at h <;> cases h

theorem evaluateInstanceRun_shape (st : ServerState) (userSettings : ProductionModeSettings)
    (userDoc : UserDoc) (inst : Ec2Instance) (region : String) (run : InstanceEval) :
    (∃ added : List EmailAlertRecord,
      (evaluateInstanceRun st userSettings userDoc inst region run).1.emailAlertHistory
        = st.emailAlertHistory ++ added ∧
      ∀ r ∈ added, r.userId = userSettings.userId ∧ r.instanceId = inst.instanceId) ∧
    (∀ e ∈ (evaluateInstanceRun st userSettings userDoc inst region run).2.1,
      e.aboutInstance = some inst.instanceId) ∧
    ((∃ m, run.metrics = .ok m) → (∃ b, run.emailResponse = .ok b) →
      (evaluateInstanceRun st userSettings userDoc inst region run).2.2 = none) := by
  unfold evaluateInstanceRun
  cases hres : evaluateUntilSend userSettings userDoc st.emailAlertHistory inst region
      run.clock run.metrics with
  | error msg =>
    have hm := evaluateUntilSend_throws _ _ _ _ _ _ _ _ hres
    refine ⟨⟨[], by simp, by simp⟩, ?_, ?_⟩
    · intro e he
      simp only [List.mem_singleton] at he
      subst he; rfl
    · rintro ⟨m, hok⟩ _
      rw [hm] at hok
      cases hok
  | ok res =>
    obtain ⟨point, trace⟩ := res
    have heff := evaluateUntilSend_effects _ _ _ _ _ _ _ _ _ hres
    cases point with
    | emailDisabled => exact ⟨⟨[], by simp, by simp⟩, heff, fun _ _ => rfl⟩
    | cooldown => exact ⟨⟨[], by simp, by simp⟩, heff, fun _ _ => rfl⟩
    | noMetrics => exact ⟨⟨[], by simp, by simp⟩, heff, fun _ _ => rfl⟩
    | notLow avg => exact ⟨⟨[], by simp, by simp⟩, heff, fun _ _ => rfl⟩
    | sending instanceName avg =>
      cases hresp : run.emailResponse with
      | error msg =>
        refine ⟨⟨[], by simp [completeSend], by simp⟩, by simpa [completeSend] using heff, ?_⟩
        rintro _ ⟨b, hb⟩
        cases hb
      | ok accepted =>
        cases accepted with
        | false =>
          exact ⟨⟨[], by simp [completeSend], by simp⟩, by simpa [completeSend] using heff,
            fun _ _ => by simp [completeSend]⟩
        | true =>
          refine ⟨⟨[sentRecord userSettings inst instanceName avg run.clock],
            by simp [completeSend], ?_⟩, by simpa [completeSend] using heff,
            fun _ _ => by simp [completeSend]⟩
          intro r hr
          rw [List.mem_singleton.mp hr]
          exact ⟨rfl, rfl⟩

theorem evaluateAll_shape (userSettings : ProductionModeSettings) (userDoc : UserDoc)
    (evals : Nat → InstanceEval) :
    ∀ (instances : List (Ec2Instance × String)) (k : Nat) (st : ServerState),
      (∃ added : List EmailAlertRecord,
        (evaluateAll userSettings userDoc evals k instances st).1.emailAlertHistory
          = st.emailAlertHistory ++ added ∧
        ∀ r ∈ added, r.userId = userSettings.userId ∧
          ∃ p ∈ instances, r.instanceId = p.1.instanceId) ∧
      (∀ e ∈ (evaluateAll userSettings userDoc evals k instances st).2.1,
        ∃ p ∈ instances, e.aboutInstance = some p.1.instanceId) ∧
      ((∀ j, j < instances.length →
          (∃ m, (evals (k + j)).metrics = .ok m) ∧
          ∃ b, (evals (k + j)).emailResponse = .ok b) →
        (evaluateAll userSettings userDoc evals k instances st).2.2 = none) := by
  intro instances
  induction instances with
  | nil =>
    intro k st
    refine ⟨⟨[], by simp [evaluateAll], by simp⟩, ?_, fun _ => rfl⟩
    intro e he
    simp [evaluateAll] at he
  | cons p rest ih =>
    intro k st
    obtain ⟨inst, region⟩ := p
    obtain ⟨⟨added, ha, hids⟩, heff, hok⟩ :=
      evaluateInstanceRun_shape st userSettings userDoc inst region (evals k)
    rcases hrs : evaluateInstanceRun st userSettings userDoc inst region (evals k)
      with ⟨s1, tr, err⟩
    rw [hrs] at ha heff hok
    simp only [] at ha heff hok
    cases err with
    | some msg =>
      have es : evaluateAll userSettings userDoc evals k ((inst, region) :: rest) st
          = (s1, tr, some msg) := by simp only [evaluateAll, hrs]
      rw [es]
      refine ⟨⟨added, ha, ?_⟩, ?_, ?_⟩
      · intro r hr
        exact ⟨(hids r hr).1, (inst, region), List.mem_cons_self _ _, (hids r hr).2⟩
      · intro e he
        exact ⟨(inst, region), List.mem_cons_self _ _, heff e he⟩
      · intro hall
        have h0 := hall 0 (by simp)
        simp only [Nat.add_zero] at h0
        have := hok h0.1 h0.2
        cases this
    | none =>
      obtain ⟨⟨added2, ha2, hids2⟩, heff2, hok2⟩ := ih (k + 1) s1
      rcases hrs2 : evaluateAll userSettings userDoc evals (k + 1) rest s1
        with ⟨s2, tr2, err2⟩
      rw [hrs2] at ha2 heff2 hok2
      simp only [] at ha2 heff2 hok2
      have es : evaluateAll userSettings userDoc evals k ((inst, region) :: rest) st
          = (s2, tr ++ tr2, err2) := by simp only [evaluateAll, hrs, hrs2]
      rw [es]
      refine ⟨⟨added ++ added2, by rw [ha2, ha, List.append_assoc], ?_⟩, ?_, ?_⟩
      · intro r hr
        rcases List.mem_append.mp hr with hr | hr
        · exact ⟨(hids r hr).1, (inst, region), List.mem_cons_self _ _, (hids r hr).2⟩
        · obtain ⟨h1, q, hq, h2⟩ := hids2 r hr
          exact ⟨h1, q, List.mem_cons_of_mem _ hq, h2⟩
      · intro e he
        rcases List.mem_append.mp he with he | he
        · exact ⟨(inst, region), List.mem_cons_self _ _, heff e he⟩
        · obtain ⟨q, hq, h2⟩ := heff2 e he
          exact ⟨q, List.mem_cons_of_mem _ hq, h2⟩
      · intro hall
        apply hok2
        intro j hj
        have := hall (j + 1) (by simp; omega)
        rw [show k + (j + 1) = k + 1 + j by omega] at this
        exact this

theorem evaluateAll_append (userSettings : ProductionModeSettings) (userDoc : UserDoc)
    (evals : Nat → InstanceEval) :
    ∀ (xs ys : List (Ec2Instance × String)) (k : Nat) (st : ServerState),
      (evaluateAll userSettings userDoc evals k xs st).2.2 = none →
      evaluateAll userSettings userDoc evals k (xs ++ ys) st
        = ((evaluateAll userSettings userDoc evals (k + xs.length) ys
              (evaluateAll userSettings userDoc evals k xs st).1).1,
           (evaluateAll userSettings userDoc evals k xs st).2.1 ++
             (evaluateAll userSettings userDoc evals (k + xs.length) ys
               (evaluateAll userSettings userDoc evals k xs st).1).2.1,
           (evaluateAll userSettings userDoc evals (k + xs.length) ys
              (evaluateAll userSettings userDoc evals k xs st).1).2.2) := by
  intro xs
  induction xs with
  | nil =>
    intro ys k st _
    simp [evaluateAll]
  | cons p rest ih =>
    intro ys k st hnone
    obtain ⟨inst, region⟩ := p
    rcases hrs : evaluateInstanceRun st userSettings userDoc inst region (evals k)
      with ⟨s1, tr, err⟩
    cases err with
    | some msg =>
      have es : evaluateAll userSettings userDoc evals k ((inst, region) :: rest) st
          = (s1, tr, some msg) := by simp only [evaluateAll, hrs]
      rw [es] at hnone
      cases hnone
    | none =>
      rcases hrs2 : evaluateAll userSettings userDoc evals (k + 1) rest s1
        with ⟨s2, tr2, err2⟩
      have es : evaluateAll userSettings userDoc evals k ((inst, region) :: rest) st
          = (s2, tr ++ tr2, err2) := by simp only [evaluateAll, hrs, hrs2]
      rw [es] at hnone
      simp only [] at hnone
      subst hnone
      have hih := ih ys (k + 1) s1 (by rw [hrs2])
      rw [hrs2] at hih
      simp only [] at hih
      have el : evaluateAll userSettings userDoc evals k ((inst, region) :: rest ++ ys) st
          = ((evaluateAll userSettings userDoc evals (k + 1 + rest.length) ys s2).1,
             tr ++ (tr2 ++ (evaluateAll userSettings userDoc evals (k + 1 + rest.length)
               ys s2).2.1),
             (evaluateAll userSettings userDoc evals (k + 1 + rest.length) ys s2).2.2) := by
        simp only [List.cons_append, evaluateAll, hrs]
        rw [show rest.append ys = rest ++ ys from rfl, hih]
      rw [el, es]
      simp only [List.length_cons, List.append_assoc]
      rw [show k + (rest.length + 1) = k + 1 + rest.length by omega]

theorem evaluateInstanceRun_denied (st : ServerState) (userSettings : ProductionModeSettings)
    (userDoc : UserDoc) (inst : Ec2Instance) (region : String) (run : InstanceEval)
    (hgate : cooldownDenies st.emailAlertHistory userSettings.userId inst.instanceId
      (run.clock 0) = true) :
    evaluateInstanceRun st userSettings userDoc inst region run = (st, [], none) := by
  by_cases hopt : emailEnabledOf userSettings inst.instanceId = some false
  · unfold evaluateInstanceRun evaluateUntilSend
    simp [hopt]
  · exact evaluateInstanceRun_cooldown st userSettings userDoc inst region run hopt hgate

theorem filter_append_unmatched (userId instanceId : String)
    (alerts added : List EmailAlertRecord)
    (h : ∀ r ∈ added, matchesAlert userId instanceId r = false) :
    (alerts ++ added).filter (matchesAlert userId instanceId)
      = alerts.filter (matchesAlert userId instanceId) := by
  rw [List.filter_append]
  have : added.filter (matchesAlert userId instanceId) = [] := by
    rw [List.filter_eq_nil_iff]
    intro r hr
    rw [h r hr]
    simp
  rw [this, List.append_nil]

theorem evaluateInstanceRun_keeps (st : ServerState) (userSettings : ProductionModeSettings)
    (userDoc : UserDoc) (inst : Ec2Instance) (region : String) (run : InstanceEval)
    (userId instanceId : String) (record : EmailAlertRecord)
    (hrec : record ∈ st.emailAlertHistory)
    (hmatch : matchesAlert userId instanceId record = true)
    (hsoon : run.clock 0 - 60 * 60 * 1000 < record.timestamp) :
    record ∈ (evaluateInstanceRun st userSettings userDoc inst region run).1.emailAlertHistory ∧
    (evaluateInstanceRun st userSettings userDoc inst region run).1.emailAlertHistory.filter
        (matchesAlert userId instanceId)
      = st.emailAlertHistory.filter (matchesAlert userId instanceId) ∧
    (userSettings.userId = userId →
      ∀ e ∈ (evaluateInstanceRun st userSettings userDoc inst region run).2.1,
        e.aboutInstance ≠ some instanceId) := by
  by_cases hsame : userSettings.userId = userId ∧ inst.instanceId = instanceId
  · have hgate : cooldownDenies st.emailAlertHistory userSettings.userId inst.instanceId
        (run.clock 0) = true := by
      rw [cooldownDenies_iff_exists, hsame.1, hsame.2]
      exact ⟨record, hrec, hmatch, hsoon⟩
    rw [evaluateInstanceRun_denied st userSettings userDoc inst region run hgate]
    exact ⟨hrec, rfl, fun _ e he => by simp at he⟩
  · obtain ⟨⟨added, ha, hids⟩, heff, _⟩ :=
      evaluateInstanceRun_shape st userSettings userDoc inst region run
    rw [ha]
    refine ⟨List.mem_append_left _ hrec, ?_, ?_⟩
    · apply filter_append_unmatched
      intro r hr
      cases hm : matchesAlert userId instanceId r
      · rfl
      · exfalso
        apply hsame
        exact ⟨(hids r hr).1.symm.trans (matchesAlert_userId hm),
          (hids r hr).2.symm.trans (matchesAlert_instanceId hm)⟩
    · intro hu e he heq
      rw [heff e he] at heq
      simp only [Option.some.injEq] at heq
      exact hsame ⟨hu, heq⟩

theorem evaluateAll_keeps (userSettings : ProductionModeSettings) (userDoc : UserDoc)
    (evals : Nat → InstanceEval) (userId instanceId : String) (record : EmailAlertRecord)
    (hmatch : matchesAlert userId instanceId record = true)
    (hsoon : ∀ k, (evals k).clock 0 - 60 * 60 * 1000 < record.timestamp) :
    ∀ (instances : List (Ec2Instance × String)) (k : Nat) (st : ServerState),
      record ∈ st.emailAlertHistory →
      record ∈ (evaluateAll userSettings userDoc evals k instances st).1.emailAlertHistory ∧
      (evaluateAll userSettings userDoc evals k instances st).1.emailAlertHistory.filter
          (matchesAlert userId instanceId)
        = st.emailAlertHistory.filter (matchesAlert userId instanceId) ∧
      (userSettings.userId = userId →
        ∀ e ∈ (evaluateAll userSettings userDoc evals k instances st).2.1,
          e.aboutInstance ≠ some instanceId) := by
  intro instances
  induction instances with
  | nil =>
    intro k st hrec
    exact ⟨hrec, rfl, fun _ e he => by simp [evaluateAll] at he⟩
  | cons p rest ih =>
    intro k st hrec
    obtain ⟨inst, region⟩ := p
    obtain ⟨h1, h2, h3⟩ := evaluateInstanceRun_keeps st userSettings userDoc inst region
      (evals k) userId instanceId record hrec hmatch (hsoon k)
    rcases hrs : evaluateInstanceRun st userSettings userDoc inst region (evals k)
      with ⟨s1, tr, err⟩
    rw [hrs] at h1 h2 h3
    simp only [] at h1 h2 h3
    cases err with
    | some msg =>
      have es : evaluateAll userSettings userDoc evals k ((inst, region) :: rest) st
          = (s1, tr, some msg) := by simp only [evaluateAll, hrs]
      rw [es]
      exact ⟨h1, h2, h3⟩
    | none =>
      obtain ⟨g1, g2, g3⟩ := ih (k + 1) s1 h1
      rcases hrs2 : evaluateAll userSettings userDoc evals (k + 1) rest s1
        with ⟨s2, tr2, err2⟩
      rw [hrs2] at g1 g2 g3
      simp only [] at g1 g2 g3
      have es : evaluateAll userSettings userDoc evals k ((inst, region) :: rest) st
          = (s2, tr ++ tr2, err2) := by simp only [evaluateAll, hrs, hrs2]
      rw [es]
      refine ⟨g1, g2.trans h2, ?_⟩
      intro hu e he
      rcases List.mem_append.mp he with he | he
      · exact h3 hu e he
      · exact g3 hu e he

theorem processUser_keeps (st : ServerState) (userSettings : ProductionModeSettings)
    (run : UserRun) (userId instanceId : String) (record : EmailAlertRecord)
    (hrec : record ∈ st.emailAlertHistory)
    (hmatch : matchesAlert userId instanceId record = true)
    (hsoon : ∀ k, (run.instanceEval k).clock 0 - 60 * 60 * 1000 < record.timestamp) :
    record ∈ (processUser st userSettings run).1.emailAlertHistory ∧
    (processUser st userSettings run).1.emailAlertHistory.filter
        (matchesAlert userId instanceId)
      = st.emailAlertHistory.filter (matchesAlert userId instanceId) ∧
    (userSettings.userId = userId →
      ∀ e ∈ (processUser st userSettings run).2.trace, e.aboutInstance ≠ some instanceId) := by
  have trivialCase : ∀ (rep : UserReport), rep.trace = [] ∨ rep.trace = [Effect.getCallerIdentity] →
      record ∈ ((st, rep) : ServerState × UserReport).1.emailAlertHistory ∧
      ((st, rep) : ServerState × UserReport).1.emailAlertHistory.filter
          (matchesAlert userId instanceId)
        = st.emailAlertHistory.filter (matchesAlert userId instanceId) ∧
      (userSettings.userId = userId →
        ∀ e ∈ ((st, rep) : ServerState × UserReport).2.trace,
          e.aboutInstance ≠ some instanceId) := by
    intro rep hrep
    refine ⟨hrec, rfl, ?_⟩
    intro _ e he
    rcases hrep with h | h
    · rw [h] at he; simp at he
    · rw [h] at he
      simp only [List.mem_singleton] at he
      subst he
      simp [Effect.aboutInstance]
  unfold processUser
  cases run.userDoc with
  | error msg => exact trivialCase _ (Or.inl rfl)
  | ok doc =>
    cases doc with
    | none => exact trivialCase _ (Or.inl rfl)
    | some userDoc =>
      simp only []
      split
      · exact trivialCase _ (Or.inl rfl)
      · cases run.credentials with
        | none => exact trivialCase _ (Or.inl rfl)
        | some credentials =>
          simp only []
          split
          · exact trivialCase _ (Or.inr rfl)
          · obtain ⟨g1, g2, g3⟩ := evaluateAll_keeps userSettings userDoc run.instanceEval
              userId instanceId record hmatch hsoon
              (scanRegions run.describe regionsToCheck) 0 st hrec
            rcases hrs : evaluateAll userSettings userDoc run.instanceEval 0
              (scanRegions run.describe regionsToCheck) st with ⟨s1, tr, err⟩
            rw [hrs] at g1 g2 g3
            simp only [] at g1 g2 g3
            have hpre : ∀ e ∈ [Effect.getCallerIdentity] ++
                regionsToCheck.map (fun r => Effect.describeInstances r []) ++ tr,
                userSettings.userId = userId → e.aboutInstance ≠ some instanceId := by
              intro e he hu
              simp only [regionsToCheck, List.map_cons, List.map_nil, List.mem_append,
                List.mem_cons, List.mem_singleton, List.not_mem_nil, or_false] at he
              rcases he with (he | he | he) | he
              · subst he; simp [Effect.aboutInstance]
              · subst he; simp [Effect.aboutInstance]
              · subst he; simp [Effect.aboutInstance]
              · exact g3 hu e he
            cases err with
            | none => exact ⟨g1, g2, fun hu e he => hpre e he hu⟩
            | some msg => exact ⟨g1, g2, fun hu e he => hpre e he hu⟩

theorem passUsers_keeps (userId instanceId : String) (record : EmailAlertRecord)
    (hmatch : matchesAlert userId instanceId record = true) :
    ∀ (users : List (ProductionModeSettings × UserRun)) (st : ServerState),
      record ∈ st.emailAlertHistory →
      (∀ p ∈ users, ∀ k, (p.2.instanceEval k).clock 0 - 60 * 60 * 1000 < record.timestamp) →
      record ∈ (passUsers st users).1.emailAlertHistory ∧
      (passUsers st users).1.emailAlertHistory.filter (matchesAlert userId instanceId)
        = st.emailAlertHistory.filter (matchesAlert userId instanceId) ∧
      ∀ report ∈ (passUsers st users).2, report.userId = userId →
        ∀ e ∈ report.trace, e.aboutInstance ≠ some instanceId := by
  intro users
  induction users with
  | nil =>
    intro st hrec _
    exact ⟨hrec, rfl, fun r hr => by simp [passUsers] at hr⟩
  | cons p rest ih =>
    intro st hrec hsoon
    obtain ⟨userSettings, run⟩ := p
    obtain ⟨h1, h2, h3⟩ := processUser_keeps st userSettings run userId instanceId record
      hrec hmatch (hsoon _ (List.mem_cons_self _ _))
    have hid := processUser_report_userId st userSettings run
    rcases hrs : processUser st userSettings run with ⟨s1, rep⟩
    rw [hrs] at h1 h2 h3 hid
    simp only [] at h1 h2 h3 hid
    obtain ⟨g1, g2, g3⟩ := ih s1 h1 (fun q hq => hsoon q (List.mem_cons_of_mem _ hq))
    rcases hrs2 : passUsers s1 rest with ⟨s2, reps⟩
    rw [hrs2] at g1 g2 g3
    simp only [] at g1 g2 g3
    have es : passUsers st ((userSettings, run) :: rest) = (s2, rep :: reps) := by
      simp only [passUsers, hrs, hrs2]
    rw [es]
    refine ⟨g1, g2.trans h2, ?_⟩
    intro report hr hu
    rcases List.mem_cons.mp hr with hr | hr
    · subst hr
      exact h3 (hid.symm.trans hu)
    · exact g3 report hr hu

theorem withRuns_mem (world : Nat → UserRun) :
    ∀ (users : List ProductionModeSettings) (start : Nat)
      (p : ProductionModeSettings × UserRun),
      p ∈ withRuns world start users → ∃ j, p.2 = world j := by
  intro users
  induction users with
  | nil => intro start p hp; simp [withRuns] at hp
  | cons u us ih =>
    intro start p hp
    simp only [withRuns, List.mem_cons] at hp
    rcases hp with hp | hp
    · exact ⟨start, by rw [hp]⟩
    · exact ih (start + 1) p hp

/-- A pass that starts with an alert record for (`userId`, `instanceId`) less
than 60 minutes old at every gate reading keeps the record, inserts no
further record for that pair and, for that user, issues no metric call and no
mail request about that instance. -/
theorem pass_keeps_cooldown (st : ServerState) (currentHour : Nat)
    (productionModeSettings : List ProductionModeSettings) (world : Nat → UserRun)
    (userId instanceId : String) (record : EmailAlertRecord)
    (hrec : record ∈ st.emailAlertHistory)
    (hmatch : matchesAlert userId instanceId record = true)
    (hsoon : ∀ j k, ((world j).instanceEval k).clock 0 - 60 * 60 * 1000 < record.timestamp) :
    record ∈ (monitorLowUtilizationInstances st currentHour productionModeSettings
      world).1.emailAlertHistory ∧
    (monitorLowUtilizationInstances st currentHour productionModeSettings
        world).1.emailAlertHistory.filter (matchesAlert userId instanceId)
      = st.emailAlertHistory.filter (matchesAlert userId instanceId) ∧
    ∀ report ∈ (monitorLowUtilizationInstances st currentHour productionModeSettings world).2,
      report.userId = userId → ∀ e ∈ report.trace, e.aboutInstance ≠ some instanceId := by
  by_cases hin : 6 ≤ currentHour ∧ currentHour ≤ 22
  · rw [pass_inside_hours st productionModeSettings world currentHour hin.1 hin.2]
    apply passUsers_keeps userId instanceId record hmatch _ st hrec
    intro p hp k
    obtain ⟨j, hj⟩ := withRuns_mem world _ 0 p hp
    rw [hj]
    exact hsoon j k
  · rw [pass_outside_hours st productionModeSettings world currentHour (by omega)]
    exact ⟨hrec, rfl, fun r hr => by simp at hr⟩

theorem passUsers_added :
    ∀ (users : List (ProductionModeSettings × UserRun)) (st : ServerState),
      ∃ added : List EmailAlertRecord,
        (passUsers st users).1.emailAlertHistory = st.emailAlertHistory ++ added ∧
        ∀ r ∈ added, ∃ p ∈ users, r.userId = p.1.userId := by
  intro users
  induction users with
  | nil => intro st; exact ⟨[], by simp [passUsers], by simp⟩
  | cons p rest ih =>
    intro st
    obtain ⟨userSettings, run⟩ := p
    obtain ⟨_, added, hs, _, hids⟩ :=
      processUser_rel st st userSettings run (fun _ _ => rfl)
    rcases hrs : processUser st userSettings run with ⟨s1, rep⟩
    rw [hrs] at hs
    simp only [] at hs
    obtain ⟨added2, hs2, hids2⟩ := ih s1
    rcases hrs2 : passUsers s1 rest with ⟨s2, reps⟩
    rw [hrs2] at hs2
    simp only [] at hs2
    have es : passUsers st ((userSettings, run) :: rest) = (s2, rep :: reps) := by
      simp only [passUsers, hrs, hrs2]
    rw [es]
    refine ⟨added ++ added2, by rw [hs2, hs, List.append_assoc], ?_⟩
    intro r hr
    rcases List.mem_append.mp hr with hr | hr
    · exact ⟨(userSettings, run), List.mem_cons_self _ _, hids r hr⟩
    · obtain ⟨q, hq, h⟩ := hids2 r hr
      exact ⟨q, List.mem_cons_of_mem _ hq, h⟩

theorem passUsers_length (users : List (ProductionModeSettings × UserRun))
    (st : ServerState) : (passUsers st users).2.length = users.length := by
  have h := congrArg List.length (passUsers_report_userIds users st)
  simpa using h

theorem withRuns_append (world : Nat → UserRun) :
    ∀ (xs ys : List ProductionModeSettings) (start : Nat),
      withRuns world start (xs ++ ys)
        = withRuns world start xs ++ withRuns world (start + xs.length) ys := by
  intro xs
  induction xs with
  | nil => intro ys start; simp [withRuns]
  | cons x rest ih =>
    intro ys start
    simp only [List.cons_append, withRuns, List.length_cons]
    rw [show rest.append ys = rest ++ ys from rfl, ih ys (start + 1)]
    rw [show start + 1 + rest.length = start + (rest.length + 1) by omega]

theorem withRuns_length (world : Nat → UserRun) :
    ∀ (xs : List ProductionModeSettings) (start : Nat),
      (withRuns world start xs).length = xs.length := by
  intro xs start
  have h := congrArg List.length (withRuns_settings world xs start)
  simpa using h

theorem processUser_reaches (st : ServerState) (userSettings : ProductionModeSettings)
    (run : UserRun) (userDoc : UserDoc) (credentials : AwsCredentials)
    (hdoc : run.userDoc = .ok (some userDoc)) (hemail : userDoc.email ≠ "")
    (hcreds : run.credentials = some credentials)
    (hsts : (∃ account, run.sts = .ok account) ∨ ∃ key, credentials.awsAccessKey = some key) :
    (processUser st userSettings run).1
      = (evaluateAll userSettings userDoc run.instanceEval 0
          (scanRegions run.describe regionsToCheck) st).1 ∧
    (processUser st userSettings run).2.trace
      = passPrelude ++ (evaluateAll userSettings userDoc run.instanceEval 0
          (scanRegions run.describe regionsToCheck) st).2.1 := by
  have hnot : (match run.sts, credentials.awsAccessKey with
      | .error _, none => true
      | _, _ => false) = false := by
    rcases hsts with ⟨a, ha⟩ | ⟨k, hk⟩
    · rw [ha]
    · rw [hk]
      cases run.sts <;> rfl
  unfold processUser
  rw [hdoc]
  simp only [hemail, if_false, hcreds, hnot, Bool.false_eq_true]
  rcases hrs : evaluateAll userSettings userDoc run.instanceEval 0
    (scanRegions run.describe regionsToCheck) st with ⟨s1, tr, err⟩
  cases err <;> simp [passPrelude, regionsToCheck]

theorem evaluateAll_reaches (st : ServerState) (userSettings : ProductionModeSettings)
    (userDoc : UserDoc) (evals : Nat → InstanceEval)
    (pre post : List (Ec2Instance × String)) (inst : Ec2Instance) (region : String)
    (dps : List Datapoint)
    (hpre : ∀ k, k < pre.length →
      (∃ m, (evals k).metrics = .ok m) ∧ ∃ b, (evals k).emailResponse = .ok b)
    (hids : ∀ p ∈ pre, p.1.instanceId ≠ inst.instanceId)
    (hopt : emailEnabledOf userSettings inst.instanceId ≠ some false)
    (hgate : cooldownDenies st.emailAlertHistory userSettings.userId inst.instanceId
      ((evals pre.length).clock 0) = false)
    (hmet : (evals pre.length).metrics = .ok (some dps)) (hdps : dps ≠ [])
    (hlow : avgCPU dps < LOW_UTILIZATION_THRESHOLD)
    (hacc : (evals pre.length).emailResponse = .ok true) :
    Effect.sendEmail userDoc.email inst.instanceId
      ∈ (evaluateAll userSettings userDoc evals 0 (pre ++ (inst, region) :: post) st).2.1 ∧
    sentRecord userSettings inst (instanceNameOf inst) (avgCPU dps) (evals pre.length).clock
      ∈ (evaluateAll userSettings userDoc evals 0 (pre ++ (inst, region) :: post)
          st).1.emailAlertHistory := by
  obtain ⟨⟨added, ha, haid⟩, _, hnone⟩ := evaluateAll_shape userSettings userDoc evals pre 0 st
  have hnone' := hnone (fun j hj => by simpa using hpre j hj)
  rw [evaluateAll_append userSettings userDoc evals pre ((inst, region) :: post) 0 st hnone']
  simp only [Nat.zero_add]
  have hgate' : cooldownDenies
      (evaluateAll userSettings userDoc evals 0 pre st).1.emailAlertHistory
      userSettings.userId inst.instanceId ((evals pre.length).clock 0) = false := by
    rw [ha, cooldownDenies_append, hgate, Bool.false_or]
    apply cooldownDenies_other_instance
    intro r hr heq
    obtain ⟨_, p, hp, hpid⟩ := haid r hr
    exact hids p hp (hpid.symm.trans heq)
  have hsent := evaluateInstanceRun_sent (evaluateAll userSettings userDoc evals 0 pre st).1
    userSettings userDoc inst region (evals pre.length) dps hopt hgate' hmet hdps hlow hacc
  obtain ⟨⟨added2, ha2, _⟩, _, _⟩ := evaluateAll_shape userSettings userDoc evals post
    (pre.length + 1)
    { (evaluateAll userSettings userDoc evals 0 pre st).1 with
      emailAlertHistory := (evaluateAll userSettings userDoc evals 0 pre st).1.emailAlertHistory
        ++ [sentRecord userSettings inst (instanceNameOf inst) (avgCPU dps)
              (evals pre.length).clock],
      history := (evaluateAll userSettings userDoc evals 0 pre st).1.history
        ++ [sentHistoryEntry userSettings userDoc inst (instanceNameOf inst)
              (avgCPU dps) (evals pre.length).clock] }
  rcases hrest : evaluateAll userSettings userDoc evals (pre.length + 1) post
    { (evaluateAll userSettings userDoc evals 0 pre st).1 with
      emailAlertHistory := (evaluateAll userSettings userDoc evals 0 pre st).1.emailAlertHistory
        ++ [sentRecord userSettings inst (instanceNameOf inst) (avgCPU dps)
              (evals pre.length).clock],
      history := (evaluateAll userSettings userDoc evals 0 pre st).1.history
        ++ [sentHistoryEntry userSettings userDoc inst (instanceNameOf inst)
              (avgCPU dps) (evals pre.length).clock] } with ⟨s2, tr2, err2⟩
  rw [hrest] at ha2
  simp only [] at ha2
  have estep : evaluateAll userSettings userDoc evals pre.length ((inst, region) :: post)
      (evaluateAll userSettings userDoc evals 0 pre st).1
      = (s2, [passMetricCall region inst (evals pre.length).clock,
              Effect.sendEmail userDoc.email inst.instanceId] ++ tr2, err2) := by
    simp only [evaluateAll, hsent, hrest]
  rw [estep]
  constructor
  · simp
  · simp only []
    rw [ha2]
    simp

/-- C11, amended: two consecutive passes of the background service over any
number of users and instances.  In the first pass, inside the active hours,
the user is enabled and is the first settings document with that user id; the
user's document has an email, the credentials exist and the account id
resolves; the instance is among the running instances the scan finds, no
entry listed before it has the same instance id, and the metric call and the
mail request of the entries listed before it do not throw.  If email is not
disabled for the instance, the cooldown does not deny it at the start of the
pass, its metric response has datapoints whose average is below the
low-utilization threshold and the mail service accepts the request, then the
report of that user holds the mail request for the instance and the state
after the pass holds the alert record.  In the second pass, started from that
state with any settings and any answers of the environment, every gate
reading being less than 60 minutes after the gate reading of the first pass:
the cooldown denies (user, instance) at every gate reading, no report of that
user holds a metric call or a mail request about the instance, and the alert
records of (user, instance) are the same after the pass as before it. -/
theorem second_tick_within_cooldown_sends_nothing (st : ServerState) (hour1 hour2 : Nat)
    (settings1 settings2 : List ProductionModeSettings) (world1 world2 : Nat → UserRun)
    (before after : List ProductionModeSettings) (userSettings : ProductionModeSettings)
    (userDoc : UserDoc) (credentials : AwsCredentials)
    (pre post : List (Ec2Instance × String)) (inst : Ec2Instance) (region : String)
    (dps : List Datapoint)
    (hh1 : 6 ≤ hour1 ∧ hour1 ≤ 22)
    (husers : settings1.filter (fun s => s.enabled) = before ++ userSettings :: after)
    (hothers : ∀ s ∈ before, s.userId ≠ userSettings.userId)
    (hdoc : (world1 before.length).userDoc = .ok (some userDoc))
    (hemail : userDoc.email ≠ "")
    (hcreds : (world1 before.length).credentials = some credentials)
    (hsts : (∃ account, (world1 before.length).sts = .ok account) ∨
      ∃ key, credentials.awsAccessKey = some key)
    (hscan : scanRegions (world1 before.length).describe regionsToCheck
      = pre ++ (inst, region) :: post)
    (hpre : ∀ k, k < pre.length →
      (∃ m, ((world1 before.length).instanceEval k).metrics = .ok m) ∧
      ∃ b, ((world1 before.length).instanceEval k).emailResponse = .ok b)
    (hids : ∀ p ∈ pre, p.1.instanceId ≠ inst.instanceId)
    (hopt : emailEnabledOf userSettings inst.instanceId ≠ some false)
    (hgate : cooldownDenies st.emailAlertHistory userSettings.userId inst.instanceId
      (((world1 before.length).instanceEval pre.length).clock 0) = false)
    (hmet : ((world1 before.length).instanceEval pre.length).metrics = .ok (some dps))
    (hdps : dps ≠ [])
    (hlow : avgCPU dps < LOW_UTILIZATION_THRESHOLD)
    (hacc : ((world1 before.length).instanceEval pre.length).emailResponse = .ok true)
    (hmono : ((world1 before.length).instanceEval pre.length).clock 0
      ≤ ((world1 before.length).instanceEval pre.length).clock 2)
    (hsoon : ∀ j k, ((world2 j).instanceEval k).clock 0
      < ((world1 before.length).instanceEval pre.length).clock 0 + 60 * 60 * 1000) :
    (∃ report,
      (monitorLowUtilizationInstances st hour1 settings1 world1).2[before.length]?
        = some report ∧
      report.userId = userSettings.userId ∧
      Effect.sendEmail userDoc.email inst.instanceId ∈ report.trace) ∧
    sentRecord userSettings inst (instanceNameOf inst) (avgCPU dps)
        ((world1 before.length).instanceEval pre.length).clock
      ∈ (monitorLowUtilizationInstances st hour1 settings1 world1).1.emailAlertHistory ∧
    (∀ j k, cooldownDenies
      (monitorLowUtilizationInstances st hour1 settings1 world1).1.emailAlertHistory
      userSettings.userId inst.instanceId (((world2 j).instanceEval k).clock 0) = true) ∧
    (∀ report ∈ (monitorLowUtilizationInstances
        (monitorLowUtilizationInstances st hour1 settings1 world1).1 hour2 settings2
        world2).2,
      report.userId = userSettings.userId →
      ∀ e ∈ report.trace, e.aboutInstance ≠ some inst.instanceId) ∧
    (monitorLowUtilizationInstances
        (monitorLowUtilizationInstances st hour1 settings1 world1).1 hour2 settings2
        world2).1.emailAlertHistory.filter
        (matchesAlert userSettings.userId inst.instanceId)
      = (monitorLowUtilizationInstances st hour1 settings1 world1).1.emailAlertHistory.filter
        (matchesAlert userSettings.userId inst.instanceId) := by
  -- the users before
  obtain ⟨addedB, hB, hBids⟩ := passUsers_added (withRuns world1 0 before) st
  have hcool : cooldownDenies
      (passUsers st (withRuns world1 0 before)).1.emailAlertHistory
      userSettings.userId inst.instanceId
      (((world1 before.length).instanceEval pre.length).clock 0) = false := by
    rw [hB, cooldownDenies_append, hgate, Bool.false_or]
    apply cooldownDenies_foreign
    intro r hr heq
    obtain ⟨p, hp, hpid⟩ := hBids r hr
    have hmem : p.1 ∈ before := by
      have := List.mem_map_of_mem (fun q : ProductionModeSettings × UserRun => q.1) hp
      rwa [withRuns_settings] at this
    exact hothers p.1 hmem (hpid.symm.trans heq)
  -- the user
  obtain ⟨hstate, htrace⟩ := processUser_reaches
    (passUsers st (withRuns world1 0 before)).1 userSettings (world1 before.length)
    userDoc credentials hdoc hemail hcreds hsts
  rw [hscan] at hstate htrace
  obtain ⟨hsend, hrecord⟩ := evaluateAll_reaches
    (passUsers st (withRuns world1 0 before)).1 userSettings userDoc
    (world1 before.length).instanceEval pre post inst region dps hpre hids hopt hcool hmet
    hdps hlow hacc
  have hid := processUser_report_userId (passUsers st (withRuns world1 0 before)).1
    userSettings (world1 before.length)
  rcases hpu : processUser (passUsers st (withRuns world1 0 before)).1 userSettings
    (world1 before.length) with ⟨s1, rep⟩
  rw [hpu] at hstate htrace hid
  simp only [] at hstate htrace hid
  -- the users after
  obtain ⟨addedA, hA, _⟩ := passUsers_added (withRuns world1 (before.length + 1) after) s1
  rcases hpa : passUsers s1 (withRuns world1 (before.length + 1) after) with ⟨s2, reps⟩
  rw [hpa] at hA
  simp only [] at hA
  have htick : monitorLowUtilizationInstances st hour1 settings1 world1
      = (s2, (passUsers st (withRuns world1 0 before)).2 ++ rep :: reps) := by
    rw [pass_inside_hours st settings1 world1 hour1 hh1.1 hh1.2, husers, withRuns_append,
      passUsers_append]
    simp only [withRuns, Nat.zero_add, passUsers, hpu, hpa]
  have hrec2 : sentRecord userSettings inst (instanceNameOf inst) (avgCPU dps)
      ((world1 before.length).instanceEval pre.length).clock ∈ s2.emailAlertHistory := by
    rw [hA, hstate]
    exact List.mem_append_left _ hrecord
  have hlate : ∀ j k, ((world2 j).instanceEval k).clock 0 - 60 * 60 * 1000
      < (sentRecord userSettings inst (instanceNameOf inst) (avgCPU dps)
          ((world1 before.length).instanceEval pre.length).clock).timestamp := by
    intro j k
    show _ < ((world1 before.length).instanceEval pre.length).clock 2
    have := hsoon j k
    omega
  rw [htick]
  refine ⟨⟨rep, ?_, hid, ?_⟩, hrec2, ?_, ?_⟩
  · have hlen : (passUsers st (withRuns world1 0 before)).2.length = before.length := by
      rw [passUsers_length, withRuns_length]
    simp only []
    rw [List.getElem?_append_right (by omega), hlen, Nat.sub_self]
    simp
  · rw [htrace]
    exact List.mem_append_right _ hsend
  · intro j k
    rw [cooldownDenies_iff_exists]
    exact ⟨_, hrec2, matchesAlert_sentRecord _ _ _ _ _, hlate j k⟩
  · have hkeep := pass_keeps_cooldown s2 hour2 settings2 world2 userSettings.userId
      inst.instanceId _ hrec2 (matchesAlert_sentRecord _ _ _ _ _) hlate
    exact ⟨hkeep.2.2, hkeep.2.1⟩

/-- Witness of the amended C11: a pass over `u2`, whose metric call throws,
and `u1` with the running instances `i-000` (busy) and `i-001` (idle at 2%
CPU), at hour 12; the second pass runs two minutes later. -/
theorem second_tick_within_cooldown_sends_nothing_witness :
    (∃ report,
      (monitorLowUtilizationInstances emptyState 12
        [settingsU2On, settingsU1With (some true)] (worldTwoUsers clockFrom10M)).2[1]?
        = some report ∧
      report.userId = "u1" ∧
      Effect.sendEmail "alice@example.com" "i-001" ∈ report.trace) ∧
    sentRecord (settingsU1With (some true)) instanceI001 "i-001"
        (avgCPU [{ timestamp := 900, average := 2 }]) clockFrom10M
      ∈ (monitorLowUtilizationInstances emptyState 12
          [settingsU2On, settingsU1With (some true)]
          (worldTwoUsers clockFrom10M)).1.emailAlertHistory ∧
    (∀ j k, cooldownDenies
      (monitorLowUtilizationInstances emptyState 12
        [settingsU2On, settingsU1With (some true)]
        (worldTwoUsers clockFrom10M)).1.emailAlertHistory
      "u1" "i-001"
      (((worldTwoUsers (fun k => clockFrom10M k + 120000) j).instanceEval k).clock 0)
        = true) ∧
    (∀ report ∈ (monitorLowUtilizationInstances
        (monitorLowUtilizationInstances emptyState 12
          [settingsU2On, settingsU1With (some true)] (worldTwoUsers clockFrom10M)).1
        12 [settingsU2On, settingsU1With (some true)]
        (worldTwoUsers (fun k => clockFrom10M k + 120000))).2,
      report.userId = "u1" →
      ∀ e ∈ report.trace, e.aboutInstance ≠ some "i-001") ∧
    (monitorLowUtilizationInstances
        (monitorLowUtilizationInstances emptyState 12
          [settingsU2On, settingsU1With (some true)] (worldTwoUsers clockFrom10M)).1
        12 [settingsU2On, settingsU1With (some true)]
        (worldTwoUsers (fun k => clockFrom10M k + 120000))).1.emailAlertHistory.filter
        (matchesAlert "u1" "i-001")
      = (monitorLowUtilizationInstances emptyState 12
          [settingsU2On, settingsU1With (some true)]
          (worldTwoUsers clockFrom10M)).1.emailAlertHistory.filter
        (matchesAlert "u1" "i-001") :=
  second_tick_within_cooldown_sends_nothing emptyState 12 12
    [settingsU2On, settingsU1With (some true)] [settingsU2On, settingsU1With (some true)]
    (worldTwoUsers clockFrom10M) (worldTwoUsers (fun k => clockFrom10M k + 120000))
    [settingsU2On] [] (settingsU1With (some true)) userU1
    { awsAccessKey := some "AKIA", awsSecretKey := some "secret" }
    [(instanceI000, "us-east-1")] [] instanceI001 "us-east-1"
    [{ timestamp := 900, average := 2 }]
    (by decide) rfl (by decide) rfl (by decide) rfl (Or.inl ⟨_, rfl⟩) (by decide)
    (fun k hk => by
      have h0 : k = 0 := by simpa using hk
      subst h0
      exact ⟨⟨_, rfl⟩, ⟨_, rfl⟩⟩)
    (by decide) (by decide) (by decide) rfl (by simp)
    (by rw [avgCPU_single_two]; simp only [LOW_UTILIZATION_THRESHOLD]; norm_num)
    rfl (by decide)
    (fun j k => by
      show _ < (10000000 : Int) + 60 * 60 * 1000
      unfold worldTwoUsers
      split
      · simp [runMetricsThrow, runU1, clockFrom10M]
      · simp only [runU1TwoInstances]
        split <;> simp [evalBusyAccepted, evalIdleAccepted, clockFrom10M])

end CloudCostOptimizer
